import Mathlib

/-!
The scripting library libscript: conversions and overload resolution.

A shallow embedding of the conversion engine (`src/conversions.cpp`), of the
overload resolver (`include/script/overloadresolution.h`) and of the value
constructor (`src/compiler/valueconstructor.cpp`), followed by the properties
established about them.
-/

namespace script

/-! ## Types (`include/script/types.h`) -/

/-- Modelled from the spec: the 32-bit type handle of `types.h`, decomposed into
the index of its low 16 bits and one boolean per flag bit of `Type::TypeFlag`.
The member functions of `Type` live in `types.cpp`, which is not among the
sources; the ones below follow the spec (section 3, Type) and the way the
sources use them. -/
structure Type_ where
  index : Nat
  enumFlag : Bool := false
  objectFlag : Bool := false
  lambdaFlag : Bool := false
  prototypeFlag : Bool := false
  referenceFlag : Bool := false
  constFlag : Bool := false
  forwardReferenceFlag : Bool := false
  thisFlag : Bool := false
  managedFlag : Bool := false
  optionalFlag : Bool := false
  protectedFlag : Bool := false
  privateFlag : Bool := false
deriving DecidableEq, Repr

namespace Type_

/-- The built-in type `Type::Null = 0`. -/
def Null : Type_ := { index := 0 }
/-- The built-in type `Type::Void = 1`. -/
def Void : Type_ := { index := 1 }
/-- The built-in type `Type::Boolean = 2`. -/
def Boolean : Type_ := { index := 2 }
/-- The built-in type `Type::Char = 3`. -/
def Char : Type_ := { index := 3 }
/-- The built-in type `Type::Int = 4`. -/
def Int : Type_ := { index := 4 }
/-- The built-in type `Type::Float = 5`. -/
def Float : Type_ := { index := 5 }
/-- The built-in type `Type::Double = 6`. -/
def Double : Type_ := { index := 6 }
/-- The built-in type `Type::String = ObjectFlag | 1`. -/
def String : Type_ := { index := 1, objectFlag := true }
/-- The built-in type `Type::InitializerList = 8`. -/
def InitializerList : Type_ := { index := 8 }
/-- The built-in type `Type::Auto = 9`. -/
def Auto : Type_ := { index := 9 }

/-- Modelled from the spec: `Type::baseType()`, the handle without its
qualifier flags. The index and the four category flags (enum, object, closure,
function signature) are kept: `Type::String` is `ObjectFlag | 1`, and
`array.cpp` asks `element_type.isObjectType()` of a base type. -/
def baseType (t : Type_) : Type_ :=
  { index := t.index, enumFlag := t.enumFlag, objectFlag := t.objectFlag,
    lambdaFlag := t.lambdaFlag, prototypeFlag := t.prototypeFlag }

/-- Modelled from the spec: `Type::data()`, the integer behind the handle,
with the flag values of `Type::TypeFlag`. -/
def data (t : Type_) : Nat :=
  t.index
    + (if t.enumFlag then 0x010000 else 0)
    + (if t.objectFlag then 0x020000 else 0)
    + (if t.lambdaFlag then 0x040000 else 0)
    + (if t.prototypeFlag then 0x080000 else 0)
    + (if t.referenceFlag then 0x100000 else 0)
    + (if t.constFlag then 0x200000 else 0)
    + (if t.forwardReferenceFlag then 0x400000 else 0)
    + (if t.thisFlag then 0x800000 else 0)
    + (if t.managedFlag then 0x1000000 else 0)
    + (if t.optionalFlag then 0x2000000 else 0)
    + (if t.protectedFlag then 0x4000000 else 0)
    + (if t.privateFlag then 0x8000000 else 0)

/-- Modelled from the spec: `Type::isConst()`. -/
def isConst (t : Type_) : Bool := t.constFlag
/-- Modelled from the spec: `Type::isReference()`. -/
def isReference (t : Type_) : Bool := t.referenceFlag
/-- Modelled from the spec: `Type::isRefRef()`. -/
def isRefRef (t : Type_) : Bool := t.forwardReferenceFlag
/-- Modelled from the spec: `Type::isObjectType()`. -/
def isObjectType (t : Type_) : Bool := t.objectFlag
/-- Modelled from the spec: `Type::isEnumType()`. -/
def isEnumType (t : Type_) : Bool := t.enumFlag
/-- Modelled from the spec: `Type::isClosureType()`. -/
def isClosureType (t : Type_) : Bool := t.lambdaFlag
/-- Modelled from the spec: `Type::isFunctionType()`. -/
def isFunctionType (t : Type_) : Bool := t.prototypeFlag

/-- Modelled from the spec: `Type::isFundamentalType()`. A fundamental type has
no category flag and one of the fixed indices `Void` to `Double`
(`ValueConstructor::fundamental` asserts it and then switches over these). -/
def isFundamentalType (t : Type_) : Bool :=
  !t.enumFlag && !t.objectFlag && !t.lambdaFlag && !t.prototypeFlag
    && decide (1 ≤ t.index) && decide (t.index ≤ 6)

/-- Modelled from the spec: `Type::ref`, the handle with the reference flag set. -/
def ref (t : Type_) : Type_ := { t with referenceFlag := true }
/-- Modelled from the spec: `Type::cref`, the handle with the reference and
const flags set. -/
def cref (t : Type_) : Type_ := { t with referenceFlag := true, constFlag := true }
/-- Modelled from the spec: `Type::withConst`. -/
def withConst (t : Type_) : Type_ := { t with constFlag := true }

end Type_

/-! ## Standard conversions (`src/conversions.cpp`) -/

/-- Modelled from the spec: `enum class ConversionRank` of `conversions.h`
(not among the sources), in the order of the ranking of section 4.6. -/
inductive ConversionRank where
  | ExactMatch
  | Promotion
  | Conversion
  | UserDefinedConversion
  | NotConvertible
deriving DecidableEq, Repr

/-- The integer behind a rank; `<` on ranks compares these. -/
def ConversionRank.toNat : ConversionRank → Nat
  | .ExactMatch => 1
  | .Promotion => 2
  | .Conversion => 3
  | .UserDefinedConversion => 4
  | .NotConvertible => 5

/-- Modelled from the spec: enumerators of `NumericConversion` and
`NumericPromotion` in `conversions.h` (not among the sources). The promotions
and the conversions occupy disjoint bits, which is what the two masks of
`numericPromotion()` and `numericConversion()` rely on. -/
def NumericConversion.NoNumericConversion : Nat := 0
/-- See `NumericConversion.NoNumericConversion`. -/
def NumericConversion.IntegralConversion : Nat := 1
/-- See `NumericConversion.NoNumericConversion`. -/
def NumericConversion.FloatingPointConversion : Nat := 2
/-- See `NumericConversion.NoNumericConversion`. -/
def NumericConversion.BooleanConversion : Nat := 3
/-- See `NumericConversion.NoNumericConversion`. -/
def NumericPromotion.NoNumericPromotion : Nat := 0
/-- See `NumericConversion.NoNumericConversion`. -/
def NumericPromotion.IntegralPromotion : Nat := 4
/-- See `NumericConversion.NoNumericConversion`. -/
def NumericPromotion.FloatingPointPromotion : Nat := 8

/-- Modelled from the spec: `enum QualificationAdjustment` of `conversions.h`
(not among the sources); the sources multiply it with a flag and test it as a
boolean, so it is `0` or `1`. -/
inductive QualificationAdjustment where
  | NoQualificationAdjustment
  | ConstQualification
deriving DecidableEq, Repr

/-- The integer behind a qualification adjustment. -/
def QualificationAdjustment.toNat : QualificationAdjustment → Nat
  | .NoQualificationAdjustment => 0
  | .ConstQualification => 1

/-- The table `stdconv_table`: conversion id of a pair of fundamental types. -/
def stdconv_table : List Nat := [
  0, 2, 3, 4, 5,
  6, 0, 8, 9, 10,
  11, 12, 0, 14, 15,
  16, 17, 18, 0, 20,
  21, 22, 23, 24, 0]

open NumericConversion NumericPromotion in
/-- The table `conversion_categories`, indexed by conversion id. -/
def conversion_categories : List Nat := [
  0,
  0, IntegralPromotion, IntegralPromotion, FloatingPointPromotion, FloatingPointPromotion,
  BooleanConversion, 0, IntegralPromotion, FloatingPointPromotion, FloatingPointPromotion,
  BooleanConversion, IntegralConversion, 0, FloatingPointPromotion, FloatingPointPromotion,
  BooleanConversion, IntegralConversion, IntegralConversion, 0, FloatingPointPromotion,
  BooleanConversion, IntegralConversion, IntegralConversion, FloatingPointConversion, 0,
  IntegralConversion,
  0,
  0]

/-- The table `conversion_ranks`, indexed by conversion id. -/
def conversion_ranks : List ConversionRank := [
  .ExactMatch,
  .ExactMatch, .Promotion, .Promotion, .Promotion, .Promotion,
  .Conversion, .ExactMatch, .Promotion, .Promotion, .Promotion,
  .Conversion, .Conversion, .ExactMatch, .Promotion, .Promotion,
  .Conversion, .Conversion, .Conversion, .ExactMatch, .Promotion,
  .Conversion, .Conversion, .Conversion, .Conversion, .ExactMatch,
  .Conversion,
  .Conversion,
  .NotConvertible]

/-- The constant `gEnumToIntConversion`. -/
def gEnumToIntConversion : Nat := 26
/-- The constant `gDerivedToBaseConv`. -/
def gDerivedToBaseConv : Nat := 27
/-- The constant `gNotConvertibleStdConv`. -/
def gNotConvertibleStdConv : Nat := 28
/-- The constant `gConstQualAdjustStdConv = 1 << 5`. -/
def gConstQualAdjustStdConv : Nat := 1 <<< 5
/-- The constant `gRefConvStdConv = 1 << 6`. -/
def gRefConvStdConv : Nat := 1 <<< 6
/-- The constant `gDerivedToBaseConvOffset`. -/
def gDerivedToBaseConvOffset : Nat := 8
/-- The constant `gConvIdMask = (1 << 5) - 1`. -/
def gConvIdMask : Nat := (1 <<< 5) - 1
/-- The constant `g8bitsMask`. -/
def g8bitsMask : Nat := 255

/-- The function `checkNotConvertible`. -/
def checkNotConvertible (src dest : Type_) : Bool :=
  src == Type_.Void ||
  dest == Type_.Void ||
  (dest.isReference && src.baseType != dest.baseType) ||
  (dest.isReference && src.isConst && !dest.isConst)

/-- The class `StandardConversion2`: a bit-packed integer `d`. -/
structure StandardConversion2 where
  d : Nat
deriving DecidableEq, Repr

namespace StandardConversion2

/-- The default constructor `StandardConversion2()`. -/
def default_ : StandardConversion2 := ⟨gRefConvStdConv⟩

/-- The factory `StandardConversion2::NotConvertible()`. -/
def NotConvertible : StandardConversion2 := ⟨gNotConvertibleStdConv⟩

/-- The index `(src.baseType().data() - 2)*5 + (dest.baseType().data() - 2)`
into `stdconv_table`, computed over the integers. -/
def tableIndex (src dest : Type_) : Int :=
  ((src.baseType.data : Int) - 2) * 5 + ((dest.baseType.data : Int) - 2)

/-- The read `stdconv_table[i]`; `none` when the index lies outside the table. -/
def stdconv_at (i : Int) : Option Nat :=
  if 0 ≤ i then stdconv_table.get? i.toNat else none

/-- The constructor `StandardConversion2(const Type & src, const Type & dest)`;
it throws unless both types are fundamental. A read outside `stdconv_table`
(the source has one only when `src` is `void` carrying other flags, where its
behaviour is undefined) yields "not convertible". -/
def fromTypes (src dest : Type_) : Except String StandardConversion2 :=
  if !src.isFundamentalType || !dest.isFundamentalType then
    .error "Types must be fundamental types"
  else if checkNotConvertible src dest then
    .ok ⟨gNotConvertibleStdConv⟩
  else
    match stdconv_at (tableIndex src dest) with
    | none => .ok ⟨gNotConvertibleStdConv⟩
    | some d0 =>
      let d1 := if dest.isReference then d0 ||| gRefConvStdConv else d0
      let d2 := if dest.isConst && !src.isConst then d1 ||| gConstQualAdjustStdConv else d1
      .ok ⟨d2⟩

/-- The constructor `StandardConversion2(QualificationAdjustment)`. -/
def fromQualificationAdjustment (qualadjust : QualificationAdjustment) : StandardConversion2 :=
  ⟨gRefConvStdConv ||| (gConstQualAdjustStdConv * qualadjust.toNat)⟩

/-- The method `isNone`. -/
def isNone (c : StandardConversion2) : Bool := c.d == gRefConvStdConv

/-- The factory `StandardConversion2::None()`. -/
def None : StandardConversion2 := ⟨gRefConvStdConv⟩

/-- The method `numericPromotion`. -/
def numericPromotion (c : StandardConversion2) : Nat :=
  conversion_categories.getD (c.d &&& gConvIdMask) 0
    &&& (NumericPromotion.IntegralPromotion ||| NumericPromotion.FloatingPointPromotion)

/-- The method `isNumericPromotion`. -/
def isNumericPromotion (c : StandardConversion2) : Bool :=
  c.numericPromotion != NumericPromotion.NoNumericPromotion

/-- The method `numericConversion`. -/
def numericConversion (c : StandardConversion2) : Nat :=
  conversion_categories.getD (c.d &&& gConvIdMask) 0
    &&& (NumericConversion.IntegralConversion ||| NumericConversion.FloatingPointConversion
          ||| NumericConversion.BooleanConversion)

/-- The method `isNumericConversion`. -/
def isNumericConversion (c : StandardConversion2) : Bool :=
  c.numericConversion != NumericConversion.NoNumericConversion

/-- The method `isNarrowing`. -/
def isNarrowing (c : StandardConversion2) : Bool := c.isNumericConversion

/-- The method `isDerivedToBaseConversion`. -/
def isDerivedToBaseConversion (c : StandardConversion2) : Bool :=
  (c.d &&& gConvIdMask) == gDerivedToBaseConv

/-- The method `rank`. The ids 29, 30 and 31, which no conversion built by this
class has, lie outside `conversion_ranks`; they are read as `NotConvertible`. -/
def rank (c : StandardConversion2) : ConversionRank :=
  if c.isDerivedToBaseConversion then .Conversion
  else if c.d == gNotConvertibleStdConv then .NotConvertible
  else conversion_ranks.getD (c.d &&& gConvIdMask) .NotConvertible

/-- The method `isCopy`. -/
def isCopy (c : StandardConversion2) : Bool :=
  (c.d &&& gRefConvStdConv) == 0 && (c.d &&& gConvIdMask) == 0

/-- The method `isReferenceConversion`. -/
def isReferenceConversion (c : StandardConversion2) : Bool :=
  (c.d &&& gRefConvStdConv) != 0

/-- Modelled from the spec: `isReferenceInitialization`, the name under which
the test of the standard conversions reads the kind of an initialization
(`conversions.h` is not among the sources): the conversion binds a
reference. -/
def isReferenceInitialization (c : StandardConversion2) : Bool := c.isReferenceConversion

/-- Modelled from the spec: `isCopyInitialization`, the other kind of
initialization in that test: a conversion other than "not convertible" that
binds no reference initializes a value, converted or not. The method `isCopy`
is narrower: it tests for the plain copy that the factory `Copy()` returns. -/
def isCopyInitialization (c : StandardConversion2) : Bool :=
  c != NotConvertible && !c.isReferenceConversion

/-- The method `hasQualificationAdjustment`. -/
def hasQualificationAdjustment (c : StandardConversion2) : Bool :=
  (c.d &&& gConstQualAdjustStdConv) != 0

/-- The method `derivedToBaseConversionDepth`. -/
def derivedToBaseConversionDepth (c : StandardConversion2) : Nat :=
  (c.d >>> gDerivedToBaseConvOffset) &&& g8bitsMask

/-- The method `with(QualificationAdjustment)`. -/
def with_ (c : StandardConversion2) (adjust : QualificationAdjustment) : StandardConversion2 :=
  ⟨c.d ||| (adjust.toNat * gConstQualAdjustStdConv)⟩

/-- The factory `StandardConversion2::Copy()`. -/
def Copy : StandardConversion2 := ⟨0⟩

/-- The factory `StandardConversion2::EnumToInt()`. -/
def EnumToInt : StandardConversion2 := ⟨gEnumToIntConversion⟩

/-- The factory `StandardConversion2::DerivedToBaseConversion`. The depth is a
natural number: the factory is only called with a positive depth. -/
def DerivedToBaseConversion (depth : Nat) (is_ref_conv : Bool)
    (adjust : QualificationAdjustment) : StandardConversion2 :=
  ⟨gDerivedToBaseConv ||| (depth <<< gDerivedToBaseConvOffset)
    ||| (if is_ref_conv then gRefConvStdConv else 0)
    ||| (if adjust != .NoQualificationAdjustment then gConstQualAdjustStdConv else 0)⟩

/-- The comparison `StandardConversion2::operator<`: `lt a b` says that `a` is
a better conversion than `b`. -/
def lt (a b : StandardConversion2) : Bool :=
  if a.rank.toNat < b.rank.toNat then true
  else if a.rank.toNat > b.rank.toNat then false
  else if b.isDerivedToBaseConversion && a.isDerivedToBaseConversion
      && decide (a.derivedToBaseConversionDepth < b.derivedToBaseConversionDepth) then true
  else if b.isDerivedToBaseConversion && a.isDerivedToBaseConversion
      && decide (a.derivedToBaseConversionDepth > b.derivedToBaseConversionDepth) then false
  else if !a.isReferenceConversion && b.isReferenceConversion then false
  else if a.isReferenceConversion && !b.isReferenceConversion then true
  else if b.hasQualificationAdjustment && !a.hasQualificationAdjustment then true
  else false

end StandardConversion2

/-! ## Functions, classes and the engine -/

/-- Modelled from the spec: the data of a function that the conversion engine
and the overload resolver read (`function.h` and `prototype.h` are not among
the sources): its prototype, the `explicit` flag, the number of default
arguments and its kind. The field `id` stands for the identity of the shared
implementation object, which is what `Function::operator==` compares. -/
structure FunctionImpl where
  id : Nat
  returnType : Type_ := Type_.Void
  parameters : List Type_ := []
  isExplicit : Bool := false
  isConstructor : Bool := false
  isCast : Bool := false
  hasImplicitObject : Bool := false
  defaultArguments : Nat := 0
deriving DecidableEq, Repr

/-- A `Function` handle: `none` is the null function. -/
abbrev Function := Option FunctionImpl

/-- Modelled from the spec: `Cast::sourceType()`; a cast's first parameter is
its `this` parameter. -/
def FunctionImpl.sourceType (c : FunctionImpl) : Type_ := c.parameters.getD 0 Type_.Null

/-- Modelled from the spec: `Cast::destType()`; a cast's return type is its
target. -/
def FunctionImpl.destType (c : FunctionImpl) : Type_ := c.returnType

/-- Modelled from the spec: what the conversion engine asks of `Engine` and of
the `Class` objects it hands out (`class.cpp` is not among the sources).
`inheritanceLevel src dest` is `getClass(src).inheritanceLevel(getClass(dest))`:
the number of parent links from the class of `src` up to the class of `dest`,
negative when they are unrelated; the other fields are
`getClass(t).isCopyConstructible()`, `getClass(t).constructors()` and
`getClass(t).casts()`. -/
structure Engine where
  inheritanceLevel : Type_ → Type_ → Int
  isCopyConstructible : Type_ → Bool
  constructors : Type_ → List FunctionImpl
  casts : Type_ → List FunctionImpl

namespace StandardConversion2

/-- The expression `(dest.isConst() && !src.isConst()) ? ConstQualification :
NoQualificationAdjustment` of `StandardConversion2::compute`. -/
def adjustFor (src dest : Type_) : QualificationAdjustment :=
  if dest.isConst && !src.isConst then .ConstQualification else .NoQualificationAdjustment

/-- The function `StandardConversion2::compute`. The branch `.error` of the
call of the two-type constructor is never taken: the guard just above it is the
constructor's own precondition. -/
def compute (src dest : Type_) (e : Engine) : StandardConversion2 :=
  if dest.isReference && src.isConst && !dest.isConst then NotConvertible
  else if dest.isFundamentalType && src.isFundamentalType then
    match fromTypes src dest with
    | .ok c => c
    | .error _ => NotConvertible
  else if src.isObjectType && dest.isObjectType then
    let inheritance_depth := e.inheritanceLevel src dest
    if inheritance_depth < 0 then NotConvertible
    else
      let adjust := adjustFor src dest
      if inheritance_depth == 0 then
        if dest.isReference then default_.with_ adjust
        else if !e.isCopyConstructible dest then NotConvertible
        else Copy.with_ adjust
      else
        if dest.isReference then
          DerivedToBaseConversion inheritance_depth.toNat dest.isReference adjust
        else if !e.isCopyConstructible dest then NotConvertible
        else DerivedToBaseConversion inheritance_depth.toNat dest.isReference adjust
  else if src.baseType == dest.baseType then
    let adjust := adjustFor src dest
    if dest.isReference then default_
    else if dest.isEnumType || dest.isClosureType || dest.isFunctionType then Copy.with_ adjust
    else NotConvertible
  else if src.isEnumType && dest.baseType == Type_.Int then
    let adjust := adjustFor src dest
    if dest.isReference then NotConvertible
    else EnumToInt.with_ adjust
  else NotConvertible

end StandardConversion2

/-! ## Conversion sequences (`src/conversions.cpp`) -/

/-- Modelled from the spec: `enum Conversion::ConversionPolicy` of
`conversions.h` (not among the sources). -/
inductive ConversionPolicy where
  | NoExplicitConversions
  | AllowExplicitConversions
deriving DecidableEq, Repr

/-- The class `Conversion`: `(conv1, function, conv3)`. A conversion built from
a standard conversion alone has the null function and the default-constructed
second standard conversion. -/
structure Conversion where
  conv1 : StandardConversion2
  function : Function := none
  conv3 : StandardConversion2 := StandardConversion2.default_
deriving DecidableEq, Repr

namespace Conversion

/-- The factory `Conversion::NotConvertible()`. -/
def NotConvertible : Conversion := { conv1 := StandardConversion2.NotConvertible }

/-- The comparison `Conversion::operator==`, as written in the source: its
third conjunct compares `other.function` with itself. -/
def eq (a other : Conversion) : Bool :=
  a.conv1 == other.conv1 && a.conv3 == other.conv3 && other.function == other.function

/-- The comparison `Conversion::operator!=`. -/
def ne (a other : Conversion) : Bool := !(a.eq other)

/-- The method `Conversion::rank`. -/
def rank (c : Conversion) : ConversionRank :=
  if c.conv1 == StandardConversion2.NotConvertible then .NotConvertible
  else if c.function.isSome then .UserDefinedConversion
  else c.conv1.rank

/-- The method `Conversion::isInvalid`. -/
def isInvalid (c : Conversion) : Bool := c.conv1.rank == .NotConvertible

/-- The method `Conversion::isNarrowing`. -/
def isNarrowing (c : Conversion) : Bool := c.conv1.isNarrowing || c.conv3.isNarrowing

/-- The method `Conversion::isUserDefinedConversion`. -/
def isUserDefinedConversion (c : Conversion) : Bool := c.function.isSome

/-- The function `Conversion::comp`. -/
def comp (a b : Conversion) : Int :=
  if a.function.isNone && !b.function.isNone then -1
  else if b.function.isNone && !a.function.isNone then 1
  else if a.function.isNone && b.function.isNone then
    if a.conv1.lt b.conv1 then -1
    else if b.conv1.lt a.conv1 then 1
    else 0
  else if a.conv3.lt b.conv3 then -1
  else if b.conv3.lt a.conv3 then 1
  else 0

end Conversion

/-- The three locals `best_conv`, `best_ctor` and `ambiguous_conv` of
`select_converting_constructor2`. -/
structure CtorSelection where
  best_conv : StandardConversion2
  best_ctor : Function
  ambiguous_conv : StandardConversion2
deriving DecidableEq, Repr

/-- The test of `select_converting_constructor2` that lets a constructor take
part: one parameter, and not `explicit` when the policy forbids it. -/
def ctorConsidered (policy : ConversionPolicy) (c : FunctionImpl) : Bool :=
  !(c.parameters.length != 1) && !(c.isExplicit && policy == .NoExplicitConversions)

/-- One iteration of the loop of `select_converting_constructor2`. -/
def select_converting_constructor2_step (src : Type_) (engine : Engine)
    (policy : ConversionPolicy) (st : CtorSelection) (c : FunctionImpl) : CtorSelection :=
  if c.parameters.length != 1 then st
  else if c.isExplicit && policy == .NoExplicitConversions then st
  else
    let first_conversion := StandardConversion2.compute src (c.parameters.getD 0 Type_.Null) engine
    if first_conversion == StandardConversion2.NotConvertible then st
    else
      let comp1 := first_conversion.lt st.best_conv
      let comp2 := st.best_conv.lt first_conversion
      if comp1 && !comp2 then
        { best_conv := first_conversion, best_ctor := some c,
          ambiguous_conv := StandardConversion2.NotConvertible }
      else if comp2 && !comp1 then st
      else { st with ambiguous_conv := first_conversion }

/-- The function `select_converting_constructor2`. -/
def select_converting_constructor2 (src : Type_) (ctors : List FunctionImpl) (dest : Type_)
    (engine : Engine) (policy : ConversionPolicy) : Conversion :=
  if dest.isReference && !dest.isConst && src.isConst then Conversion.NotConvertible
  else
    let st := ctors.foldl (select_converting_constructor2_step src engine policy)
      { best_conv := StandardConversion2.NotConvertible, best_ctor := none,
        ambiguous_conv := StandardConversion2.NotConvertible }
    if !(st.best_conv.lt st.ambiguous_conv) then Conversion.NotConvertible
    else { conv1 := st.best_conv, function := st.best_ctor, conv3 := StandardConversion2.None }

/-- The function `select_cast2`. -/
def select_cast2 (src : Type_) (casts : List FunctionImpl) (dest : Type_)
    (engine : Engine) (policy : ConversionPolicy) : Conversion :=
  match casts with
  | [] => Conversion.NotConvertible
  | c :: rest =>
    if c.isExplicit && policy == .NoExplicitConversions then
      select_cast2 src rest dest engine policy
    else
      let first_conversion := StandardConversion2.compute src c.sourceType engine
      if first_conversion == StandardConversion2.NotConvertible then
        select_cast2 src rest dest engine policy
      else
        let second_conversion := StandardConversion2.compute c.destType dest engine
        if second_conversion == StandardConversion2.NotConvertible then
          select_cast2 src rest dest engine policy
        else
          let second_conversion :=
            if second_conversion == StandardConversion2.Copy then StandardConversion2.default_
            else second_conversion
          { conv1 := first_conversion, function := some c, conv3 := second_conversion }

/-- The function `Conversion::compute(src, dest, engine, policy)`. -/
def Conversion.compute (src dest : Type_) (engine : Engine)
    (policy : ConversionPolicy) : Conversion :=
  let stdconv := StandardConversion2.compute src dest engine
  if stdconv != StandardConversion2.NotConvertible then { conv1 := stdconv }
  else if !src.isObjectType && !dest.isObjectType then Conversion.NotConvertible
  else
    let viaCtor : Option Conversion :=
      if dest.isObjectType then
        let userdefconv :=
          select_converting_constructor2 src (engine.constructors dest) dest engine policy
        if userdefconv.ne Conversion.NotConvertible then some userdefconv else none
      else none
    match viaCtor with
    | some c => c
    | none =>
      let viaCast : Option Conversion :=
        if src.isObjectType then
          let userdefconv := select_cast2 src (engine.casts src) dest engine policy
          if userdefconv.ne Conversion.NotConvertible then some userdefconv else none
        else none
      match viaCast with
      | some c => c
      | none => Conversion.NotConvertible

/-! ## Overload resolution (`include/script/overloadresolution.h`) -/

/-- Modelled from the spec: `enum Initialization::Kind` of `initialization.h`
(not among the sources). -/
inductive InitializationKind where
  | InvalidInitialization
  | DefaultInitialization
  | CopyInitialization
  | DirectInitialization
deriving DecidableEq, Repr

/-- Modelled from the spec: the class `Initialization` of `initialization.h`
(not among the sources): a kind and the conversion that initializes a
parameter from an argument. -/
structure Initialization where
  kind : InitializationKind
  conversion : Conversion
deriving DecidableEq, Repr

/-- The struct `OverloadResolution::Candidate`. -/
structure Candidate where
  function : Function := none
  initializations : List Initialization := []
deriving DecidableEq, Repr

/-- The method `Candidate::reset`, also the default-constructed candidate. -/
def Candidate.reset : Candidate := { function := none, initializations := [] }

/-- The method `Candidate::set`. -/
def Candidate.set (f : FunctionImpl) : Candidate := { function := some f, initializations := [] }

/-- The enumeration `OverloadResolution::OverloadComparison`. -/
inductive OverloadComparison where
  | FirstIsBetter
  | SecondIsBetter
  | Indistinguishable
  | NotComparable
deriving DecidableEq, Repr

/-- The function `details::overloadresolution_process_candidate`. The three
candidates are passed by reference in the source; here their final values are
returned, in the order `(current, selected, ambiguous)`. The comparison
`OverloadResolution::compare` is a parameter. -/
def overloadresolution_process_candidate
    (compare : Candidate → Candidate → OverloadComparison)
    (current selected ambiguous : Candidate) : Candidate × Candidate × Candidate :=
  if current.function == selected.function || current.function == ambiguous.function then
    (current, selected, ambiguous)
  else
    match compare current selected with
    | .Indistinguishable => (ambiguous, selected, current)
    | .NotComparable => (ambiguous, selected, current)
    | .FirstIsBetter =>
      -- after `std::swap(selected, current)` the source's `selected` is `current` here
      if !ambiguous.function.isNone then
        if compare current ambiguous == .FirstIsBetter then (selected, current, Candidate.reset)
        else (selected, current, ambiguous)
      else (selected, current, ambiguous)
    | .SecondIsBetter =>
      if !ambiguous.function.isNone then
        if compare current ambiguous == .FirstIsBetter then (ambiguous, selected, current)
        else (current, selected, ambiguous)
      else (current, selected, ambiguous)

/-- The inner loop of `resolve_overloads`: the initializations of the
parameters `i, i+1, ...` of `func` from the arguments, or `none` as soon as one
of them is an `InvalidInitialization`. -/
def collect_initializations {α : Type} (initialization : Type_ → α → Initialization)
    (func : FunctionImpl) : Nat → List α → Option (List Initialization)
  | _, [] => some []
  | i, a :: rest =>
    let init := initialization (func.parameters.getD i Type_.Null) a
    if init.kind == .InvalidInitialization then none
    else (collect_initializations initialization func (i + 1) rest).map (fun l => init :: l)

/-- The arity test of `resolve_overloads`: `true` when the candidate is
skipped. -/
def arityMismatch (argc : Nat) (func : FunctionImpl) : Bool :=
  decide (argc > func.parameters.length)
    || decide (argc + func.defaultArguments < func.parameters.length)

/-- One iteration of the loop of `resolve_overloads(candidates, args)`, on the
pair `(selected, ambiguous)`; `current` is set anew at the start of every
iteration. -/
def resolve_overloads_step {α : Type} (initialization : Type_ → α → Initialization)
    (compare : Candidate → Candidate → OverloadComparison) (args : List α)
    (st : Candidate × Candidate) (func : FunctionImpl) : Candidate × Candidate :=
  if arityMismatch args.length func then st
  else
    match collect_initializations initialization func 0 args with
    | none => st
    | some inits =>
      let current : Candidate := { function := some func, initializations := inits }
      (overloadresolution_process_candidate compare current st.1 st.2).2

/-- The function template `resolve_overloads(candidates, args)`. The call
`details::overloadresolution_initialization(parameter, argument, engine)` and
`OverloadResolution::compare` are parameters. -/
def resolve_overloads {α : Type} (initialization : Type_ → α → Initialization)
    (compare : Candidate → Candidate → OverloadComparison)
    (candidates : List FunctionImpl) (args : List α) : Candidate :=
  let st := candidates.foldl (resolve_overloads_step initialization compare args)
    (Candidate.reset, Candidate.reset)
  if st.2.function.isNone && !st.1.function.isNone then st.1 else Candidate.reset

/-- The viability of a candidate as `resolve_overloads` tests it: the arity
test passes and every argument initialization is valid. -/
def viable {α : Type} (initialization : Type_ → α → Initialization)
    (args : List α) (func : FunctionImpl) : Bool :=
  !arityMismatch args.length func
    && (collect_initializations initialization func 0 args).isSome

/-- The candidate that `resolve_overloads` builds for a viable function. -/
def candidateOf {α : Type} (initialization : Type_ → α → Initialization)
    (args : List α) (func : FunctionImpl) : Candidate :=
  { function := some func,
    initializations := (collect_initializations initialization func 0 args).getD [] }

/-- Modelled from the spec: `Initialization::compute(parameter_type, arg_type,
engine, CopyInitialization)` of `initialization.cpp` (not among the sources):
one standard or user-defined conversion per argument, invalid when the
argument is not convertible. -/
def Initialization.compute (parameter_type arg_type : Type_) (e : Engine) : Initialization :=
  let conv := Conversion.compute arg_type parameter_type e .NoExplicitConversions
  if conv.eq Conversion.NotConvertible then
    { kind := .InvalidInitialization, conversion := conv }
  else { kind := .CopyInitialization, conversion := conv }

/-- Modelled from the spec: `Initialization::comp`, the comparison of the
conversions of two initializations. -/
def Initialization.comp (a b : Initialization) : Int := Conversion.comp a.conversion b.conversion

/-- Modelled from the spec: `OverloadResolution::compare` of
`overloadresolution.cpp` (not among the sources). A candidate is better than
another iff all its per-argument conversions are at least as good and at least
one is strictly better; equal quality is indistinguishable. An empty slot (null
function) loses to every candidate, which is what lets the first viable
candidate become `selected`. -/
def OverloadResolution.compare (a b : Candidate) : OverloadComparison :=
  if b.function.isNone && !a.function.isNone then .FirstIsBetter
  else if a.function.isNone && !b.function.isNone then .SecondIsBetter
  else if a.function.isNone && b.function.isNone then .Indistinguishable
  else if a.initializations.length != b.initializations.length then .NotComparable
  else
    let diffs := List.zipWith Initialization.comp a.initializations b.initializations
    if diffs.all (fun c => decide (c ≤ 0)) && diffs.any (fun c => decide (c < 0)) then
      .FirstIsBetter
    else if diffs.all (fun c => decide (0 ≤ c)) && diffs.any (fun c => decide (0 < c)) then
      .SecondIsBetter
    else if diffs.all (fun c => decide (c = 0)) then .Indistinguishable
    else .NotComparable

/-! ## Value construction (`src/compiler/valueconstructor.cpp`) -/

/-- The compile errors that `ValueConstructor` and `ExpressionCompiler` raise,
with their payload where the claims below read it; `RuntimeError` is a
`std::runtime_error` and `OutOfRange` the `std::out_of_range` of
`std::vector::at`. -/
inductive CompilerError where
  | ReferencesMustBeInitialized
  | EnumerationsCannotBeDefaultConstructed
  | FunctionVariablesMustBeInitialized
  | VariableCannotBeDefaultConstructed
  | ClassHasDeletedDefaultCtor
  | NotImplementedError
  | TooManyArgumentInInitialization
  | TooManyArgumentInReferenceInitialization
  | CouldNotConvert (src dest : Type_)
  | NarrowingConversionInBraceInitialization (src dest : Type_)
  | CouldNotFindValidConstructor
  | RuntimeError
  | InaccessibleMember (name : String)
  | OutOfRange
deriving DecidableEq, Repr

/-- Modelled from the spec: a typed program expression handed to the value
constructor; only its result type is read. -/
structure Expression where
  type : Type_
  node : Nat := 0
deriving DecidableEq, Repr

/-- The program expressions that `ValueConstructor` returns: the default value
of a fundamental type wrapped in a copy, a constructor call, and the result of
`ConversionProcessor::convert`. -/
inductive ConstructedValue where
  | FundamentalCopy (t : Type_)
  | ConstructorCall (ctor : FunctionImpl) (args : List Expression)
  | Converted (arg : Expression) (type : Type_) (seq : Conversion)
deriving DecidableEq, Repr

/-- What `ValueConstructor` asks of a class beyond the conversion engine:
`getClass(t).defaultConstructor()` with its deleted flag, and the outcome of
`OverloadResolution::process(ctors, args)` together with
`selectedOverload()` and `conversionSequence()` (`none` when it fails). -/
structure ConstructionEnv where
  defaultConstructor : Type_ → Function
  isDeleted : FunctionImpl → Bool
  process : List FunctionImpl → List Expression → Option (FunctionImpl × List Conversion)
  defaultPolicy : ConversionPolicy

/-- The function `Conversion::compute(expr, dest, engine)`; the policy is the
default argument of the four-argument overload, declared in `conversions.h`. -/
def Conversion.computeExpr (env : ConstructionEnv) (expr : Expression) (dest : Type_)
    (engine : Engine) : Except CompilerError Conversion :=
  if expr.type == Type_.InitializerList then .error .RuntimeError
  else .ok (Conversion.compute expr.type dest engine env.defaultPolicy)

namespace ValueConstructor

/-- The function `ValueConstructor::fundamental(e, t, copy)` with `copy = true`;
it throws for `void`. -/
def fundamental (t : Type_) : Except CompilerError ConstructedValue :=
  if t.baseType.data == 0 || t.baseType.data == 1 then .error .NotImplementedError
  else if 2 ≤ t.baseType.data && t.baseType.data ≤ 6 then .ok (.FundamentalCopy t)
  else .error .NotImplementedError

/-- The function `ValueConstructor::construct(e, type, nullptr, dp)`. -/
def constructDefault (env : ConstructionEnv) (type : Type_) :
    Except CompilerError ConstructedValue :=
  if type.isReference || type.isRefRef then .error .ReferencesMustBeInitialized
  else if type.isFundamentalType then fundamental type
  else if type.isEnumType then .error .EnumerationsCannotBeDefaultConstructed
  else if type.isFunctionType then .error .FunctionVariablesMustBeInitialized
  else if type.isObjectType then
    match env.defaultConstructor type with
    | none => .error .VariableCannotBeDefaultConstructed
    | some default_ctor =>
      if env.isDeleted default_ctor then .error .ClassHasDeletedDefaultCtor
      else .ok (.ConstructorCall default_ctor [])
  else .error .NotImplementedError

/-- The loop of `brace_construct` over the conversions of the selected
constructor: the first narrowing one raises the error. -/
def checkNarrowing (ctor : FunctionImpl) :
    Nat → List Conversion → List Expression → Except CompilerError Unit
  | _, [], _ => .ok ()
  | i, conv :: rest, args =>
    if conv.isNarrowing then
      .error (.NarrowingConversionInBraceInitialization
        ((args.getD i { type := Type_.Null }).type) (ctor.parameters.getD i Type_.Null))
    else checkNarrowing ctor (i + 1) rest args

/-- The function `ValueConstructor::brace_construct(e, type, args, dp)`. -/
def brace_construct (e : Engine) (env : ConstructionEnv) (type : Type_)
    (args : List Expression) : Except CompilerError ConstructedValue :=
  match args with
  | [] => constructDefault env type
  | front :: _ =>
    if !type.isObjectType && args.length != 1 then .error .TooManyArgumentInInitialization
    else if (type.isReference || type.isRefRef) && args.length != 1 then
      .error .TooManyArgumentInReferenceInitialization
    else if type.isFundamentalType || type.isEnumType || type.isFunctionType then
      match Conversion.computeExpr env front type e with
      | .error err => .error err
      | .ok seq =>
        if seq.eq Conversion.NotConvertible then .error (.CouldNotConvert front.type type)
        else if seq.isNarrowing then
          .error (.NarrowingConversionInBraceInitialization front.type type)
        else .ok (.Converted front type seq)
    else if type.isObjectType then
      match env.process (e.constructors type) args with
      | none => .error .CouldNotFindValidConstructor
      | some (ctor, conversions) =>
        match checkNarrowing ctor 0 conversions args with
        | .error err => .error err
        | .ok _ => .ok (.ConstructorCall ctor args)
    else .error .NotImplementedError

/-- The function `ValueConstructor::construct(e, type, args, dp)`. -/
def construct (e : Engine) (env : ConstructionEnv) (type : Type_)
    (args : List Expression) : Except CompilerError ConstructedValue :=
  match args with
  | [] => constructDefault env type
  | front :: _ =>
    if !type.isObjectType && args.length != 1 then .error .TooManyArgumentInInitialization
    else if (type.isReference || type.isRefRef) && args.length != 1 then
      .error .TooManyArgumentInReferenceInitialization
    else if type.isFundamentalType || type.isEnumType || type.isFunctionType then
      match Conversion.computeExpr env front type e with
      | .error err => .error err
      | .ok seq =>
        if seq.eq Conversion.NotConvertible then .error (.CouldNotConvert front.type type)
        else .ok (.Converted front type seq)
    else if type.isObjectType then
      match env.process (e.constructors type) args with
      | none => .error .CouldNotFindValidConstructor
      | some (ctor, _) => .ok (.ConstructorCall ctor args)
    else .error .NotImplementedError

end ValueConstructor

/-! ## Operators (`src/operator.cpp`) -/

/-- Modelled from the spec: `enum OperatorName` (`BuiltInOperator`) of
`operators.h`, which is not among the sources. The enumerators are listed in
the order of the table of symbols of `Operator::getSymbol`, which is indexed by
the integer behind the operator; the names are those that `operator.cpp` uses,
completed for the compound assignments. -/
inductive BuiltInOperator where
  | Null
  | ScopeResolutionOperator
  | PostIncrementOperator
  | PostDecrementOperator
  | FunctionCallOperator
  | SubscriptOperator
  | MemberAccessOperator
  | PreIncrementOperator
  | PreDecrementOperator
  | UnaryPlusOperator
  | UnaryMinusOperator
  | LogicalNotOperator
  | BitwiseNot
  | MultiplicationOperator
  | DivisionOperator
  | RemainderOperator
  | AdditionOperator
  | SubstractionOperator
  | LeftShiftOperator
  | RightShiftOperator
  | LessOperator
  | GreaterOperator
  | LessEqualOperator
  | GreaterEqualOperator
  | EqualOperator
  | InequalOperator
  | BitwiseAndOperator
  | BitwiseXorOperator
  | BitwiseOrOperator
  | LogicalAndOperator
  | LogicalOrOperator
  | ConditionalOperator
  | AssignmentOperator
  | MultiplicationAssignmentOperator
  | DivisionAssignmentOperator
  | RemainderAssignmentOperator
  | AdditionAssignmentOperator
  | SubstractionAssignmentOperator
  | LeftShiftAssignmentOperator
  | RightShiftAssignmentOperator
  | BitwiseAndAssignmentOperator
  | BitwiseOrAssignmentOperator
  | BitwiseXorAssignmentOperator
  | CommaOperator
deriving DecidableEq, Repr

/-- The integer behind an operator: its position in the enumeration. -/
def BuiltInOperator.toNat (op : BuiltInOperator) : Nat := op.toCtorIdx

/-- The table `names` of `Operator::getSymbol`. -/
def operatorSymbols : List String := [
  "", "::", "++", "--", "()", "[]", ".", "++", "--", "+", "-", "!", "~", "*", "/", "%",
  "+", "-", "<<", ">>", "<", ">", "<=", ">=", "==", "!=", "&", "^", "|", "&&", "||", "?:",
  "=", "*=", "/=", "%=", "+=", "-=", "<<=", ">>=", "&=", "|=", "^=", ","]

/-- The enumeration `Operator::Associativity`. -/
inductive Associativity where
  | LeftToRight
  | RightToLeft
deriving DecidableEq, Repr

namespace Operator

open BuiltInOperator in
/-- The function `Operator::precedence`. -/
def precedence (op : BuiltInOperator) : Int :=
  if op == ScopeResolutionOperator then 1
  else if decide (PostIncrementOperator.toNat ≤ op.toNat)
      && decide (op.toNat ≤ MemberAccessOperator.toNat) then 2
  else if decide (PreIncrementOperator.toNat ≤ op.toNat)
      && decide (op.toNat ≤ BuiltInOperator.BitwiseNot.toNat) then 3
  else if decide (MultiplicationOperator.toNat ≤ op.toNat)
      && decide (op.toNat ≤ RemainderOperator.toNat) then 4
  else if AdditionOperator == op || op == SubstractionOperator then 5
  else if LeftShiftOperator == op || op == RightShiftOperator then 6
  else if decide (LessOperator.toNat ≤ op.toNat)
      && decide (op.toNat ≤ GreaterEqualOperator.toNat) then 7
  else if EqualOperator == op || op == InequalOperator then 8
  else if op == BitwiseAndOperator then 9
  else if op == BitwiseXorOperator then 10
  else if op == BitwiseOrOperator then 11
  else if op == LogicalAndOperator then 12
  else if op == LogicalOrOperator then 13
  else if decide (ConditionalOperator.toNat ≤ op.toNat)
      && decide (op.toNat ≤ BitwiseXorAssignmentOperator.toNat) then 14
  else if op == CommaOperator then 15
  else 0

/-- The table of `Operator::associativity`. -/
def associativityTable : List Associativity := [
  .LeftToRight, .LeftToRight, .RightToLeft, .LeftToRight, .LeftToRight,
  .LeftToRight, .LeftToRight, .LeftToRight, .LeftToRight, .LeftToRight,
  .LeftToRight, .LeftToRight, .LeftToRight, .RightToLeft, .LeftToRight]

/-- The function `Operator::associativity`; `none` when it throws
`std::runtime_error` ("Invalid group"). -/
def associativity (group : Int) : Option Associativity :=
  if 0 < group ∧ group ≤ 15 then associativityTable.get? (group - 1).toNat
  else none

end Operator

/-! ## Overload resolution with an implicit object -/

/-- The arity test of `resolve_overloads(candidates, implicit_object, args)`:
`true` when the candidate is skipped; `actual_argc` counts the implicit object
for a candidate that has an implicit object parameter. -/
def arityMismatchWithObject (argc : Nat) (func : FunctionImpl) : Bool :=
  let actual_argc := if func.hasImplicitObject then argc + 1 else argc
  decide (actual_argc > func.parameters.length)
    || decide (actual_argc + func.defaultArguments < func.parameters.length)

/-- The initialization of the implicit object parameter in
`resolve_overloads(candidates, implicit_object, args)`: `none` when the
candidate is rejected, the list pushed to `current.initializations` otherwise.
The policy is the default argument of `Conversion::compute`, declared in
`conversions.h`. -/
def implicitObjectInitialization (e : Engine) (policy : ConversionPolicy) (objectType : Type_)
    (func : FunctionImpl) : Option (List Initialization) :=
  if func.hasImplicitObject then
    let conv := Conversion.compute objectType (func.parameters.getD 0 Type_.Null) e policy
    if conv.eq Conversion.NotConvertible || conv.conv1.isCopy then none
    else some [{ kind := .DirectInitialization, conversion := conv }]
  else some []

/-- One iteration of the loop of `resolve_overloads(candidates,
implicit_object, args)` for a non-null implicit object of type `objectType`. -/
def resolve_overloads_object_step {α : Type} (e : Engine) (policy : ConversionPolicy)
    (initialization : Type_ → α → Initialization)
    (compare : Candidate → Candidate → OverloadComparison) (objectType : Type_)
    (args : List α) (st : Candidate × Candidate) (func : FunctionImpl) :
    Candidate × Candidate :=
  if arityMismatchWithObject args.length func then st
  else
    match implicitObjectInitialization e policy objectType func with
    | none => st
    | some first =>
      let parameter_offset := if func.hasImplicitObject then 1 else 0
      match collect_initializations initialization func parameter_offset args with
      | none => st
      | some inits =>
        let current : Candidate := { function := some func, initializations := first ++ inits }
        (overloadresolution_process_candidate compare current st.1 st.2).2

/-- The function template `resolve_overloads(candidates, implicit_object,
args)`. The functions `details::overloadresolution_is_null` and
`details::overloadresolution_get_type` of the implicit object are parameters. -/
def resolve_overloads_object {α β : Type} (is_null : β → Bool) (get_type : β → Type_)
    (e : Engine) (policy : ConversionPolicy)
    (initialization : Type_ → α → Initialization)
    (compare : Candidate → Candidate → OverloadComparison)
    (candidates : List FunctionImpl) (implicit_object : β) (args : List α) : Candidate :=
  if is_null implicit_object then resolve_overloads initialization compare candidates args
  else
    let st := candidates.foldl
      (resolve_overloads_object_step e policy initialization compare
        (get_type implicit_object) args)
      (Candidate.reset, Candidate.reset)
    if st.2.function.isNone && !st.1.function.isNone then st.1 else Candidate.reset

/-! ## Expression parsing (`src/parser/parser.cpp`) -/

/-- The token kinds `Token::Type` named by the lexer tests, by the parser and by
the name lookup; the declaration, in `token.h`, is not among the sources. -/
inductive TokenType where
  | Invalid
  | LeftPar | RightPar | LeftBracket | RightBracket | LeftBrace | RightBrace
  | QuestionMark | Colon | ScopeResolution | Comma | Semicolon
  | PlusPlus | MinusMinus | Plus | Minus | Mul | Div | Remainder
  | Eq | AddEq | SubEq | MulEq | DivEq | RemainderEq
  | LeftShift | RightShift | LeftShiftEq | RightShiftEq
  | EqEq | Neq | Less | GreaterThan | LessEqual | GreaterThanEqual
  | LogicalAnd | LogicalOr | LogicalNot
  | BitwiseOr | BitwiseAnd | BitwiseXor | BitOrEq | BitAndEq | BitXorEq | BitwiseNot
  | UserDefinedName | IntegerLiteral | StringLiteral | UserDefinedLiteral
  | Operator | LeftRightPar | LeftRightBracket
  | Bool | Char | Int | Float | Double | Void | Auto
  | For | While | If | Else | Class | Struct | Using | Typedef | Namespace
  | Public | Protected | Private | Friend | Import | Export
  | Break | Continue | Enum | Return | Template
deriving DecidableEq, Repr

/-- A token, `Token{ type, pos, length, line, column, src }`, without the
pointer to the source text. -/
structure Token where
  type : TokenType := .Invalid
  pos : Nat := 0
  length : Nat := 0
  line : Nat := 0
  column : Nat := 0
deriving DecidableEq, Repr

/-- The expression nodes that `ExpressionParser::buildExpression` handles: the
operands it receives, read by `readOperand`, and the two nodes it builds,
`ast::Operation::New(operator, lhs, rhs)` and
`ast::ConditionalExpression::New(cond, question, onTrue, colon, onFalse)`. -/
inductive ast.Expression where
  | Operand (id : Nat)
  | Operation (operatorToken : Token) (arg1 arg2 : ast.Expression)
  | ConditionalExpression (condition : ast.Expression) (questionMark : Token)
      (onTrue : ast.Expression) (colon : Token) (onFalse : ast.Expression)
deriving DecidableEq, Repr

/-- The ways in which `buildExpression` does not return a node: the
`SyntaxError{ ParserError::MissingConditionalColon }` it throws, the
`std::runtime_error` that `Operator::associativity` throws, the read of an
operand through an iterator at the end of its range, and, in this embedding
only, the exhaustion of the recursion budget. -/
inductive BuildError where
  | MissingConditionalColon
  | RuntimeError
  | OperandOutOfRange
  | OutOfFuel
deriving DecidableEq, Repr

/-- The lambda `getPrecedence` of `buildExpression`. The function
`ast::OperatorName::getOperatorId(tok, ast::OperatorName::InfixOp)` is the
parameter `getOperatorId`. -/
def getPrecedence (getOperatorId : Token → BuiltInOperator) (tok : Token) : Int :=
  if tok.type = .Colon then -66
  else if tok.type = .QuestionMark then Operator.precedence .ConditionalOperator
  else Operator.precedence (getOperatorId tok)

/-- The lambda `getOp` of `buildExpression`: the operator token at position
`num` of the range. -/
def getOp (ops : List Token) (num : Nat) : Token := ops.getD num {}

/-- The selection loop of `buildExpression` from position `i` on, over the
remaining operator tokens, with the current `(index, preced)`; `none` when
`Operator::associativity` throws. -/
def selectLoop (getOperatorId : Token → BuiltInOperator) :
    List Token → Nat → Nat × Int → Option (Nat × Int)
  | [], _, st => some st
  | tok :: rest, i, (index, preced) =>
    let p := getPrecedence getOperatorId tok
    if p > preced then selectLoop getOperatorId rest (i + 1) (i, p)
    else if p = preced then
      match Operator.associativity preced with
      | none => none
      | some a =>
        if a = .LeftToRight then selectLoop getOperatorId rest (i + 1) (i, preced)
        else selectLoop getOperatorId rest (i + 1) (index, preced)
    else selectLoop getOperatorId rest (i + 1) (index, preced)

/-- The value of `index` after the selection loop of `buildExpression` over a
non-empty range of operator tokens. -/
def selectIndex (getOperatorId : Token → BuiltInOperator) : List Token → Option Nat
  | [] => none
  | tok :: rest =>
    (selectLoop getOperatorId rest 1 (0, getPrecedence getOperatorId tok)).map Prod.fst

/-- The search of `colonIndex` in `buildExpression`: from position `j` down to
`index + 1`, the first position of a `Token::Colon`; `none` stands for `-1`. -/
def colonSearch (ops : List Token) (index : Nat) : Nat → Option Nat
  | 0 => none
  | j + 1 =>
    if j + 1 > index then
      if (getOp ops (j + 1)).type = .Colon then some (j + 1)
      else colonSearch ops index j
    else none

/-- The recursive `ExpressionParser::buildExpression(exprBegin, exprEnd,
opBegin, opEnd)` on the two ranges as lists, with a budget `fuel` of nested
calls. -/
def buildExpressionFuel (getOperatorId : Token → BuiltInOperator) :
    Nat → List ast.Expression → List Token → Except BuildError ast.Expression
  | 0, _, _ => .error .OutOfFuel
  | fuel + 1, operands, ops =>
    if ops.length = 0 then
      match operands with
      | [] => .error .OperandOutOfRange
      | e :: _ => .ok e
    else
      match selectIndex getOperatorId ops with
      | none => .error .RuntimeError
      | some index =>
        if (getOp ops index).type = .QuestionMark then
          match buildExpressionFuel getOperatorId fuel
              (operands.take (index + 1)) (ops.take index) with
          | .error err => .error err
          | .ok cond =>
            match colonSearch ops index (ops.length - 1) with
            | none => .error .MissingConditionalColon
            | some colonIndex =>
              match buildExpressionFuel getOperatorId fuel
                  ((operands.drop (index + 1)).take (colonIndex - index))
                  ((ops.drop (index + 1)).take (colonIndex - index - 1)) with
              | .error err => .error err
              | .ok onTrue =>
                match buildExpressionFuel getOperatorId fuel
                    (operands.drop (colonIndex + 1)) (ops.drop (colonIndex + 1)) with
                | .error err => .error err
                | .ok onFalse =>
                  .ok (.ConditionalExpression cond (getOp ops index) onTrue
                        (getOp ops colonIndex) onFalse)
        else
          match buildExpressionFuel getOperatorId fuel
              (operands.take (index + 1)) (ops.take index) with
          | .error err => .error err
          | .ok lhs =>
            match buildExpressionFuel getOperatorId fuel
                (operands.drop (index + 1)) (ops.drop (index + 1)) with
            | .error err => .error err
            | .ok rhs => .ok (.Operation (getOp ops index) lhs rhs)

/-- The function `ExpressionParser::buildExpression(exprBegin, exprEnd,
opBegin, opEnd)`: every nested call works on a strictly shorter range of
operators, so a budget of one more than their number is never exhausted. -/
def buildExpressionRange (getOperatorId : Token → BuiltInOperator)
    (operands : List ast.Expression) (ops : List Token) : Except BuildError ast.Expression :=
  buildExpressionFuel getOperatorId (ops.length + 1) operands ops

/-- The function `ExpressionParser::buildExpression(operands, operators)`. -/
def buildExpression (getOperatorId : Token → BuiltInOperator)
    (operands : List ast.Expression) (ops : List Token) : Except BuildError ast.Expression :=
  match operands with
  | [e] => .ok e
  | _ => buildExpressionRange getOperatorId operands ops

/-- The operands of a tree that `buildExpression` returns, in the order of an
in-order traversal: the leaves under its operation and conditional nodes. -/
def ast.Expression.operands : ast.Expression → List ast.Expression
  | .Operand id => [.Operand id]
  | .Operation _ arg1 arg2 => arg1.operands ++ arg2.operands
  | .ConditionalExpression condition _ onTrue _ onFalse =>
    condition.operands ++ onTrue.operands ++ onFalse.operands

/-- The operator tokens of the nodes of a tree, in the order of an in-order
traversal: the token of an operation between its two arguments, the `?` and the
`:` of a conditional expression between its three parts. -/
def ast.Expression.operatorTokens : ast.Expression → List Token
  | .Operand _ => []
  | .Operation operatorToken arg1 arg2 =>
    arg1.operatorTokens ++ operatorToken :: arg2.operatorTokens
  | .ConditionalExpression condition questionMark onTrue colon onFalse =>
    condition.operatorTokens ++ questionMark :: onTrue.operatorTokens
      ++ colon :: onFalse.operatorTokens

/-- The tree in which each leaf `Operand i` is replaced by the expression
`f i`: the operands are any expressions, and a tree built over the leaves
`Operand 0, Operand 1, ...` shows where `buildExpression` puts each of them. -/
def ast.Expression.substitute (f : Nat → ast.Expression) : ast.Expression → ast.Expression
  | .Operand id => f id
  | .Operation operatorToken arg1 arg2 =>
    .Operation operatorToken (arg1.substitute f) (arg2.substitute f)
  | .ConditionalExpression condition questionMark onTrue colon onFalse =>
    .ConditionalExpression (condition.substitute f) questionMark (onTrue.substitute f) colon
      (onFalse.substitute f)

/-! ## Parser state and fragments (`src/parser/parser.cpp`) -/

/-- The kind `Token::RightAngle`: the lexer gives `>` the kind
`Token::GreaterThan` and the parser tests for `Token::RightAngle`, two names of
one kind in `token.h` (not among the sources). -/
abbrev TokenType.RightAngle : TokenType := .GreaterThan

/-- The kind `Token::RightRightAngle`, the other name of `Token::RightShift`. -/
abbrev TokenType.RightRightAngle : TokenType := .RightShift

/-- The error codes `ParserError` that `parser.cpp` names; the declaration, in
`parser/errors.h`, is not among the sources. -/
inductive ParserError where
  | CouldNotParseLambdaCapture | CouldNotReadType | ExpectedBinaryOperator
  | ExpectedCurrentClassName | ExpectedDeclaration | ExpectedEmptyStringLiteral
  | ExpectedIdentifier | ExpectedLiteral | ExpectedOperator | ExpectedOperatorSymbol
  | ExpectedPrefixOperator | ExpectedUserDefinedName | IllegalUseOfKeyword
  | InvalidEmptyBrackets | InvalidEmptyOperand | MissingConditionalColon
  | UnexpectedEndOfInput | UnexpectedFragmentEnd | UnexpectedToken
deriving DecidableEq, Repr

/-- What the parser throws: a `SyntaxError{ e }` or a `std::runtime_error`; and,
in this embedding only, the exhaustion of the budget of iterations of a loop
that the code runs until the fragment is at its end. -/
inductive ParserException where
  | SyntaxError (e : ParserError)
  | RuntimeError
  | OutOfFuel
deriving DecidableEq, Repr

/-- The class `ParserData` as `ParserData(const std::vector<Token>&)` builds it:
the buffer of tokens and the index of the next token. Built from a source file,
the buffer is filled from the lexer one token ahead of the index
(`fetchNext`), which reads the same tokens at the same indices. -/
structure ParserData where
  mBuffer : List Token
  mIndex : Nat
deriving DecidableEq, Repr

/-- The outcome of a parsing function: the value returned and the parser data
after the call, or the exception thrown and the parser data when it is
thrown. -/
abbrev ParserResult (α : Type) := Except (ParserException × ParserData) (α × ParserData)

namespace ParserData

/-- The function `ParserData::atEnd`. -/
def atEnd (d : ParserData) : Bool :=
  if d.mIndex < d.mBuffer.length then false else true

/-- The function `ParserData::unsafe_peek`: the token at the index. -/
def unsafe_peek (d : ParserData) : Token := d.mBuffer.getD d.mIndex {}

/-- The function `ParserData::read`. An index beyond the buffer, which no
function below produces, makes `mBuffer[mIndex++]` read out of range: an error
here. -/
def read (d : ParserData) : ParserResult Token :=
  if d.mIndex = d.mBuffer.length then .error (.SyntaxError .UnexpectedEndOfInput, d)
  else if d.mBuffer.length < d.mIndex then .error (.RuntimeError, d)
  else .ok (d.mBuffer.getD d.mIndex {}, { d with mIndex := d.mIndex + 1 })

/-- The function `ParserData::unsafe_read`. -/
def unsafe_read (d : ParserData) : Token × ParserData :=
  (d.mBuffer.getD d.mIndex {}, { d with mIndex := d.mIndex + 1 })

/-- The function `ParserData::peek`. -/
def peek (d : ParserData) : Except (ParserException × ParserData) Token :=
  if d.atEnd then .error (.SyntaxError .UnexpectedEndOfInput, d)
  else .ok (d.mBuffer.getD d.mIndex {})

/-- The function `ParserData::pos`, of which only the index is read back. -/
def pos (d : ParserData) : Nat := d.mIndex

/-- The function `ParserData::seek`. -/
def seek (d : ParserData) (p : Nat) : ParserData := { d with mIndex := p }

/-- The function `ParserData::clearBuffer`. -/
def clearBuffer (d : ParserData) : ParserData :=
  if d.mIndex = d.mBuffer.length then { mBuffer := [], mIndex := 0 }
  else { mBuffer := d.mBuffer.drop d.mIndex, mIndex := 0 }

end ParserData

/-- The tokens returned by `n` successive calls of `ParserData::read`, up to
the first call that throws. -/
def ParserData.reads : Nat → ParserData → List Token
  | 0, _ => []
  | n + 1, d =>
    match d.read with
    | .ok (t, d2) => t :: ParserData.reads n d2
    | .error _ => []

/-- The fragments of `parser.cpp`, each with its parent: the classes derived
from `AbstractFragment`, with the fields that they add. -/
inductive AbstractFragment where
  | ScriptFragment
  | SentinelFragment (mSentinel : TokenType) (parent : AbstractFragment)
  | TemplateArgumentListFragment (right_shift_flag : Bool) (right_angle : Token)
      (parent : AbstractFragment)
  | TemplateArgumentFragment (parent : AbstractFragment)
  | ListFragment (parent : AbstractFragment)
  | SubFragment (parent : AbstractFragment)
deriving DecidableEq, Repr

namespace AbstractFragment

/-- The function `AbstractFragment::parent`; `none` is the null pointer. -/
def parent : AbstractFragment → Option AbstractFragment
  | .ScriptFragment => none
  | .SentinelFragment _ p => some p
  | .TemplateArgumentListFragment _ _ p => some p
  | .TemplateArgumentFragment p => some p
  | .ListFragment p => some p
  | .SubFragment p => some p

/-- The same fragment attached to another value of its parent: what the
fragment is after a call has written to a field of one of its ancestors. -/
def withParent : AbstractFragment → AbstractFragment → AbstractFragment
  | .ScriptFragment, _ => .ScriptFragment
  | .SentinelFragment s _, p => .SentinelFragment s p
  | .TemplateArgumentListFragment f t _, p => .TemplateArgumentListFragment f t p
  | .TemplateArgumentFragment _, p => .TemplateArgumentFragment p
  | .ListFragment _, p => .ListFragment p
  | .SubFragment _, p => .SubFragment p

/-- The test `dynamic_cast<TemplateArgumentFragment*>(f) != nullptr`. -/
def isTemplateArgumentFragment : AbstractFragment → Bool
  | .TemplateArgumentFragment _ => true
  | _ => false

/-- The virtual function `AbstractFragment::atEnd`, as each class overrides
it. -/
def atEnd (data : ParserData) : AbstractFragment → Except (ParserException × ParserData) Bool
  | .ScriptFragment => .ok data.atEnd
  | .SentinelFragment s _ => .ok (data.atEnd || data.unsafe_peek.type == s)
  | .TemplateArgumentListFragment _ _ p =>
    match atEnd data p with
    | .error ex => .error ex
    | .ok pEnd =>
      if pEnd && !p.isTemplateArgumentFragment then .error (.RuntimeError, data)
      else
        match data.peek with
        | .error ex => .error ex
        | .ok tok => .ok (tok.type == .RightAngle || tok.type == .RightRightAngle)
  | .TemplateArgumentFragment p =>
    match atEnd data p with
    | .error ex => .error ex
    | .ok true => .ok true
    | .ok false =>
      match data.peek with
      | .error ex => .error ex
      | .ok tok => .ok (tok.type == .Comma)
  | .ListFragment p =>
    match atEnd data p with
    | .error ex => .error ex
    | .ok true => .ok true
    | .ok false => .ok (data.unsafe_peek.type == .Comma)
  | .SubFragment p => atEnd data p

/-- The function `AbstractFragment::peek`. -/
def peek (data : ParserData) (f : AbstractFragment) :
    Except (ParserException × ParserData) Token :=
  match f.atEnd data with
  | .error ex => .error ex
  | .ok true => .error (.SyntaxError .UnexpectedFragmentEnd, data)
  | .ok false => .ok data.unsafe_peek

end AbstractFragment

/-- The function `SentinelFragment::consumeSentinel`. -/
def SentinelFragment.consumeSentinel (data : ParserData) : ParserResult Token := data.read

/-- The function `TemplateArgumentListFragment::consumeEnd` on a template
argument list fragment: the parser data and the fragment after the call (the
fragment with its `right_angle`, and with the flag of its grandparent set when
the call sets it). The function belongs to that class only; another fragment
is returned as it is. -/
def TemplateArgumentListFragment.consumeEnd (data : ParserData) :
    AbstractFragment → ParserResult AbstractFragment
  | .TemplateArgumentListFragment flag _ parent =>
    match data.peek with
    | .error ex => .error ex
    | .ok tok =>
      if tok.type = .RightRightAngle then
        if flag then
          let r := data.unsafe_read
          .ok (.TemplateArgumentListFragment flag
                { r.1 with type := .RightAngle, length := 1, pos := r.1.pos + 1 } parent, r.2)
        else
          match parent.parent with
          | some (.TemplateArgumentListFragment _ ra2 p2) =>
            .ok (.TemplateArgumentListFragment flag
                  { tok with type := .RightAngle, length := 1 }
                  (parent.withParent (.TemplateArgumentListFragment true ra2 p2)), data)
          | _ => .error (.RuntimeError, data)
      else
        let r := data.unsafe_read
        .ok (.TemplateArgumentListFragment flag r.1 parent, r.2)
  | f => .ok (f, data)

/-- The function `TemplateArgumentFragment::consumeComma` on a template argument
fragment; the function belongs to that class only. -/
def TemplateArgumentFragment.consumeComma (data : ParserData) :
    AbstractFragment → ParserResult Unit
  | .TemplateArgumentFragment p =>
    match p.atEnd data with
    | .error ex => .error ex
    | .ok true => .ok ((), data)
    | .ok false =>
      match data.read with
      | .error ex => .error ex
      | .ok r => .ok ((), r.2)
  | _ => .ok ((), data)

/-! ## Statements (`src/parser/parser.cpp`) -/

/-- The statements that the functions below build, and the declarations that
the declaration parsers return, told apart by a number. -/
inductive ast.Statement where
  | NullStatement (semicolon : Token)
  | BreakStatement (keyword : Token)
  | ContinueStatement (keyword : Token)
  | ExpressionStatement (expression : ast.Expression) (semicolon : Token)
  | Declaration (id : Nat)
  | ForLoop (keyword : Token) (initStatement : ast.Statement)
      (condition loopIncrement : ast.Expression) (body : ast.Statement)
deriving DecidableEq, Repr

/-- The parts of the parser that the functions below call and that are taken
as given: `Token::isOperator`, `ast::OperatorName::getOperatorId(tok,
InfixOp)`, `ExpressionParser::readOperand`, `DeclParser::detectDecl`,
`DeclParser::parse` after a successful detection, and the parsers of the other
statements that `parseStatement` tells by their first token
(`parseClassDeclaration`, `parseEnumDeclaration`, `parseIfStatement`,
`parseCompoundStatement`, ...), by the kind of that token. -/
structure ParserEnv where
  isOperator : Token → Bool
  getOperatorId : Token → BuiltInOperator
  readOperand : AbstractFragment → ParserData → ParserResult ast.Expression
  detectDecl : AbstractFragment → ParserData → ParserResult Bool
  declParse : AbstractFragment → ParserData → ParserResult ast.Statement
  keywordStatement : TokenType → AbstractFragment → ParserData → ParserResult ast.Statement

/-- The function `ParserBase::read(const Token::Type&)`. -/
def ParserBase.readType (data : ParserData) (type : TokenType) : ParserResult Token :=
  match data.read with
  | .error ex => .error ex
  | .ok (ret, data1) =>
    if ret.type ≠ type then .error (.SyntaxError .UnexpectedToken, data1)
    else .ok (ret, data1)

/-- The function `ExpressionParser::isInfixOperator`. -/
def ExpressionParser.isInfixOperator (env : ParserEnv) (tok : Token) : Bool :=
  env.getOperatorId tok != .Null

/-- The function `ExpressionParser::readBinaryOperator`. -/
def ExpressionParser.readBinaryOperator (env : ParserEnv) (frag : AbstractFragment)
    (data : ParserData) : ParserResult Token :=
  match frag.peek data with
  | .error ex => .error ex
  | .ok t =>
    if t.type = .QuestionMark ∨ t.type = .Colon then data.read
    else if !env.isOperator t then .error (.SyntaxError .ExpectedOperator, data)
    else if !ExpressionParser.isInfixOperator env t then
      .error (.SyntaxError .ExpectedBinaryOperator, data)
    else data.read

/-- The loop `while (!atEnd())` of `ExpressionParser::parse`, with a budget of
iterations: the operands and the operator tokens read. -/
def ExpressionParser.parseLoop (env : ParserEnv) (frag : AbstractFragment) :
    Nat → List ast.Expression → List Token → ParserData →
      ParserResult (List ast.Expression × List Token)
  | 0, _, _, data => .error (.OutOfFuel, data)
  | fuel + 1, operands, operators, data =>
    match frag.atEnd data with
    | .error ex => .error ex
    | .ok true => .ok ((operands, operators), data)
    | .ok false =>
      match ExpressionParser.readBinaryOperator env frag data with
      | .error ex => .error ex
      | .ok (operation, data1) =>
        match env.readOperand frag data1 with
        | .error ex => .error ex
        | .ok (operand, data2) =>
          ExpressionParser.parseLoop env frag fuel (operands ++ [operand])
            (operators ++ [operation]) data2

/-- The exception that leaves `ExpressionParser::parse` when `buildExpression`
does not return a node. -/
def BuildError.toException : BuildError → ParserException
  | .MissingConditionalColon => .SyntaxError .MissingConditionalColon
  | .RuntimeError => .RuntimeError
  | .OperandOutOfRange => .RuntimeError
  | .OutOfFuel => .OutOfFuel

/-- The function `ExpressionParser::parse`, with a budget of iterations of its
loop. -/
def ExpressionParser.parse (env : ParserEnv) (frag : AbstractFragment) (fuel : Nat)
    (data : ParserData) : ParserResult ast.Expression :=
  match env.readOperand frag data with
  | .error ex => .error ex
  | .ok (operand, data1) =>
    match ExpressionParser.parseLoop env frag fuel [operand] [] data1 with
    | .error ex => .error ex
    | .ok ((operands, operators), data2) =>
      match buildExpression env.getOperatorId operands operators with
      | .error err => .error (err.toException, data2)
      | .ok expr => .ok (expr, data2)

/-- The function `ProgramParser::parseAmbiguous`; `fuel` is the budget of the
expression parser. -/
def ProgramParser.parseAmbiguous (env : ParserEnv) (frag : AbstractFragment) (fuel : Nat)
    (data : ParserData) : ParserResult ast.Statement :=
  let savePoint := data.pos
  match env.detectDecl frag data with
  | .error ex => .error ex
  | .ok (true, data1) => env.declParse frag data1
  | .ok (false, data1) =>
    let data2 := data1.seek savePoint
    let sentinel := AbstractFragment.SentinelFragment .Semicolon frag
    match ExpressionParser.parse env sentinel fuel data2 with
    | .error ex => .error ex
    | .ok (expr, data3) =>
      match SentinelFragment.consumeSentinel data3 with
      | .error ex => .error ex
      | .ok (semicolon, data4) => .ok (.ExpressionStatement expr semicolon, data4)

/-- The function `ProgramParser::parseBreakStatement`. -/
def ProgramParser.parseBreakStatement (data : ParserData) : ParserResult ast.Statement :=
  match data.read with
  | .error ex => .error ex
  | .ok (kw, data1) =>
    match ParserBase.readType data1 .Semicolon with
    | .error ex => .error ex
    | .ok (_, data2) => .ok (.BreakStatement kw, data2)

/-- The function `ProgramParser::parseContinueStatement`. -/
def ProgramParser.parseContinueStatement (data : ParserData) : ParserResult ast.Statement :=
  match data.read with
  | .error ex => .error ex
  | .ok (kw, data1) =>
    match ParserBase.readType data1 .Semicolon with
    | .error ex => .error ex
    | .ok (_, data2) => .ok (.ContinueStatement kw, data2)

/-- The function `ProgramParser::parseStatement`. -/
def ProgramParser.parseStatement (env : ParserEnv) (frag : AbstractFragment) (fuel : Nat)
    (data : ParserData) : ParserResult ast.Statement :=
  match frag.peek data with
  | .error ex => .error ex
  | .ok t =>
    match t.type with
    | .Semicolon =>
      match data.read with
      | .error ex => .error ex
      | .ok (tok, data1) => .ok (.NullStatement tok, data1)
    | .Break => ProgramParser.parseBreakStatement data
    | .Continue => ProgramParser.parseContinueStatement data
    | .Friend => .error (.SyntaxError .IllegalUseOfKeyword, data)
    | .Class | .Struct | .Enum | .If | .Return | .Using | .While | .For | .LeftBrace
    | .Template | .Typedef | .Namespace | .Export | .Import =>
      env.keywordStatement t.type frag data
    | _ => ProgramParser.parseAmbiguous env frag fuel data

/-- The function `ProgramParser::parseForLoop`; `fuel` is the budget of the
expression parsers. The init statement is read first: by the expression
parser, up to the `;`, from where `DeclParser::detectDecl` left the parser data
when it reports no declaration, and by `DeclParser::parse` otherwise. -/
def ProgramParser.parseForLoop (env : ParserEnv) (frag : AbstractFragment) (fuel : Nat)
    (data : ParserData) : ParserResult ast.Statement :=
  match data.read with
  | .error ex => .error ex
  | .ok (forkw, data1) =>
    match ParserBase.readType data1 .LeftPar with
    | .error ex => .error ex
    | .ok (_, data2) =>
      let init : ParserResult ast.Statement :=
        match env.detectDecl frag data2 with
        | .error ex => .error ex
        | .ok (false, data3) =>
          match ExpressionParser.parse env (.SentinelFragment .Semicolon frag) fuel data3 with
          | .error ex => .error ex
          | .ok (initExpr, data4) =>
            match SentinelFragment.consumeSentinel data4 with
            | .error ex => .error ex
            | .ok (semicolon, data5) => .ok (.ExpressionStatement initExpr semicolon, data5)
        | .ok (true, data3) => env.declParse frag data3
      match init with
      | .error ex => .error ex
      | .ok (initStatement, data6) =>
        match ExpressionParser.parse env (.SentinelFragment .Semicolon frag) fuel data6 with
        | .error ex => .error ex
        | .ok (condition, data7) =>
          match SentinelFragment.consumeSentinel data7 with
          | .error ex => .error ex
          | .ok (_, data8) =>
            match ExpressionParser.parse env (.SentinelFragment .RightPar frag) fuel data8 with
            | .error ex => .error ex
            | .ok (loopIncrement, data9) =>
              match SentinelFragment.consumeSentinel data9 with
              | .error ex => .error ex
              | .ok (_, data10) =>
                match ProgramParser.parseStatement env frag fuel data10 with
                | .error ex => .error ex
                | .ok (body, data11) =>
                  .ok (.ForLoop forkw initStatement condition loopIncrement body, data11)

/-- A position in the source, `SourceLocation::m_pos`. -/
structure SourceLocation where
  pos : Nat := 0
  line : Nat := 0
  col : Nat := 0
deriving DecidableEq, Repr

/-- The function `ParserBase::location` of the parser of a script;
`sourceLength` is `ast()->source.content().length()`. -/
def ParserBase.location (sourceLength : Nat) (data : ParserData) : SourceLocation :=
  if !data.atEnd then
    { pos := data.unsafe_peek.pos, line := data.unsafe_peek.line,
      col := data.unsafe_peek.column }
  else { pos := sourceLength }

/-- The syntax tree `ast::AST` as `Parser::parse` fills it: the statements added
to the root, the flag `hasErrors` and the messages logged, each the error code
of a `SyntaxError` with the location given to it. -/
structure ast.AST where
  statements : List ast.Statement := []
  hasErrors : Bool := false
  messages : List (ParserError × SourceLocation) := []
deriving DecidableEq, Repr

/-- The loop `while (!atEnd())` of `Parser::parse`, inside its `try` block,
with a budget of iterations: the tree when the loop ends, or the tree and the
exception that leaves the loop. -/
def Parser.parseStatements (env : ParserEnv) (fuel : Nat) :
    Nat → ParserData → ast.AST → ast.AST × Option (ParserException × ParserData)
  | 0, data, ret => (ret, some (.OutOfFuel, data))
  | n + 1, data, ret =>
    if data.atEnd then (ret, none)
    else
      match ProgramParser.parseStatement env .ScriptFragment fuel data with
      | .error ex => (ret, some ex)
      | .ok (stmt, data1) =>
        Parser.parseStatements env fuel n data1.clearBuffer
          { ret with statements := ret.statements ++ [stmt] }

/-- The function `Parser::parse(source)` on the tokens of the source: the
`catch` block handles a `SyntaxError` after the loop has been left; another
exception leaves the function. `loopFuel` is the budget of iterations of the
loop and `fuel` that of the expression parser. -/
def Parser.parse (env : ParserEnv) (fuel loopFuel : Nat) (tokens : List Token)
    (sourceLength : Nat) : Except ParserException ast.AST :=
  match Parser.parseStatements env fuel loopFuel { mBuffer := tokens, mIndex := 0 } {} with
  | (ret, none) => .ok ret
  | (ret, some (.SyntaxError e, data)) =>
    .ok { ret with hasErrors := true,
                   messages := ret.messages ++ [(e, ParserBase.location sourceLength data)] }
  | (_, some (ex, _)) => .error ex

/-! ## Name lookup (`src/namelookup.cpp`) -/

/-- The function `Type::isNull`. -/
def Type_.isNull (t : Type_) : Bool := t.data == 0

/-- The identifiers of the syntax tree that the name lookup tells apart;
`getName` is the text of the name token, and the template arguments are told
apart by numbers. -/
inductive ast.Identifier where
  | SimpleIdentifier (name : Token) (getName : String)
  | OperatorName (symbol : Token)
  | TemplateIdentifier (name : Token) (getName : String) (arguments : List Nat)
  | ScopedIdentifier (lhs rhs : ast.Identifier)
deriving DecidableEq, Repr

/-- A `Scope` handle: the address of the `ScopeImpl` that it shares, `none` for
the null scope. -/
abbrev Scope := Option Nat

/-- A function with the name that `Function::name` returns. -/
structure NamedFunction where
  name : String
  function : FunctionImpl
deriving DecidableEq, Repr

/-- A template of a class or of a scope: `Template::name`,
`Template::isFunctionTemplate`, and a number that tells templates apart. -/
structure TemplateData where
  name : String
  isFunctionTemplate : Bool
  id : Nat := 0
deriving DecidableEq, Repr

/-- The values of `NameLookup::ResultType`. -/
inductive NameLookup.ResultType where
  | UnknownName | FunctionName | TemplateName | TypeName | VariableName
  | DataMemberName | StaticDataMemberName | GlobalName | LocalName | CaptureName
  | EnumValueName | NamespaceName | TemplateParameterName
deriving DecidableEq, Repr

/-- The class `NameLookupImpl`, as its constructor builds it; the results that
the code below only tests for being null are options. -/
structure NameLookupImpl where
  scope : Scope := none
  identifier : Option ast.Identifier := none
  functions : List NamedFunction := []
  typeResult : Type_ := Type_.Null
  valueResult : Option Nat := none
  classTemplateResult : Option TemplateData := none
  functionTemplateResult : List TemplateData := []
  dataMemberIndex : Int := -1
  globalIndex : Int := -1
  localIndex : Int := -1
  captureIndex : Int := -1
  templateParameterIndex : Int := -1
  enumeratorResult : Option Nat := none
  scopeResult : Scope := none
  staticDataMemberResult : Option Nat := none
  memberOfResult : Option Nat := none
deriving DecidableEq, Repr

/-- The function `NameLookup::resultType`. -/
def NameLookup.resultType (d : NameLookupImpl) : NameLookup.ResultType :=
  if !d.functions.isEmpty then .FunctionName
  else if d.dataMemberIndex ≠ -1 then .DataMemberName
  else if d.staticDataMemberResult.isSome then .StaticDataMemberName
  else if d.enumeratorResult.isSome then .EnumValueName
  else if d.globalIndex ≠ -1 then .GlobalName
  else if d.localIndex ≠ -1 then .LocalName
  else if d.captureIndex ≠ -1 then .CaptureName
  else if d.scopeResult.isSome then .NamespaceName
  else if d.classTemplateResult.isSome || !d.functionTemplateResult.isEmpty then .TemplateName
  else if !d.typeResult.isNull then .TypeName
  else if d.valueResult.isSome then .VariableName
  else if d.templateParameterIndex ≠ -1 then .TemplateParameterName
  else .UnknownName

/-- What a name lookup raises: a `std::runtime_error`, or an error of one of
the functions that it calls, told apart by a number. -/
inductive LookupError where
  | RuntimeError
  | Other (code : Nat)
deriving DecidableEq, Repr

/-- The state that a name lookup reads and writes: the field `parent` of every
`ScopeImpl`, by address (`none` is the null pointer), and the
`NameLookupImpl` that is filled. -/
structure LookupState where
  parent : Nat → Option Nat
  d : NameLookupImpl

/-- The outcome of a step of a name lookup: what it returns or raises, and the
state after it. -/
abbrev LookupResult (α : Type) := Except LookupError α × LookupState

/-- The functions that the name lookup calls and that are taken as given:
`Scope::lookup(name, impl)`, `Scope::lookup(op)`,
`ast::OperatorName::getOperatorId(symbol, All)`,
`NameLookupImpl::getClassTemplateInstance` (the type of the class instance,
`none` for a null class), `NameLookup::unqualified_scope_lookup` and
`script::parser::parseIdentifier`. -/
structure LookupEnv where
  scopeLookup : Scope → String → LookupState → LookupResult Unit
  scopeLookupOperator : Scope → BuiltInOperator → LookupState → LookupResult (List NamedFunction)
  getOperatorId : Token → BuiltInOperator
  getClassTemplateInstance :
    Scope → TemplateData → ast.Identifier → LookupState → LookupResult (Option Type_)
  unqualified_scope_lookup : ast.Identifier → Scope → LookupState → LookupResult Scope
  parseIdentifier : String → Except LookupError ast.Identifier

/-- The function `need_parse`. -/
def need_parse (name : String) : Bool :=
  name.data.any (fun c =>
    !((decide ('a' ≤ c) && decide (c ≤ 'z')) || (decide ('A' ≤ c) && decide (c ≤ 'Z'))
      || c == '_'))

/-- The table `built_in_types` of `NameLookup::resolve(name, scope)`. -/
def built_in_types : List (String × Type_) :=
  [("void", Type_.Void), ("bool", Type_.Boolean), ("char", Type_.Char), ("int", Type_.Int),
   ("float", Type_.Float), ("double", Type_.Double), ("auto", Type_.Auto)]

/-- The function `NameLookup::checkBuiltinName`: what it returns and the
`NameLookupImpl` after it. -/
def NameLookup.checkBuiltinName (d : NameLookupImpl) : Bool × NameLookupImpl :=
  match d.identifier with
  | some (.SimpleIdentifier name _) =>
    match name.type with
    | .Void => (true, { d with typeResult := Type_.Void })
    | .Bool => (true, { d with typeResult := Type_.Boolean })
    | .Char => (true, { d with typeResult := Type_.Char })
    | .Int => (true, { d with typeResult := Type_.Int })
    | .Float => (true, { d with typeResult := Type_.Float })
    | .Double => (true, { d with typeResult := Type_.Double })
    | .Auto => (true, { d with typeResult := Type_.Auto })
    | _ => (false, d)
  | _ => (false, d)

/-- The end of the branch for template identifiers in `NameLookup::process`
and in `NameLookup::qualified_lookup`, after the lookup of the name of the
template: the functions are dropped, and a class template found is replaced by
the type of its instance. -/
def NameLookup.keepTemplates (env : LookupEnv) (tempid : ast.Identifier) (st : LookupState) :
    LookupResult Unit :=
  let st1 : LookupState := { st with d := { st.d with functions := [] } }
  if NameLookup.resultType st1.d = .TemplateName then
    match st1.d.classTemplateResult with
    | some ct =>
      match env.getClassTemplateInstance st1.d.scope ct tempid st1 with
      | (.error err, st2) => (.error err, st2)
      | (.ok none, st2) => (.ok (), st2)
      | (.ok (some cla), st2) =>
        (.ok (), { st2 with d := { st2.d with classTemplateResult := none, typeResult := cla } })
    | none => (.ok (), st1)
  else (.ok (), st1)

/-- The function `NameLookup::qualified_lookup(name, s)`, with a budget of
nested calls: `none` when the budget is exhausted. The `ScopeParentGuard`
records the parent of the scope when it is built and writes it back when the
function is left, by a return or by an exception. A template identifier makes
one nested call, with a simple identifier, so a budget of 2 is never
exhausted. -/
def NameLookup.qualified_lookupFuel (env : LookupEnv) :
    Nat → ast.Identifier → Scope → LookupState → Option (LookupResult Unit)
  | 0, _, _, _ => none
  | fuel + 1, name, s, st =>
    match s with
    | none => some (.ok (), st)
    | some impl =>
      let parent_value := st.parent impl
      let st1 : LookupState := { st with parent := Function.update st.parent impl none }
      let body : Option (LookupResult Unit) :=
        match name with
        | .SimpleIdentifier _ text => some (env.scopeLookup s text st1)
        | .OperatorName symbol =>
          match env.scopeLookupOperator s (env.getOperatorId symbol) st1 with
          | (.error err, st2) => some (.error err, st2)
          | (.ok ops, st2) =>
            some (.ok (), { st2 with d := { st2.d with functions := st2.d.functions ++ ops } })
        | .TemplateIdentifier tok text _ =>
          match NameLookup.qualified_lookupFuel env fuel (.SimpleIdentifier tok text) s st1 with
          | none => none
          | some (.error err, st2) => some (.error err, st2)
          | some (.ok _, st2) => some (NameLookup.keepTemplates env name st2)
        | .ScopedIdentifier _ _ => some (.ok (), st1)
      match body with
      | none => none
      | some (r, st3) =>
        some (r, { st3 with parent := Function.update st3.parent impl parent_value })

/-- The function `NameLookup::qualified_lookup(name, s)`. -/
def NameLookup.qualified_lookup (env : LookupEnv) (name : ast.Identifier) (s : Scope)
    (st : LookupState) : Option (LookupResult Unit) :=
  NameLookup.qualified_lookupFuel env 2 name s st

/-- The function `NameLookup::process`; `none` stands for the exhausted budget
of `qualified_lookup`. -/
def NameLookup.process (env : LookupEnv) (st : LookupState) : Option (LookupResult Unit) :=
  match NameLookup.checkBuiltinName st.d with
  | (true, d1) => some (.ok (), { st with d := d1 })
  | (false, _) =>
    match st.d.identifier with
    | none => some (.error .RuntimeError, st)
    | some (.SimpleIdentifier _ text) => some (env.scopeLookup st.d.scope text st)
    | some (.OperatorName symbol) =>
      match env.scopeLookupOperator st.d.scope (env.getOperatorId symbol) st with
      | (.error err, st2) => some (.error err, st2)
      | (.ok ops, st2) =>
        some (.ok (), { st2 with d := { st2.d with functions := st2.d.functions ++ ops } })
    | some (.ScopedIdentifier lhs rhs) =>
      match env.unqualified_scope_lookup lhs st.d.scope st with
      | (.error err, st2) => some (.error err, st2)
      | (.ok scp, st2) => NameLookup.qualified_lookup env rhs scp st2
    | some (.TemplateIdentifier tok text args) =>
      match env.scopeLookup st.d.scope text st with
      | (.error err, st2) => some (.error err, st2)
      | (.ok _, st2) =>
        some (NameLookup.keepTemplates env (.TemplateIdentifier tok text args) st2)

/-- The function `NameLookup::resolve(identifier, scope)`, from the parents
`parent` of the scopes. -/
def NameLookup.resolveIdentifier (env : LookupEnv) (name : ast.Identifier) (scope : Scope)
    (parent : Nat → Option Nat) : Option (LookupResult Unit) :=
  NameLookup.process env
    { parent := parent, d := { identifier := some name, scope := scope } }

/-- The function `NameLookup::resolve(const std::string&, scope)`. -/
def NameLookup.resolve (env : LookupEnv) (name : String) (scope : Scope)
    (parent : Nat → Option Nat) : Option (LookupResult Unit) :=
  if need_parse name then
    match env.parseIdentifier name with
    | .error err => some (.error err, { parent := parent, d := {} })
    | .ok id => NameLookup.resolveIdentifier env id scope parent
  else
    let result : NameLookupImpl := { scope := scope }
    match built_in_types.lookup name with
    | some t => some (.ok (), { parent := parent, d := { result with typeResult := t } })
    | none => some (env.scopeLookup scope name { parent := parent, d := result })

/-! ## Member lookup and member access -/

/-- The values of `AccessSpecifier`. -/
inductive AccessSpecifier where
  | Public | Protected | Private
deriving DecidableEq, Repr

/-- A data member of a class, `Class::DataMember`: type, name and
accessibility. -/
structure DataMember where
  type : Type_
  name : String
  accessibility : AccessSpecifier := .Public
deriving DecidableEq, Repr

/-- What the member lookup and the member access read of a `Class`: its member
functions, its templates, its data members and `attributesOffset()`; the class
is told apart by `id`. The parent is not in the record: a class is handed over
as the list of the class, its parent, the parent of its parent and so on, the
null class being the empty list. -/
structure ClassData where
  id : Nat
  memberFunctions : List NamedFunction := []
  templates : List TemplateData := []
  dataMembers : List DataMember := []
  attributesOffset : Nat := 0
deriving DecidableEq, Repr

/-- The function `NameLookup::recursive_member_lookup(result, name, cla)`, on
the class `cla` with its ancestors. -/
def NameLookup.recursive_member_lookup (name : String) :
    NameLookupImpl → List ClassData → NameLookupImpl
  | result, [] => result
  | result, cla :: ancestors =>
    let r1 : NameLookupImpl :=
      { result with
        functions := result.functions ++ cla.memberFunctions.filter (fun f => f.name == name) }
    let r2 : NameLookupImpl :=
      { r1 with
        functionTemplateResult := r1.functionTemplateResult
          ++ cla.templates.filter (fun ft => ft.isFunctionTemplate && ft.name == name) }
    match cla.dataMembers.findIdx? (fun m => m.name == name) with
    | some i => { r2 with dataMemberIndex := ((i + cla.attributesOffset : Nat) : Int) }
    | none =>
      if !r2.functions.isEmpty || !r2.functionTemplateResult.isEmpty then r2
      else NameLookup.recursive_member_lookup name r2 ancestors

/-- The function `NameLookup::member(name, cla)`; the scope `Scope{ cla }` is
named by the class. -/
def NameLookup.member (name : String) (cla : List ClassData) : NameLookupImpl :=
  NameLookup.recursive_member_lookup name { scope := cla.head?.map (fun c => c.id) } cla

/-- The loop of `ExpressionCompiler::generateMemberAccess`: the class and the
relative index on which it ends; `none` when it reaches the null class. -/
def resolveRelativeIndex : List ClassData → Int → Option (ClassData × Int)
  | [], _ => none
  | cla :: ancestors, relative_index =>
    if relative_index - (cla.dataMembers.length : Int) ≥ 0 then
      resolveRelativeIndex ancestors (relative_index - (cla.dataMembers.length : Int))
    else some (cla, relative_index)

/-! ## Expression compiler (`src/compiler/expressioncompiler.cpp`) -/

/-- A prototype: the return type and the types of the parameters. -/
structure Prototype where
  returnType : Type_ := Type_.Void
  parameters : List Type_ := []
deriving DecidableEq, Repr

/-- The program expressions that the functions below emit:
`program::MemberAccess::New(type, object, index)`,
`program::ConditionalExpression::New(con, tru, fal)` and
`program::FunctionVariableCall::New(functor, returnType, args)`. -/
inductive CompiledExpression where
  | MemberAccess (type : Type_) (object : Expression) (index : Int)
  | ConditionalExpression (con tru fal : Expression)
  | FunctionVariableCall (functor : Expression) (returnType : Type_) (args : List Expression)
deriving DecidableEq, Repr

/-- What the functions below ask of the compiler around them:
`engine()->getClass(type)` (the class with its ancestors),
`Accessibility::check(caller(), cla, access)`, `generateExpression`,
`engine()->getFunctionType(type).prototype()` and
`ConversionProcessor::prepare(engine(), args, proto, conversions)`, which
leaves the arguments converted. -/
structure ExpressionCompilerEnv where
  getClass : Type_ → List ClassData
  accessible : ClassData → AccessSpecifier → Bool
  generateExpression : ast.Expression → Except CompilerError Expression
  getFunctionType : Type_ → Prototype
  prepare : List Expression → Prototype → List Conversion → Except CompilerError (List Expression)

namespace ExpressionCompiler

/-- The function `ExpressionCompiler::generateMemberAccess(object, index,
dpos)`. -/
def generateMemberAccess (cenv : ExpressionCompilerEnv) (object : Expression) (index : Int) :
    Except CompilerError CompiledExpression :=
  match resolveRelativeIndex (cenv.getClass object.type) index with
  | none => .error .RuntimeError
  | some (cla, relative_index) =>
    if relative_index < 0 then .error .OutOfRange
    else
      match cla.dataMembers[relative_index.toNat]? with
      | none => .error .OutOfRange
      | some dm =>
        if !cenv.accessible cla dm.accessibility then .error (.InaccessibleMember dm.name)
        else
          let access_type :=
            if object.type.isConst then Type_.cref dm.type else Type_.ref dm.type
          .ok (.MemberAccess access_type object index)

/-- The function `ExpressionCompiler::generateConditionalExpression(ce)`; its
parameter is a conditional expression, and another node is an error here. -/
def generateConditionalExpression (cenv : ExpressionCompilerEnv) :
    ast.Expression → Except CompilerError CompiledExpression
  | .ConditionalExpression condition _ onTrue _ onFalse =>
    match cenv.generateExpression onTrue with
    | .error err => .error err
    | .ok tru =>
      match cenv.generateExpression onFalse with
      | .error err => .error err
      | .ok fal =>
        match cenv.generateExpression condition with
        | .error err => .error err
        | .ok con => .ok (.ConditionalExpression con tru fal)
  | _ => .error .RuntimeError

/-- The loop of `generateFunctionVariableCall` over the arguments from
position `i` on: the conversions pushed. The read `proto.argv(i)` beyond the
parameters of the prototype, which the code does not guard, is an error
here. -/
def functionVariableConversions (e : Engine) (env : ConstructionEnv) (proto : Prototype) :
    Nat → List Expression → Except CompilerError (List Conversion)
  | _, [] => .ok []
  | i, a :: rest =>
    match proto.parameters[i]? with
    | none => .error .RuntimeError
    | some parameter =>
      match Conversion.computeExpr env a parameter e with
      | .error err => .error err
      | .ok conv =>
        if conv.eq Conversion.NotConvertible then .error (.CouldNotConvert a.type parameter)
        else
          match functionVariableConversions e env proto (i + 1) rest with
          | .error err => .error err
          | .ok conversions => .ok (conv :: conversions)

/-- The function `ExpressionCompiler::generateFunctionVariableCall(call,
functor, args)`. -/
def generateFunctionVariableCall (e : Engine) (env : ConstructionEnv)
    (cenv : ExpressionCompilerEnv) (functor : Expression) (args : List Expression) :
    Except CompilerError CompiledExpression :=
  let proto := cenv.getFunctionType functor.type
  match functionVariableConversions e env proto 0 args with
  | .error err => .error err
  | .ok conversions =>
    match cenv.prepare args proto conversions with
    | .error err => .error err
    | .ok prepared => .ok (.FunctionVariableCall functor proto.returnType prepared)

end ExpressionCompiler

/-! ## Function builder (`src/functionbuilder.cpp`) -/

namespace Prototype

/-- Modelled from the spec: `Prototype::count`, the number of parameters. -/
def count (p : Prototype) : Nat := p.parameters.length

/-- Modelled from the spec: `Prototype::at`, the parameter at an index. -/
def at_ (p : Prototype) (i : Nat) : Type_ := p.parameters.getD i Type_.Null

/-- Modelled from the spec: `Prototype::setParameter`, which writes the
parameter at an index. -/
def setParameter (p : Prototype) (i : Nat) (t : Type_) : Prototype :=
  { p with parameters := p.parameters.set i t }

/-- Modelled from the spec: `Prototype::popParameter`, which removes the last
parameter. -/
def popParameter (p : Prototype) : Prototype :=
  { p with parameters := p.parameters.dropLast }

end Prototype

/-- Modelled from the spec: `Type::testFlag(Type::ThisFlag)`. -/
def Type_.testThisFlag (t : Type_) : Bool := t.thisFlag

/-- The class `FunctionBuilder`, with the two fields that `setStatic` writes:
the flags and the prototype. -/
structure FunctionBuilder where
  flags : Nat := 0
  proto : Prototype := {}
deriving DecidableEq, Repr

namespace FunctionBuilder

/-- The function `FunctionBuilder::setStatic`. The constant `Function::Static`
of `function.h` is the parameter `Static`. The loop
`for (int i(0); i < proto.count() - 1; ++i) proto.setParameter(i, proto.at(i+1))`
is the fold over the indices `0 .. count - 2`. -/
def setStatic (Static : Nat) (b : FunctionBuilder) : FunctionBuilder :=
  let b1 : FunctionBuilder := { b with flags := b.flags ||| (Static <<< 2) }
  if b1.proto.count == 0 || !(b1.proto.at_ 0).testThisFlag then b1
  else
    let proto := (List.range (b1.proto.count - 1)).foldl
      (fun p i => p.setParameter i (p.at_ (i + 1))) b1.proto
    { b1 with proto := proto.popParameter }

/-- The function `FunctionBuilder::isStatic`. -/
def isStatic (Static : Nat) (b : FunctionBuilder) : Bool :=
  (b.flags &&& (Static <<< 2)) != 0

end FunctionBuilder

/-! ## Identifiers (`src/parser/parser.cpp`) -/

/-- The parts of `IdentifierParser::readOperatorName` that are taken as given:
the test `testOption(ParseOperatorName)` of the options of the parser, the test
`op.type & Token::OperatorToken`, and the two branches that build an
`ast::LiteralOperatorName`, from an empty string literal followed by a name and
from a user-defined literal. -/
structure IdentifierParserEnv where
  parseOperatorName : Bool
  isOperatorToken : Token → Bool
  readLiteralOperatorName : Token → Token → AbstractFragment → ParserData →
    ParserResult ast.Identifier
  readUserDefinedLiteralName : Token → AbstractFragment → ParserData →
    ParserResult ast.Identifier

/-- The function `IdentifierParser::readOperatorName`. -/
def IdentifierParser.readOperatorName (env : IdentifierParserEnv) (frag : AbstractFragment)
    (data : ParserData) : ParserResult ast.Identifier :=
  if !env.parseOperatorName then
    match frag.peek data with
    | .error ex => .error ex
    | .ok _ => .error (.SyntaxError .UnexpectedToken, data)
  else
    match data.read with
    | .error ex => .error ex
    | .ok (opkw, data1) =>
      match frag.atEnd data1 with
      | .error ex => .error ex
      | .ok true => .error (.SyntaxError .UnexpectedEndOfInput, data1)
      | .ok false =>
        match frag.peek data1 with
        | .error ex => .error ex
        | .ok op =>
          if env.isOperatorToken op then
            match data1.read with
            | .error ex => .error ex
            | .ok (symbol, data2) => .ok (.OperatorName symbol, data2)
          else if op.type = .LeftPar then
            match data1.read with
            | .error ex => .error ex
            | .ok (lp, data2) =>
              match frag.atEnd data2 with
              | .error ex => .error ex
              | .ok true => .error (.SyntaxError .UnexpectedEndOfInput, data2)
              | .ok false =>
                match ParserBase.readType data2 .RightPar with
                | .error ex => .error ex
                | .ok (rp, data3) =>
                  if lp.column + 1 ≠ rp.column then
                    .error (.SyntaxError .UnexpectedToken, data3)
                  else
                    .ok (.OperatorName { type := .LeftRightPar, pos := lp.pos, length := 2,
                                         line := lp.line, column := lp.column }, data3)
          else if op.type = .LeftBracket then
            match data1.read with
            | .error ex => .error ex
            | .ok (lb, data2) =>
              match ParserBase.readType data2 .RightBracket with
              | .error ex => .error ex
              | .ok (rb, data3) =>
                if lb.column + 1 ≠ rb.column then
                  .error (.SyntaxError .UnexpectedToken, data3)
                else
                  .ok (.OperatorName { type := .LeftRightBracket, pos := lb.pos, length := 2,
                                       line := lb.line, column := lb.column }, data3)
          else if op.type = .StringLiteral then
            if op.length ≠ 2 then .error (.SyntaxError .ExpectedEmptyStringLiteral, data1)
            else env.readLiteralOperatorName opkw op frag data1
          else if op.type = .UserDefinedLiteral then
            env.readUserDefinedLiteralName opkw frag data1
          else .error (.SyntaxError .ExpectedOperatorSymbol, data1)

end script

/-! ## Concrete inputs used by the examples -/

namespace script

/-- An engine without classes: no two types are related by inheritance. -/
def noClasses : Engine :=
  { inheritanceLevel := fun _ _ => -1, isCopyConstructible := fun _ => true,
    constructors := fun _ => [], casts := fun _ => [] }

/-- The rank that the claim C3 words: exact match for the same type, promotion
when the destination is wider within one family (integral `bool`, `char`,
`int`, indices 2 to 4; floating `float`, `double`, indices 5 and 6), conversion
otherwise. -/
def familyRank (src dest : Type_) : ConversionRank :=
  if src.index = dest.index then .ExactMatch
  else if src.index < dest.index
      && (decide (dest.index ≤ 4) || decide (5 ≤ src.index)) then .Promotion
  else .Conversion

/-- The rank that the table gives: exact match for the same type, promotion
when the destination comes later in the order `bool`, `char`, `int`, `float`,
`double`, conversion otherwise. -/
def orderRank (src dest : Type_) : ConversionRank :=
  if src.index = dest.index then .ExactMatch
  else if src.index < dest.index then .Promotion
  else .Conversion

/-- The initialization of a parameter from an argument type, without classes. -/
def typeInitialization (parameter_type arg_type : Type_) : Initialization :=
  Initialization.compute parameter_type arg_type noClasses

/-- The candidate `void f1(int, bool)`. -/
def f_int_bool : FunctionImpl := { id := 1, parameters := [Type_.Int, Type_.Boolean] }
/-- The candidate `void f2(bool, char)`. -/
def f_bool_char : FunctionImpl := { id := 2, parameters := [Type_.Boolean, Type_.Char] }
/-- The candidate `void f3(bool, int)`. -/
def f_bool_int : FunctionImpl := { id := 3, parameters := [Type_.Boolean, Type_.Int] }
/-- The candidate `void f4(int, int)`. -/
def f_int_int : FunctionImpl := { id := 4, parameters := [Type_.Int, Type_.Int] }

/-- A construction environment without classes. -/
def noConstructors : ConstructionEnv :=
  { defaultConstructor := fun _ => none, isDeleted := fun _ => false,
    process := fun _ _ => none, defaultPolicy := .NoExplicitConversions }

/-- An enumeration type: the first entry of the enum table. -/
def enumA : Type_ := { index := 1, enumFlag := true }

/-- Modelled from the spec: an entry of the engine's class table (`class.cpp`
is not among the sources): at most one parent, given by its index in the
table, the copy-constructible flag, the ordered constructors and the casts. -/
structure ClassInfo where
  parent : Option Nat := none
  isCopyConstructible : Bool := true
  constructors : List FunctionImpl := []
  casts : List FunctionImpl := []
deriving Repr

/-- Modelled from the spec: `Class::inheritanceLevel`, which walks the
ancestors of the class `cur` and returns the number of parent links up to
`target`, or `none` (the source returns `-1`) when `target` is no ancestor. The
first argument bounds the walk by the size of the table. -/
def inheritanceLevelFrom (classes : List ClassInfo) : Nat → Nat → Nat → Option Nat
  | 0, _, _ => none
  | fuel + 1, cur, target =>
    if cur = target then some 0
    else
      match (classes.get? cur).bind (fun c => c.parent) with
      | none => none
      | some p => (inheritanceLevelFrom classes fuel p target).map (fun n => n + 1)

/-- The type of the class at position `i` of the class table. -/
def classType (i : Nat) : Type_ := { index := i, objectFlag := true }

/-- Modelled from the spec: the engine over a class table. -/
def Engine.ofClasses (classes : List ClassInfo) : Engine :=
  { inheritanceLevel := fun src dest =>
      match inheritanceLevelFrom classes classes.length src.index dest.index with
      | some n => (n : Int)
      | none => -1
    isCopyConstructible := fun t =>
      match classes.get? t.index with
      | some c => c.isCopyConstructible
      | none => false
    constructors := fun t =>
      match classes.get? t.index with
      | some c => c.constructors
      | none => []
    casts := fun t =>
      match classes.get? t.index with
      | some c => c.casts
      | none => [] }

/-- A chain of 257 classes: the class at position `i + 1` derives from the
class at position `i`. -/
def classChain : List ClassInfo :=
  (List.range 257).map (fun i => { parent := if i = 0 then none else some (i - 1) })

/-- A base class and a class derived from it. -/
def baseAndDerived : List ClassInfo := [{ parent := none }, { parent := some 0 }]

/-- The conversion from `src` to the only parameter of the constructor `c`:
`first_conversion` in `select_converting_constructor2`. -/
def ctorConversion (src : Type_) (engine : Engine) (c : FunctionImpl) : StandardConversion2 :=
  StandardConversion2.compute src (c.parameters.getD 0 Type_.Null) engine

/-- An admissible constructor: one parameter, not excluded by the policy, and
its parameter is standard-convertible from `src`. -/
def ctorAdmissible (src : Type_) (engine : Engine) (policy : ConversionPolicy)
    (c : FunctionImpl) : Bool :=
  ctorConsidered policy c && (ctorConversion src engine c != StandardConversion2.NotConvertible)

/-- An admissible cast of the class of `src`: not excluded by the policy, its
source type is standard-convertible from `src` and its target type is
standard-convertible to `dest`. -/
def castAdmissible (src dest : Type_) (engine : Engine) (policy : ConversionPolicy)
    (c : FunctionImpl) : Bool :=
  !(c.isExplicit && policy == .NoExplicitConversions)
    && (StandardConversion2.compute src c.sourceType engine != StandardConversion2.NotConvertible)
    && (StandardConversion2.compute c.destType dest engine != StandardConversion2.NotConvertible)

/-- What `operator<` compares, packed into one number in the order of the
comparison: the rank, the derived-to-base depth, whether the conversion copies
instead of binding a reference, and whether it adjusts the qualification. -/
def StandardConversion2.key (c : StandardConversion2) : Nat :=
  ((c.rank.toNat * 256 + (if c.isDerivedToBaseConversion then c.derivedToBaseConversionDepth
      else 0)) * 2 + (if c.isReferenceConversion then 0 else 1)) * 2
    + (if c.hasQualificationAdjustment then 1 else 0)

/-- The cast `operator int() const` of the class at position 0. -/
def cast_to_int : FunctionImpl :=
  { id := 1, returnType := Type_.Int,
    parameters := [{ Type_.cref (classType 0) with thisFlag := true }], isCast := true }

/-- A class `A` whose only member is `operator int() const`. -/
def classWithCast : List ClassInfo := [{ casts := [cast_to_int] }]

/-- The second standard conversion that `select_cast2` stores: a plain copy is
replaced by the default-constructed conversion. -/
def castSecondConversion (dest : Type_) (engine : Engine) (c : FunctionImpl) :
    StandardConversion2 :=
  if StandardConversion2.compute c.destType dest engine == StandardConversion2.Copy then
    StandardConversion2.default_
  else StandardConversion2.compute c.destType dest engine

/-- The converting constructor `A(int)` of the class at position 0. -/
def ctor_int : FunctionImpl :=
  { id := 1, returnType := Type_.cref (classType 0), parameters := [Type_.Int],
    isConstructor := true }

/-- The converting constructor `A(bool)` of the class at position 0. -/
def ctor_bool : FunctionImpl :=
  { id := 2, returnType := Type_.cref (classType 0), parameters := [Type_.Boolean],
    isConstructor := true }

/-- The converting constructor `A(float)` of the class at position 0. -/
def ctor_float : FunctionImpl :=
  { id := 3, returnType := Type_.cref (classType 0), parameters := [Type_.Float],
    isConstructor := true }

/-- The class `A { A(int); A(bool); }`. -/
def classIntBool : List ClassInfo := [{ constructors := [ctor_int, ctor_bool] }]

/-- The class `A { A(bool); A(int); }`. -/
def classBoolInt : List ClassInfo := [{ constructors := [ctor_bool, ctor_int] }]

/-- The class `A { A(int); A(float); }`. -/
def classIntFloat : List ClassInfo := [{ constructors := [ctor_int, ctor_float] }]

/-- The class `A { }`, without constructors. -/
def classEmpty : List ClassInfo := [{ }]

/-- The invariant of the loop of `select_converting_constructor2` after the
constructors `seen`: `best_conv` is "not convertible" or the conversion of an
admissible constructor met so far, with the least key among them;
`ambiguous_conv` is "not convertible" or the conversion of an admissible
constructor met so far with the same key as `best_conv`; and as long as
`ambiguous_conv` is "not convertible", at most one admissible constructor met
so far has the key of `best_conv`. -/
def CtorSelection.Inv (src : Type_) (engine : Engine) (policy : ConversionPolicy)
    (seen : List FunctionImpl) (st : CtorSelection) : Prop :=
  (st.best_conv = StandardConversion2.NotConvertible
    ∨ ∃ c ∈ seen, ctorAdmissible src engine policy c = true
        ∧ st.best_conv = ctorConversion src engine c)
  ∧ (∀ c ∈ seen, ctorAdmissible src engine policy c = true →
      st.best_conv.key ≤ (ctorConversion src engine c).key)
  ∧ (st.ambiguous_conv = StandardConversion2.NotConvertible
    ∨ (∃ c ∈ seen, ctorAdmissible src engine policy c = true
        ∧ st.ambiguous_conv = ctorConversion src engine c)
      ∧ st.ambiguous_conv.key = st.best_conv.key)
  ∧ (st.ambiguous_conv = StandardConversion2.NotConvertible →
      seen.countP (fun c => ctorAdmissible src engine policy c
        && ((ctorConversion src engine c).key == st.best_conv.key)) ≤ 1)

/-- The order `operator<` within one rank, in the words of claim C13: the
smaller derived-to-base depth wins when both are derived-to-base; otherwise,
unless both are derived-to-base with a larger depth on the left, a reference
binding wins over a conversion that is none; otherwise, with the same
reference-ness, lacking a qualification adjustment wins; every other case is
`false`. -/
def withinRankBetter (a b : StandardConversion2) : Bool :=
  let bothDerived := a.isDerivedToBaseConversion && b.isDerivedToBaseConversion
  if bothDerived && decide (a.derivedToBaseConversionDepth < b.derivedToBaseConversionDepth) then
    true
  else if !bothDerived
      || decide (a.derivedToBaseConversionDepth = b.derivedToBaseConversionDepth) then
    if a.isReferenceConversion && !b.isReferenceConversion then true
    else if (a.isReferenceConversion == b.isReferenceConversion)
        && b.hasQualificationAdjustment && !a.hasQualificationAdjustment then true
    else false
  else false

/-- A function type: the first entry of the table of function signatures. -/
def functionTypeA : Type_ := { index := 1, prototypeFlag := true }

/-- Another function type, with a different prototype. -/
def functionTypeB : Type_ := { index := 2, prototypeFlag := true }

/-- The user-defined conversion from `int` to the class `A { A(int); A(bool); }`. -/
def intToClassA : Conversion :=
  Conversion.compute Type_.Int (classType 0) (Engine.ofClasses classIntBool)
    .NoExplicitConversions

/-- The reference table of precedence groups, as claim C18 and section 6 of the
spec list it. -/
def referencePrecedence : BuiltInOperator → Int
  | .Null => 0
  | .ScopeResolutionOperator => 1
  | .PostIncrementOperator | .PostDecrementOperator | .FunctionCallOperator
  | .SubscriptOperator | .MemberAccessOperator => 2
  | .PreIncrementOperator | .PreDecrementOperator | .UnaryPlusOperator
  | .UnaryMinusOperator | .LogicalNotOperator | .BitwiseNot => 3
  | .MultiplicationOperator | .DivisionOperator | .RemainderOperator => 4
  | .AdditionOperator | .SubstractionOperator => 5
  | .LeftShiftOperator | .RightShiftOperator => 6
  | .LessOperator | .GreaterOperator | .LessEqualOperator | .GreaterEqualOperator => 7
  | .EqualOperator | .InequalOperator => 8
  | .BitwiseAndOperator => 9
  | .BitwiseXorOperator => 10
  | .BitwiseOrOperator => 11
  | .LogicalAndOperator => 12
  | .LogicalOrOperator => 13
  | .ConditionalOperator | .AssignmentOperator | .MultiplicationAssignmentOperator
  | .DivisionAssignmentOperator | .RemainderAssignmentOperator
  | .AdditionAssignmentOperator | .SubstractionAssignmentOperator
  | .LeftShiftAssignmentOperator | .RightShiftAssignmentOperator
  | .BitwiseAndAssignmentOperator | .BitwiseOrAssignmentOperator
  | .BitwiseXorAssignmentOperator => 14
  | .CommaOperator => 15

/-- The class `A { A(float); }`. -/
def classFloat : List ClassInfo := [{ constructors := [ctor_float] }]

/-- The member function `void A::f()` of the class at position 0: its only
parameter is the implicit object, of type `A&`. -/
def member_f : FunctionImpl :=
  { id := 7, parameters := [{ Type_.ref (classType 0) with thisFlag := true }],
    hasImplicitObject := true }

/-- The test `details::overloadresolution_is_null` on a type. -/
def typeIsNull (t : Type_) : Bool := t == Type_.Null

/-- Modelled from the spec: `ast::OperatorName::getOperatorId(tok, InfixOp)` of
the ast sources (not among the sources), on the tokens of the binary operators
of the reference table; every other token gives `Operator::Null`. -/
def binaryOperatorId (tok : Token) : BuiltInOperator :=
  match tok.type with
  | .Mul => .MultiplicationOperator
  | .Div => .DivisionOperator
  | .Remainder => .RemainderOperator
  | .Plus => .AdditionOperator
  | .Minus => .SubstractionOperator
  | .LeftShift => .LeftShiftOperator
  | .RightShift => .RightShiftOperator
  | .Less => .LessOperator
  | .GreaterThan => .GreaterOperator
  | .LessEqual => .LessEqualOperator
  | .GreaterThanEqual => .GreaterEqualOperator
  | .EqEq => .EqualOperator
  | .Neq => .InequalOperator
  | .BitwiseAnd => .BitwiseAndOperator
  | .BitwiseXor => .BitwiseXorOperator
  | .BitwiseOr => .BitwiseOrOperator
  | .LogicalAnd => .LogicalAndOperator
  | .LogicalOr => .LogicalOrOperator
  | .Eq => .AssignmentOperator
  | .MulEq => .MultiplicationAssignmentOperator
  | .DivEq => .DivisionAssignmentOperator
  | .RemainderEq => .RemainderAssignmentOperator
  | .AddEq => .AdditionAssignmentOperator
  | .SubEq => .SubstractionAssignmentOperator
  | .LeftShiftEq => .LeftShiftAssignmentOperator
  | .RightShiftEq => .RightShiftAssignmentOperator
  | .BitAndEq => .BitwiseAndAssignmentOperator
  | .BitOrEq => .BitwiseOrAssignmentOperator
  | .BitXorEq => .BitwiseXorAssignmentOperator
  | .Comma => .CommaOperator
  | _ => .Null

/-- The token of kind `t` at offset `pos` of a one-line source. -/
def tokenAt (t : TokenType) (pos : Nat) : Token :=
  { type := t, pos := pos, length := 1, line := 0, column := pos }

/-- A token of the expression parser is an infix operator token when it is
neither `?` nor `:` and `getOperatorId` maps it to an operator other than
`Operator::Null`, which is what `readBinaryOperator` checks with
`isInfixOperator`. -/
def isInfixToken (getOperatorId : Token → BuiltInOperator) (tok : Token) : Prop :=
  tok.type ≠ .QuestionMark ∧ tok.type ≠ .Colon ∧ getOperatorId tok ≠ .Null

/-- An infix operator token that binds tighter than group 14, the group of
`?:` and of the assignments. -/
def bindsTighter (getOperatorId : Token → BuiltInOperator) (tok : Token) : Prop :=
  isInfixToken getOperatorId tok ∧ Operator.precedence (getOperatorId tok) < 14

/-- The tokens of `A<B<C>>`. -/
def nestedTemplateTokens : List Token :=
  [{ type := .UserDefinedName, pos := 0, length := 1, column := 0 },
   { type := .Less, pos := 1, length := 1, column := 1 },
   { type := .UserDefinedName, pos := 2, length := 1, column := 2 },
   { type := .Less, pos := 3, length := 1, column := 3 },
   { type := .UserDefinedName, pos := 4, length := 1, column := 4 },
   { type := .RightShift, pos := 5, length := 2, column := 5 }]

/-- The test `Token::isOperator` on the tokens of the operators of the lexer
test; the declaration, in `token.h`, is not among the sources. -/
def tokenIsOperator (tok : Token) : Bool :=
  binaryOperatorId tok != .Null
    || tok.type == .PlusPlus || tok.type == .MinusMinus
    || tok.type == .LogicalNot || tok.type == .BitwiseNot

/-- The function `ExpressionParser::readOperand` on an operand made of one
identifier or literal token, followed by an operator token, `?`, `:` or the end
of the fragment; the operand is named by the offset of its token. The other
forms of operand (prefix operator, parentheses, lambda, list, call, subscript,
member access) are not followed here and end in `UnexpectedToken`. -/
def readSimpleOperand (frag : AbstractFragment) (data : ParserData) :
    ParserResult ast.Expression :=
  match frag.atEnd data with
  | .error ex => .error ex
  | .ok true => .error (.SyntaxError .UnexpectedFragmentEnd, data)
  | .ok false =>
    let t := data.unsafe_peek
    if tokenIsOperator t then .error (.SyntaxError .ExpectedPrefixOperator, data)
    else if t.type = .UserDefinedName ∨ t.type = .IntegerLiteral then
      match data.read with
      | .error ex => .error ex
      | .ok (tok, data1) =>
        match frag.atEnd data1 with
        | .error ex => .error ex
        | .ok true => .ok (.Operand tok.pos, data1)
        | .ok false =>
          let next := data1.unsafe_peek
          if tokenIsOperator next || next.type == .QuestionMark || next.type == .Colon then
            .ok (.Operand tok.pos, data1)
          else .error (.SyntaxError .UnexpectedToken, data1)
    else .error (.SyntaxError .UnexpectedToken, data)

/-- A parser environment for the examples: operands of one token, a detection
of declarations that reads one token, as a type specifier, before it reports
that the statement is not a declaration, and no other statement. -/
def simpleParserEnv : ParserEnv where
  isOperator := tokenIsOperator
  getOperatorId := binaryOperatorId
  readOperand := readSimpleOperand
  detectDecl := fun _ data =>
    match data.read with
    | .error ex => .error ex
    | .ok (_, data1) => .ok (false, data1)
  declParse := fun _ data => .error (.SyntaxError .ExpectedDeclaration, data)
  keywordStatement := fun _ _ data => .error (.SyntaxError .UnexpectedToken, data)

/-- The tokens of `friend ; friend`. -/
def friendTokens : List Token :=
  [{ type := .Friend, pos := 0, length := 6, column := 0 }, tokenAt .Semicolon 7,
   { type := .Friend, pos := 9, length := 6, column := 9 }]

/-- The tokens of `; break break ; break ;`. -/
def breakTokens : List Token :=
  [tokenAt .Semicolon 0,
   { type := .Break, pos := 2, length := 5, column := 2 },
   { type := .Break, pos := 8, length := 5, column := 8 }, tokenAt .Semicolon 14,
   { type := .Break, pos := 16, length := 5, column := 16 }, tokenAt .Semicolon 22]

/-- The tokens of `x = 3 ;`. -/
def assignmentTokens : List Token :=
  [tokenAt .UserDefinedName 0, tokenAt .Eq 2, tokenAt .IntegerLiteral 4,
   tokenAt .Semicolon 6]

/-- A lookup environment over scopes that declare nothing: every lookup
returns without a result, and no string is parsed. -/
def emptyLookupEnv : LookupEnv where
  scopeLookup := fun _ _ st => (.ok (), st)
  scopeLookupOperator := fun _ _ st => (.ok [], st)
  getOperatorId := fun _ => .Null
  getClassTemplateInstance := fun _ _ _ st => (.ok none, st)
  unqualified_scope_lookup := fun _ _ st => (.ok none, st)
  parseIdentifier := fun _ => .error .RuntimeError

/-- A lookup environment whose lookup of a name in a scope records, in
`globalIndex`, whether the scope has a parent when the lookup runs (0 when it
has none, 1 otherwise). -/
def parentProbeEnv : LookupEnv where
  scopeLookup := fun s _ st =>
    (.ok (), { st with d := { st.d with
      globalIndex := if (s.bind st.parent).isNone then 0 else 1 } })
  scopeLookupOperator := fun _ _ st => (.ok [], st)
  getOperatorId := fun _ => .Null
  getClassTemplateInstance := fun _ _ _ st => (.ok none, st)
  unqualified_scope_lookup := fun _ _ st => (.ok none, st)
  parseIdentifier := fun _ => .error .RuntimeError

/-- The parents of two scopes: the scope at address 1 has the scope at address
0 for parent, which has none. -/
def nestedScopeParents : Nat → Option Nat := fun n => if n = 1 then some 0 else none

/-- A class declares a member named `name`: a member function, a function
template or a data member of that name. -/
def declaresMember (name : String) (cla : ClassData) : Bool :=
  cla.memberFunctions.any (fun f => f.name == name)
    || cla.templates.any (fun ft => ft.isFunctionTemplate && ft.name == name)
    || cla.dataMembers.any (fun m => m.name == name)

/-- The base class `B { int b0; void f(); }`. -/
def classB : ClassData :=
  { id := 0,
    memberFunctions := [{ name := "f", function := { id := 20, hasImplicitObject := true } }],
    dataMembers := [{ type := Type_.Int, name := "b0" }],
    attributesOffset := 0 }

/-- The class `C : B { float d0; void f(); }`; its data members come after the
one of `B`. -/
def classC : ClassData :=
  { id := 1,
    memberFunctions := [{ name := "f", function := { id := 21, hasImplicitObject := true } }],
    dataMembers := [{ type := Type_.Float, name := "d0" }],
    attributesOffset := 1 }

/-- A compiler environment for the examples. The type `classType 1` is the
class `C` with its base `B` and `classType 0` is `B`; every member is
accessible; the operands 1, 2 and 3 compile to expressions of type `bool`,
`int` and `B`; the function type `A` has the prototype `int(int, int)`.
Modelled from the spec: `ConversionProcessor::prepare` (not among the sources)
inserts the conversions; they are not represented in an expression, so the
arguments are returned as they are. -/
def exampleCompilerEnv : ExpressionCompilerEnv where
  getClass := fun t =>
    if t.baseType = classType 1 then [classC, classB]
    else if t.baseType = classType 0 then [classB]
    else []
  accessible := fun _ _ => true
  generateExpression := fun expr =>
    match expr with
    | .Operand 1 => .ok { type := Type_.Boolean, node := 1 }
    | .Operand 2 => .ok { type := Type_.Int, node := 2 }
    | .Operand 3 => .ok { type := classType 0, node := 3 }
    | _ => .error .NotImplementedError
  getFunctionType := fun t =>
    if t.baseType = functionTypeA then
      { returnType := Type_.Int, parameters := [Type_.Int, Type_.Int] }
    else {}
  prepare := fun args _ _ => .ok args

/-- The builder of a member function `int f(this, int, bool)` of the class at
position 0. -/
def memberBuilder : FunctionBuilder :=
  { flags := 0,
    proto := { returnType := Type_.Int,
               parameters := [{ Type_.ref (classType 0) with thisFlag := true },
                              Type_.Int, Type_.Boolean] } }

/-- An identifier parser with the option `ParseOperatorName`, which the parser
of declarators sets, on sources without literal operator names. -/
def operatorNameEnv : IdentifierParserEnv where
  parseOperatorName := true
  isOperatorToken := tokenIsOperator
  readLiteralOperatorName := fun _ _ _ data => .error (.SyntaxError .ExpectedIdentifier, data)
  readUserDefinedLiteralName := fun _ _ data =>
    .error (.SyntaxError .ExpectedEmptyStringLiteral, data)

/-- The tokens of the two-line source `operator(` / `         )`: the opening
parenthesis is at offset 8, in column 8 of line 0; the closing one is at offset
19, in column 9 of line 1, after a line break and nine spaces. -/
def operatorCallTwoLines : List Token :=
  [{ type := .Operator, pos := 0, length := 8, line := 0, column := 0 },
   { type := .LeftPar, pos := 8, length := 1, line := 0, column := 8 },
   { type := .RightPar, pos := 19, length := 1, line := 1, column := 9 }]

/-- The tokens of `operator( )`, with a space between the parentheses. -/
def operatorCallSpaced : List Token :=
  [{ type := .Operator, pos := 0, length := 8, line := 0, column := 0 },
   tokenAt .LeftPar 8, tokenAt .RightPar 10]

/-- The tokens of `for ( i = 0 ; i < n ; ++ i ) ;`. -/
def forLoopTokens : List Token :=
  [{ type := .For, pos := 0, length := 3, column := 0 }, tokenAt .LeftPar 4,
   tokenAt .UserDefinedName 6, tokenAt .Eq 8, tokenAt .IntegerLiteral 10, tokenAt .Semicolon 12,
   tokenAt .UserDefinedName 14, tokenAt .Less 16, tokenAt .UserDefinedName 18,
   tokenAt .Semicolon 20,
   { type := .PlusPlus, pos := 22, length := 2, column := 22 }, tokenAt .UserDefinedName 25,
   tokenAt .RightPar 27, tokenAt .Semicolon 29]

/-- The tokens of the statement `i = 0 ;`, at the offsets that they have in the
loop above. -/
def initTokens : List Token :=
  [tokenAt .UserDefinedName 6, tokenAt .Eq 8, tokenAt .IntegerLiteral 10, tokenAt .Semicolon 12]

end script
/-! ## Properties -/

namespace script

/-! ### Helper lemmas -/

theorem convId_lt (d : Nat) : d &&& gConvIdMask < 32 := by
  have h : d &&& gConvIdMask ≤ gConvIdMask := Nat.and_le_right
  have h2 : gConvIdMask = 31 := by decide
  omega

theorem StandardConversion2.rank_lt_imp_better (a b : StandardConversion2)
    (h : a.rank.toNat < b.rank.toNat) : a.lt b = true ∧ b.lt a = false := by
  constructor
  · simp [StandardConversion2.lt, h]
  · have h1 : ¬ (b.rank.toNat < a.rank.toNat) := by omega
    simp [StandardConversion2.lt, h1, h]

/-- A conversion whose category is a floating-point promotion has rank
`Promotion`. -/
theorem StandardConversion2.rank_of_floatingPointPromotion (c : StandardConversion2)
    (h : c.numericPromotion = NumericPromotion.FloatingPointPromotion) :
    c.rank = .Promotion := by
  obtain ⟨d⟩ := c
  have hk := convId_lt d
  have h28 : d = gNotConvertibleStdConv → d &&& gConvIdMask = 28 := by
    intro h; subst h; decide
  unfold StandardConversion2.numericPromotion at h
  unfold StandardConversion2.rank StandardConversion2.isDerivedToBaseConversion
  simp only at h ⊢
  generalize d &&& gConvIdMask = k at hk h h28 ⊢
  interval_cases k <;> first
    | (exfalso; revert h; decide)
    | (have : d ≠ gNotConvertibleStdConv := fun hd => by have := h28 hd; omega
       simp [this, conversion_ranks, gDerivedToBaseConv])

/-! ### Claims -/

/-- C2: a standard conversion of lower rank is better: if `a.rank()` is lower
than `b.rank()` then `a < b` holds and `b < a` does not; in particular the
default-constructed (exact match) conversion is better than every
floating-point promotion. -/
theorem StandardConversion2.lt_of_rank_lt :
    (∀ a b : StandardConversion2, a.rank.toNat < b.rank.toNat →
      a.lt b = true ∧ b.lt a = false)
    ∧ StandardConversion2.default_.rank = .ExactMatch
    ∧ (∀ p : StandardConversion2,
        p.numericPromotion = NumericPromotion.FloatingPointPromotion →
        p.rank = .Promotion ∧ StandardConversion2.default_.lt p = true
          ∧ p.lt StandardConversion2.default_ = false) := by
  refine ⟨StandardConversion2.rank_lt_imp_better, by decide, ?_⟩
  intro p hp
  have hr := StandardConversion2.rank_of_floatingPointPromotion p hp
  have hd : StandardConversion2.default_.rank = .ExactMatch := by decide
  refine ⟨hr, ?_⟩
  apply StandardConversion2.rank_lt_imp_better
  rw [hr, hd]; decide

/-- Witness of C2 at the promotion `int` to `float` (id 14). -/
theorem StandardConversion2.lt_of_rank_lt_witness :
    StandardConversion2.default_.lt ⟨14⟩ = true ∧ StandardConversion2.lt ⟨14⟩ default_ = false :=
  StandardConversion2.lt_of_rank_lt.1 StandardConversion2.default_ ⟨14⟩ (by decide)

/-- The standard conversion between two of the five numeric types, for a
destination that is not a reference: the id of `stdconv_table`, with the const
adjustment bit when the destination adds `const`. -/
theorem StandardConversion2.compute_numeric (e : Engine) (src dest : Type_)
    (hs : src.isFundamentalType = true) (hd : dest.isFundamentalType = true)
    (hs2 : 2 ≤ src.index) (hd2 : 2 ≤ dest.index) (hr : dest.isReference = false) :
    StandardConversion2.compute src dest e =
      ⟨stdconv_table.getD ((src.index - 2) * 5 + (dest.index - 2)) 28
        ||| (if dest.isConst && !src.isConst then 32 else 0)⟩ := by
  have hs' := hs
  have hd' := hd
  simp only [Type_.isFundamentalType, Bool.and_eq_true, Bool.not_eq_true',
    decide_eq_true_eq] at hs' hd'
  obtain ⟨⟨⟨⟨⟨h1, h2⟩, h3⟩, h4⟩, _⟩, _⟩ := hs'
  obtain ⟨⟨⟨⟨⟨g1, g2⟩, g3⟩, g4⟩, _⟩, _⟩ := hd'
  have hv1 : (src == Type_.Void) = false := by
    simp only [beq_eq_false_iff_ne, ne_eq]; intro h; rw [h] at hs2; revert hs2; decide
  have hv2 : (dest == Type_.Void) = false := by
    simp only [beq_eq_false_iff_ne, ne_eq]; intro h; rw [h] at hd2; revert hd2; decide
  have hti : StandardConversion2.tableIndex src dest
      = (((src.index - 2) * 5 + (dest.index - 2) : Nat) : Int) := by
    simp only [StandardConversion2.tableIndex, Type_.baseType, Type_.data,
      h1, h2, h3, h4, g1, g2, g3, g4]
    simp
    omega
  unfold StandardConversion2.compute
  have h6 : src.index ≤ 6 := by
    simp only [Type_.isFundamentalType, Bool.and_eq_true, decide_eq_true_eq] at hs; exact hs.2
  have g6 : dest.index ≤ 6 := by
    simp only [Type_.isFundamentalType, Bool.and_eq_true, decide_eq_true_eq] at hd; exact hd.2
  have hlen : (src.index - 2) * 5 + (dest.index - 2) < stdconv_table.length := by
    have : stdconv_table.length = 25 := by decide
    omega
  have hat : stdconv_at (((src.index - 2) * 5 + (dest.index - 2) : Nat) : Int)
      = some (stdconv_table.getD ((src.index - 2) * 5 + (dest.index - 2)) 28) := by
    simp only [stdconv_at, Int.toNat_ofNat, Int.ofNat_nonneg, if_true, List.getD_eq_getElem?_getD,
      List.get?_eq_getElem?, List.getElem?_eq_getElem hlen, Option.getD_some]
  simp only [hr, hs, hd, StandardConversion2.fromTypes, checkNotConvertible, hv1, hv2, hti, hat]
  cases hq : (dest.isConst && !src.isConst) <;>
    simp [gConstQualAdjustStdConv]

/-- C3 (as amended): for non-reference fundamental types among `bool`, `char`,
`int`, `float`, `double`, the rank of the computed standard conversion is
`ExactMatch` iff the types are the same, `Promotion` iff the destination comes
later than the source in the order `bool`, `char`, `int`, `float`, `double`
(within a family or across, as `int` to `float`), and `Conversion` otherwise. -/
theorem StandardConversion2.rank_compute_numeric (e : Engine) (src dest : Type_)
    (hs : src.isFundamentalType = true) (hd : dest.isFundamentalType = true)
    (hs2 : 2 ≤ src.index) (hd2 : 2 ≤ dest.index) (hr : dest.isReference = false) :
    (StandardConversion2.compute src dest e).rank = orderRank src dest := by
  rw [StandardConversion2.compute_numeric e src dest hs hd hs2 hd2 hr]
  have h6 : src.index ≤ 6 := by
    simp only [Type_.isFundamentalType, Bool.and_eq_true, decide_eq_true_eq] at hs; exact hs.2
  have g6 : dest.index ≤ 6 := by
    simp only [Type_.isFundamentalType, Bool.and_eq_true, decide_eq_true_eq] at hd; exact hd.2
  unfold orderRank
  generalize src.index = si at *
  generalize dest.index = di at *
  generalize (dest.isConst && !src.isConst) = q
  interval_cases si <;> interval_cases di <;> cases q <;> rfl

/-- Witness of C3 (as amended): `char` to `double`. -/
theorem StandardConversion2.rank_compute_numeric_witness :
    (StandardConversion2.compute Type_.Char Type_.Double noClasses).rank
      = orderRank Type_.Char Type_.Double :=
  StandardConversion2.rank_compute_numeric noClasses Type_.Char Type_.Double
    (by decide) (by decide) (by decide) (by decide) (by decide)

/-- C3 (counterexample): `int` to `float` has rank `Promotion`, although `int`
and `float` are not of the same family, for which the claim gives
`Conversion`. -/
theorem StandardConversion2.rank_int_to_float_not_familyRank :
    (StandardConversion2.compute Type_.Int Type_.Float noClasses).rank = .Promotion
    ∧ familyRank Type_.Int Type_.Float = .Conversion
    ∧ (StandardConversion2.compute Type_.Int Type_.Float noClasses).rank
        ≠ familyRank Type_.Int Type_.Float := by
  decide

/-- C4: between two distinct types among `bool`, `char`, `int`, `float`,
`double`, for a destination that is not a reference, the computed standard
conversion is a numeric promotion and not narrowing when the destination comes
later in that order (integral for `char` and `int`, floating-point for `float`
and `double`), and otherwise a numeric conversion that is narrowing (a boolean
conversion when the destination is `bool`); no standard conversion is both a
promotion and a numeric conversion, and `isNarrowing` holds exactly for the
numeric conversions that are not promotions. -/
theorem StandardConversion2.numeric_category (e : Engine) :
    (∀ src dest : Type_, src.isFundamentalType = true → dest.isFundamentalType = true →
      2 ≤ src.index → 2 ≤ dest.index → dest.isReference = false →
      src.index ≠ dest.index →
      (src.index < dest.index →
        (StandardConversion2.compute src dest e).isNumericPromotion = true
        ∧ (StandardConversion2.compute src dest e).isNumericConversion = false
        ∧ (StandardConversion2.compute src dest e).isNarrowing = false
        ∧ (StandardConversion2.compute src dest e).numericPromotion =
            (if dest.index ≤ 4 then NumericPromotion.IntegralPromotion
             else NumericPromotion.FloatingPointPromotion))
      ∧ (dest.index < src.index →
        (StandardConversion2.compute src dest e).isNumericConversion = true
        ∧ (StandardConversion2.compute src dest e).isNumericPromotion = false
        ∧ (StandardConversion2.compute src dest e).isNarrowing = true
        ∧ (dest.index = 2 → (StandardConversion2.compute src dest e).numericConversion =
            NumericConversion.BooleanConversion)))
    ∧ (∀ c : StandardConversion2,
        ¬ (c.isNumericPromotion = true ∧ c.isNumericConversion = true)
        ∧ c.isNarrowing = (c.isNumericConversion && !c.isNumericPromotion)) := by
  constructor
  · intro src dest hs hd hs2 hd2 hr hne
    rw [StandardConversion2.compute_numeric e src dest hs hd hs2 hd2 hr]
    have h6 : src.index ≤ 6 := by
      simp only [Type_.isFundamentalType, Bool.and_eq_true, decide_eq_true_eq] at hs; exact hs.2
    have g6 : dest.index ≤ 6 := by
      simp only [Type_.isFundamentalType, Bool.and_eq_true, decide_eq_true_eq] at hd; exact hd.2
    generalize src.index = si at *
    generalize dest.index = di at *
    generalize (dest.isConst && !src.isConst) = q
    interval_cases si <;> interval_cases di <;> cases q <;> first
      | (exfalso; exact hne rfl)
      | decide
  · intro c
    obtain ⟨d⟩ := c
    have hk := convId_lt d
    unfold StandardConversion2.isNarrowing StandardConversion2.isNumericPromotion
      StandardConversion2.isNumericConversion StandardConversion2.numericPromotion
      StandardConversion2.numericConversion
    simp only
    generalize d &&& gConvIdMask = k at hk ⊢
    interval_cases k <;> decide

/-- Witness of C4: `int` to `float` is a floating-point promotion, `int` to
`bool` a boolean conversion. -/
theorem StandardConversion2.numeric_category_witness :
    ((StandardConversion2.compute Type_.Int Type_.Float noClasses).isNumericPromotion = true
      ∧ (StandardConversion2.compute Type_.Int Type_.Float noClasses).isNumericConversion = false
      ∧ (StandardConversion2.compute Type_.Int Type_.Float noClasses).isNarrowing = false
      ∧ (StandardConversion2.compute Type_.Int Type_.Float noClasses).numericPromotion =
          NumericPromotion.FloatingPointPromotion)
    ∧ ((StandardConversion2.compute Type_.Int Type_.Boolean noClasses).isNumericConversion = true
      ∧ (StandardConversion2.compute Type_.Int Type_.Boolean noClasses).isNumericPromotion = false
      ∧ (StandardConversion2.compute Type_.Int Type_.Boolean noClasses).isNarrowing = true
      ∧ (StandardConversion2.compute Type_.Int Type_.Boolean noClasses).numericConversion =
          NumericConversion.BooleanConversion) :=
  ⟨((StandardConversion2.numeric_category noClasses).1 Type_.Int Type_.Float
      (by decide) (by decide) (by decide) (by decide) (by decide) (by decide)).1 (by decide),
   let h := ((StandardConversion2.numeric_category noClasses).1 Type_.Int Type_.Boolean
      (by decide) (by decide) (by decide) (by decide) (by decide) (by decide)).2 (by decide)
   ⟨h.1, h.2.1, h.2.2.1, h.2.2.2 (by decide)⟩⟩

/-- C1 (the code at the failing input): for the call `f(c, c)` with two `char`
arguments and the candidates `f1(int, bool)`, `f2(bool, char)`, `f3(bool, int)`,
`f4(int, int)` in this order, `resolve_overloads` selects `f4`, although `f2`
is viable and `f4` is not better than `f2` (the two are not comparable: `f4`
wins on the first argument and loses on the second). -/
theorem resolve_overloads_selects_not_best :
    (resolve_overloads typeInitialization OverloadResolution.compare
        [f_int_bool, f_bool_char, f_bool_int, f_int_int] [Type_.Char, Type_.Char]).function
      = some f_int_int
    ∧ viable typeInitialization [Type_.Char, Type_.Char] f_bool_char = true
    ∧ viable typeInitialization [Type_.Char, Type_.Char] f_int_int = true
    ∧ OverloadResolution.compare
        (candidateOf typeInitialization [Type_.Char, Type_.Char] f_int_int)
        (candidateOf typeInitialization [Type_.Char, Type_.Char] f_bool_char)
      = .NotComparable := by
  decide

/-- C5: for a fundamental, enum or function-type target and exactly one
argument, `brace_construct` raises `NarrowingConversionInBraceInitialization`
iff the argument is convertible to the target and the conversion is narrowing,
and the error then carries the type of the argument and the target; `construct`
(the parenthesised form) succeeds with the same argument whenever it is
convertible, narrowing or not. -/
theorem ValueConstructor.brace_construct_narrowing (e : Engine) (env : ConstructionEnv)
    (type : Type_) (arg : Expression)
    (ht : type.isFundamentalType = true ∨ type.isEnumType = true ∨ type.isFunctionType = true) :
    ((∃ s d, ValueConstructor.brace_construct e env type [arg]
          = .error (.NarrowingConversionInBraceInitialization s d))
      ↔ ∃ seq, Conversion.computeExpr env arg type e = .ok seq
          ∧ seq.ne Conversion.NotConvertible = true ∧ seq.isNarrowing = true)
    ∧ (∀ s d, ValueConstructor.brace_construct e env type [arg]
          = .error (.NarrowingConversionInBraceInitialization s d) → s = arg.type ∧ d = type)
    ∧ (∀ seq, Conversion.computeExpr env arg type e = .ok seq →
        seq.ne Conversion.NotConvertible = true →
        ValueConstructor.construct e env type [arg] = .ok (.Converted arg type seq)) := by
  have hcat : (type.isFundamentalType || type.isEnumType || type.isFunctionType) = true := by
    rcases ht with h | h | h <;> simp [h]
  have hb : ValueConstructor.brace_construct e env type [arg] =
      match Conversion.computeExpr env arg type e with
      | .error err => .error err
      | .ok seq =>
        if seq.eq Conversion.NotConvertible then .error (.CouldNotConvert arg.type type)
        else if seq.isNarrowing then
          .error (.NarrowingConversionInBraceInitialization arg.type type)
        else .ok (.Converted arg type seq) := by
    simp [ValueConstructor.brace_construct, hcat]
  have hc : ValueConstructor.construct e env type [arg] =
      match Conversion.computeExpr env arg type e with
      | .error err => .error err
      | .ok seq =>
        if seq.eq Conversion.NotConvertible then .error (.CouldNotConvert arg.type type)
        else .ok (.Converted arg type seq) := by
    simp [ValueConstructor.construct, hcat]
  rw [hb, hc]
  cases hce : Conversion.computeExpr env arg type e with
  | error err =>
    have herr : err = .RuntimeError := by
      unfold Conversion.computeExpr at hce
      split at hce
      · injection hce with h; exact h.symm
      · cases hce
    subst herr
    simp
  | ok seq =>
    cases hq : seq.eq Conversion.NotConvertible <;> cases hn : seq.isNarrowing <;>
      simp [Conversion.ne, hq, hn]

/-- Witness of C5: `int a{3.14}` raises the narrowing error with the types
`double` and `int`, and `int a(3.14)` is accepted. -/
theorem ValueConstructor.brace_construct_narrowing_witness :
    ValueConstructor.brace_construct noClasses noConstructors Type_.Int [{ type := Type_.Double }]
      = .error (.NarrowingConversionInBraceInitialization Type_.Double Type_.Int)
    ∧ ValueConstructor.construct noClasses noConstructors Type_.Int [{ type := Type_.Double }]
      = .ok (.Converted { type := Type_.Double } Type_.Int { conv1 := ⟨23⟩ }) := by
  have h := ValueConstructor.brace_construct_narrowing noClasses noConstructors Type_.Int
    { type := Type_.Double } (Or.inl (by decide))
  obtain ⟨s, d, hsd⟩ := h.1.2 ⟨{ conv1 := ⟨23⟩ }, rfl, by decide, by decide⟩
  obtain ⟨h1, h2⟩ := h.2.1 s d hsd
  subst h1 h2
  exact ⟨hsd, h.2.2 { conv1 := ⟨23⟩ } rfl (by decide)⟩

/-- C9: for every enum type `E` (a type with the enum flag and without the
object flag, possibly a reference to it), the conversion to a non-reference
`int` is the standard enum-to-int conversion, valid and not user-defined, and
the conversion to any reference to `int` is `NotConvertible`. -/
theorem Conversion.compute_enum_to_int (e : Engine) (policy : ConversionPolicy)
    (E dest : Type_) (hE : E.isEnumType = true) (hO : E.isObjectType = false)
    (hd : dest.baseType = Type_.Int) :
    (dest.isReference = false →
      Conversion.compute E dest e policy
        = { conv1 := StandardConversion2.EnumToInt.with_ (StandardConversion2.adjustFor E dest) }
      ∧ (Conversion.compute E dest e policy).isUserDefinedConversion = false
      ∧ (Conversion.compute E dest e policy).isInvalid = false
      ∧ (Conversion.compute E dest e policy).ne Conversion.NotConvertible = true)
    ∧ (dest.isReference = true →
      Conversion.compute E dest e policy = Conversion.NotConvertible) := by
  have hdO : dest.isObjectType = false := by
    have := congrArg Type_.objectFlag hd
    simpa [Type_.baseType, Type_.Int, Type_.isObjectType] using this
  have hEf : E.isFundamentalType = false := by
    simp only [Type_.isEnumType] at hE
    simp [Type_.isFundamentalType, hE]
  have hne : (E.baseType == Type_.Int) = false := by
    simp only [beq_eq_false_iff_ne, ne_eq]
    intro h
    have := congrArg Type_.enumFlag h
    simp only [Type_.isEnumType] at hE
    simp [Type_.baseType, Type_.Int, hE] at this
  have hstd : StandardConversion2.compute E dest e =
      if dest.isReference then StandardConversion2.NotConvertible
      else StandardConversion2.EnumToInt.with_ (StandardConversion2.adjustFor E dest) := by
    unfold StandardConversion2.compute
    simp only [hd, hEf, hdO, hne, hE]
    cases dest.isReference <;> cases E.isConst <;> cases dest.isConst <;> simp
  constructor
  · intro hr
    have hq : (StandardConversion2.EnumToInt.with_ (StandardConversion2.adjustFor E dest)
        != StandardConversion2.NotConvertible) = true := by
      cases StandardConversion2.adjustFor E dest <;> decide
    have h1 : Conversion.compute E dest e policy
        = { conv1 := StandardConversion2.EnumToInt.with_ (StandardConversion2.adjustFor E dest) } := by
      unfold Conversion.compute
      simp only [hstd, hr, hq, if_true, Bool.false_eq_true, if_false]
    rw [h1]
    refine ⟨rfl, rfl, ?_, ?_⟩ <;>
      cases StandardConversion2.adjustFor E dest <;> decide
  · intro hr
    unfold Conversion.compute
    rw [hstd, hr]
    simp [hO, hdO]

/-- Witness of C9: the enum `A` converts to `int`, and the same theorem makes
it not convertible to `int&`. -/
theorem Conversion.compute_enum_to_int_witness :
    Conversion.compute enumA Type_.Int noClasses .NoExplicitConversions
        = { conv1 := ⟨26⟩ }
    ∧ Conversion.compute enumA (Type_.ref Type_.Int) noClasses .NoExplicitConversions
        = Conversion.NotConvertible :=
  ⟨((Conversion.compute_enum_to_int noClasses .NoExplicitConversions enumA Type_.Int
      (by decide) (by decide) (by decide)).1 (by decide)).1,
   (Conversion.compute_enum_to_int noClasses .NoExplicitConversions enumA (Type_.ref Type_.Int)
      (by decide) (by decide) (by decide)).2 (by decide)⟩

/-- The bits of a derived-to-base conversion, as a sum. -/
theorem StandardConversion2.derivedToBase_d (depth : Nat) (r : Bool)
    (q : QualificationAdjustment) :
    (StandardConversion2.DerivedToBaseConversion depth r q).d
      = depth * 256 + (27 + (if r then 64 else 0) + q.toNat * 32) := by
  have key : ∀ b : Nat, b < 2 ^ 8 → 27 ||| depth <<< 8 ||| b = depth * 256 + (27 ||| b) := by
    intro b hb
    have h27 : (27 ||| b) < 2 ^ 8 := Nat.or_lt_two_pow (by decide) hb
    rw [Nat.or_comm 27 (depth <<< 8), Nat.or_assoc, Nat.shiftLeft_eq, Nat.mul_comm depth,
      ← Nat.mul_add_lt_is_or h27]
  unfold StandardConversion2.DerivedToBaseConversion
  simp only [gDerivedToBaseConv, gDerivedToBaseConvOffset, gRefConvStdConv,
    gConstQualAdjustStdConv]
  cases r <;> cases q <;>
    simp only [Nat.or_assoc, QualificationAdjustment.toNat] <;>
    rw [← Nat.or_assoc, key _ (by decide)] <;> rfl

/-- Masking with a single bit tests that bit. -/
theorem and_two_pow_ne_zero (x i : Nat) : ((x &&& 2 ^ i) != 0) = decide (x / 2 ^ i % 2 = 1) := by
  have h : x &&& 2 ^ i = if x.testBit i then 2 ^ i else 0 := by
    apply Nat.eq_of_testBit_eq
    intro j
    rw [Nat.testBit_and, Nat.testBit_two_pow]
    by_cases hij : i = j
    · subst hij
      cases hx : x.testBit i <;> simp [hx, Nat.testBit_two_pow]
    · cases hx : x.testBit i <;> simp [hij, Nat.testBit_two_pow]
  rw [h, ← Nat.testBit_to_div_mod]
  cases hx : x.testBit i
  · simp
  · have : 2 ^ i ≠ 0 := Nat.pos_iff_ne_zero.mp (Nat.two_pow_pos i)
    simp [this]

/-- What the accessors read in a derived-to-base conversion: the id, the
reference flag, the qualification flag, and the depth modulo 256. -/
theorem StandardConversion2.derivedToBase_read (depth : Nat) (r : Bool)
    (q : QualificationAdjustment) :
    (StandardConversion2.DerivedToBaseConversion depth r q).isDerivedToBaseConversion = true
    ∧ (StandardConversion2.DerivedToBaseConversion depth r q).isReferenceConversion = r
    ∧ (StandardConversion2.DerivedToBaseConversion depth r q).hasQualificationAdjustment
        = (q != .NoQualificationAdjustment)
    ∧ (StandardConversion2.DerivedToBaseConversion depth r q).derivedToBaseConversionDepth
        = depth % 256 := by
  unfold StandardConversion2.isDerivedToBaseConversion StandardConversion2.isReferenceConversion
    StandardConversion2.hasQualificationAdjustment
    StandardConversion2.derivedToBaseConversionDepth
  rw [StandardConversion2.derivedToBase_d]
  have e1 : gConvIdMask = 2 ^ 5 - 1 := by decide
  have e2 : g8bitsMask = 2 ^ 8 - 1 := by decide
  have e3 : gRefConvStdConv = 2 ^ 6 := by decide
  have e4 : gConstQualAdjustStdConv = 2 ^ 5 := by decide
  rw [e1, e2, e3, e4, Nat.and_pow_two_sub_one_eq_mod, Nat.and_pow_two_sub_one_eq_mod,
    Nat.shiftRight_eq_div_pow, and_two_pow_ne_zero, and_two_pow_ne_zero]
  simp only [gDerivedToBaseConv, gDerivedToBaseConvOffset]
  have h5 : (2 : Nat) ^ 5 = 32 := by decide
  have h6 : (2 : Nat) ^ 6 = 64 := by decide
  have h8 : (2 : Nat) ^ 8 = 256 := by decide
  rw [h5, h6, h8]
  cases r <;> cases q <;>
    simp only [QualificationAdjustment.toNat, beq_iff_eq, decide_eq_true_eq, decide_eq_false_iff_not,
      bne_self_eq_false, Bool.false_eq_true, if_false, if_true] <;>
    refine ⟨?_, ?_, ?_, ?_⟩ <;>
    first
      | omega
      | decide
      | (have hb : (QualificationAdjustment.ConstQualification
            != QualificationAdjustment.NoQualificationAdjustment) = true := by decide
         rw [hb, decide_eq_true_eq]; omega)

/-- An object type is not a fundamental type. -/
theorem Type_.not_fundamental_of_object (t : Type_) (h : t.isObjectType = true) :
    t.isFundamentalType = false := by
  simp only [Type_.isObjectType] at h
  simp [Type_.isFundamentalType, h]

/-- The object branch of `StandardConversion2::compute`, when the const rule
does not apply. -/
theorem StandardConversion2.compute_object_eq (e : Engine) (src dest : Type_)
    (hs : src.isObjectType = true) (hd : dest.isObjectType = true)
    (hc : (dest.isReference && src.isConst && !dest.isConst) = false) :
    StandardConversion2.compute src dest e =
      if e.inheritanceLevel src dest < 0 then StandardConversion2.NotConvertible
      else if e.inheritanceLevel src dest = 0 then
        if dest.isReference then
          StandardConversion2.default_.with_ (StandardConversion2.adjustFor src dest)
        else if e.isCopyConstructible dest then
          StandardConversion2.Copy.with_ (StandardConversion2.adjustFor src dest)
        else StandardConversion2.NotConvertible
      else if dest.isReference || e.isCopyConstructible dest then
        StandardConversion2.DerivedToBaseConversion (e.inheritanceLevel src dest).toNat
          dest.isReference (StandardConversion2.adjustFor src dest)
      else StandardConversion2.NotConvertible := by
  unfold StandardConversion2.compute
  simp only [hc, hs, hd, Type_.not_fundamental_of_object dest hd, Bool.false_and,
    Bool.and_self, Bool.false_eq_true, if_false, if_true]
  by_cases h0 : e.inheritanceLevel src dest < 0
  · simp [h0]
  · by_cases h1 : e.inheritanceLevel src dest = 0
    · cases dest.isReference <;> cases e.isCopyConstructible dest <;> simp [h1]
    · cases dest.isReference <;> cases e.isCopyConstructible dest <;> simp [h0, h1]

/-- C10 (as amended): for object types whose classes have inheritance depth
`d` with `0 ≤ d ≤ 255` (the depth is stored in 8 bits) and to which the const
rule does not apply: to a reference the conversion is a reference binding,
plain when `d = 0` and derived-to-base with recorded depth `d` when `d > 0`; to
a value the result is `NotConvertible` iff the destination class is not
copy-constructible, and otherwise a copy (`d = 0`) or a derived-to-base
conversion recording depth `d`; unrelated classes (depth below zero) give
`NotConvertible`. -/
theorem StandardConversion2.compute_between_classes (e : Engine) (src dest : Type_)
    (hs : src.isObjectType = true) (hd : dest.isObjectType = true)
    (hc : (dest.isReference && src.isConst && !dest.isConst) = false) :
    (e.inheritanceLevel src dest < 0 →
      StandardConversion2.compute src dest e = StandardConversion2.NotConvertible)
    ∧ (∀ d : Nat, e.inheritanceLevel src dest = (d : Int) → d ≤ 255 →
        (dest.isReference = true →
          (StandardConversion2.compute src dest e).isReferenceConversion = true
          ∧ StandardConversion2.compute src dest e ≠ StandardConversion2.NotConvertible
          ∧ (d = 0 →
              (StandardConversion2.compute src dest e).isDerivedToBaseConversion = false)
          ∧ (0 < d →
              (StandardConversion2.compute src dest e).isDerivedToBaseConversion = true
              ∧ (StandardConversion2.compute src dest e).derivedToBaseConversionDepth = d))
        ∧ (dest.isReference = false →
          (StandardConversion2.compute src dest e = StandardConversion2.NotConvertible
            ↔ e.isCopyConstructible dest = false)
          ∧ (e.isCopyConstructible dest = true →
              (StandardConversion2.compute src dest e).isReferenceConversion = false
              ∧ (d = 0 →
                  (StandardConversion2.compute src dest e).isCopy = true
                  ∧ (StandardConversion2.compute src dest e).isDerivedToBaseConversion = false)
              ∧ (0 < d →
                  (StandardConversion2.compute src dest e).isDerivedToBaseConversion = true
                  ∧ (StandardConversion2.compute src dest e).derivedToBaseConversionDepth
                      = d)))) := by
  rw [StandardConversion2.compute_object_eq e src dest hs hd hc]
  constructor
  · intro h; simp [h]
  · intro d hlvl hd255
    have hnn : ¬ ((d : Int) < 0) := by omega
    rw [hlvl]
    simp only [hnn, if_false, Int.toNat_ofNat]
    have hmod : d % 256 = d := Nat.mod_eq_of_lt (by omega)
    have hread := fun r q => StandardConversion2.derivedToBase_read d r q
    have hnc : ∀ r q, StandardConversion2.DerivedToBaseConversion d r q
        ≠ StandardConversion2.NotConvertible := by
      intro r q h
      have := (hread r q).1
      rw [h] at this
      revert this; decide
    rcases Nat.eq_zero_or_pos d with hd0 | hdpos
    · subst hd0
      constructor
      · intro hr
        simp only [hr, Int.natCast_zero, if_true]
        cases StandardConversion2.adjustFor src dest <;> decide
      · intro hr
        simp only [hr, Int.natCast_zero, if_true, Bool.false_eq_true, if_false]
        cases e.isCopyConstructible dest <;>
          cases StandardConversion2.adjustFor src dest <;> decide
    · have hne : ¬ ((d : Int) = 0) := by omega
      have hne' : d ≠ 0 := by omega
      simp only [hne, if_false]
      constructor
      · intro hr
        simp only [hr, Bool.true_or, if_true]
        refine ⟨(hread true _).2.1, hnc true _, fun h => absurd h hne', fun _ => ?_⟩
        exact ⟨(hread true _).1, by rw [(hread true _).2.2.2, hmod]⟩
      · intro hr
        simp only [hr, Bool.false_or]
        cases hcc : e.isCopyConstructible dest
        · simp
        · simp only [if_true]
          refine ⟨⟨fun h => absurd h (hnc false _), fun h => by cases h⟩, fun _ => ?_⟩
          refine ⟨(hread false _).2.1, fun h => absurd h hne', fun _ => ?_⟩
          exact ⟨(hread false _).1, by rw [(hread false _).2.2.2, hmod]⟩

/-- Witness of C10 (as amended): a class derived from its base, bound to a
reference to the base, is a derived-to-base reference binding of depth 1. -/
theorem StandardConversion2.compute_between_classes_witness :
    (StandardConversion2.compute (classType 1) (Type_.ref (classType 0))
        (Engine.ofClasses baseAndDerived)).isDerivedToBaseConversion = true
    ∧ (StandardConversion2.compute (classType 1) (Type_.ref (classType 0))
        (Engine.ofClasses baseAndDerived)).derivedToBaseConversionDepth = 1 :=
  ((((StandardConversion2.compute_between_classes (Engine.ofClasses baseAndDerived) (classType 1)
      (Type_.ref (classType 0)) (by decide) (by decide) (by decide)).2 1
      (by decide) (by decide)).1 (by decide)).2.2.2 (by decide))

set_option maxRecDepth 200000 in
/-- C10 (counterexample): in a chain of 257 classes the last class derives
from the first through 256 parent links; the conversion to a reference to the
first class is derived-to-base, but the depth it records is 0, not 256. -/
theorem StandardConversion2.depth_256_recorded_as_0 :
    (Engine.ofClasses classChain).inheritanceLevel (classType 256) (Type_.ref (classType 0)) = 256
    ∧ (StandardConversion2.compute (classType 256) (Type_.ref (classType 0))
        (Engine.ofClasses classChain)).isDerivedToBaseConversion = true
    ∧ (StandardConversion2.compute (classType 256) (Type_.ref (classType 0))
        (Engine.ofClasses classChain)).derivedToBaseConversionDepth = 0 := by
  decide

/-- The depth read from a conversion fits in 8 bits. -/
theorem StandardConversion2.depth_le (c : StandardConversion2) :
    c.derivedToBaseConversionDepth ≤ 255 := by
  unfold StandardConversion2.derivedToBaseConversionDepth g8bitsMask
  exact Nat.and_le_right

/-- The comparison `operator<` is asymmetric. -/
theorem StandardConversion2.lt_asymm (a b : StandardConversion2) (h : a.lt b = true) :
    b.lt a = false := by
  unfold StandardConversion2.lt at h ⊢
  rw [Bool.and_comm a.isDerivedToBaseConversion b.isDerivedToBaseConversion]
  generalize a.rank.toNat = ra at h ⊢
  generalize b.rank.toNat = rb at h ⊢
  generalize a.derivedToBaseConversionDepth = pa at h ⊢
  generalize b.derivedToBaseConversionDepth = pb at h ⊢
  generalize (b.isDerivedToBaseConversion && a.isDerivedToBaseConversion) = dd at h ⊢
  generalize a.isReferenceConversion = fa at h ⊢
  generalize b.isReferenceConversion = fb at h ⊢
  generalize a.hasQualificationAdjustment = qa at h ⊢
  generalize b.hasQualificationAdjustment = qb at h ⊢
  rcases Nat.lt_trichotomy ra rb with h1 | h1 | h1
  · have h2 : ¬ rb < ra := by omega
    simp [h1, h2]
  · subst h1
    simp only [Nat.lt_irrefl, if_false, gt_iff_lt] at h ⊢
    rcases Nat.lt_trichotomy pa pb with h3 | h3 | h3
    · have h4 : ¬ pb < pa := by omega
      revert h
      cases dd <;> cases fa <;> cases fb <;> cases qa <;> cases qb <;> simp [h3, h4]
    · subst h3
      revert h
      cases dd <;> cases fa <;> cases fb <;> cases qa <;> cases qb <;> simp
    · have h4 : ¬ pa < pb := by omega
      revert h
      cases dd <;> cases fa <;> cases fb <;> cases qa <;> cases qb <;> simp [h3, h4]
  · have h2 : ¬ ra < rb := by omega
    simp [h1, h2] at h

/-- Between two conversions that are both derived-to-base or both not whenever
their ranks agree, `operator<` is the order of the keys. -/
theorem StandardConversion2.lt_eq_key_lt (a b : StandardConversion2)
    (hom : a.rank.toNat = b.rank.toNat →
      a.isDerivedToBaseConversion = b.isDerivedToBaseConversion) :
    a.lt b = decide (a.key < b.key) := by
  have ha := a.depth_le
  have hb := b.depth_le
  unfold StandardConversion2.lt StandardConversion2.key
  generalize a.rank.toNat = ra at hom ⊢
  generalize b.rank.toNat = rb at hom ⊢
  generalize a.derivedToBaseConversionDepth = pa at ha ⊢
  generalize b.derivedToBaseConversionDepth = pb at hb ⊢
  generalize a.isDerivedToBaseConversion = da at hom ⊢
  generalize b.isDerivedToBaseConversion = db at hom ⊢
  generalize a.isReferenceConversion = fa
  generalize b.isReferenceConversion = fb
  generalize a.hasQualificationAdjustment = qa
  generalize b.hasQualificationAdjustment = qb
  rcases Nat.lt_trichotomy ra rb with h1 | h1 | h1
  · simp only [h1, if_true]
    symm; rw [decide_eq_true_eq]
    cases da <;> cases db <;> cases fa <;> cases fb <;> cases qa <;> cases qb <;>
      simp only [Bool.false_eq_true, if_false, if_true] <;> omega
  · subst h1
    have hd := hom rfl
    subst hd
    simp only [Nat.lt_irrefl, if_false, gt_iff_lt, Bool.and_self]
    rcases Nat.lt_trichotomy pa pb with h3 | h3 | h3
    · have h4 : ¬ pb < pa := by omega
      cases da <;> cases fa <;> cases fb <;> cases qa <;> cases qb <;>
        simp [h3, h4] <;> omega
    · subst h3
      cases da <;> cases fa <;> cases fb <;> cases qa <;> cases qb <;> simp <;> omega
    · have h4 : ¬ pa < pb := by omega
      cases da <;> cases fa <;> cases fb <;> cases qa <;> cases qb <;>
        simp [h3, h4] <;> omega
  · have h2 : ¬ ra < rb := by omega
    simp only [h2, h1, if_false, if_true, gt_iff_lt]
    symm; rw [decide_eq_false_iff_not]
    cases da <;> cases db <;> cases fa <;> cases fb <;> cases qa <;> cases qb <;>
      simp only [Bool.false_eq_true, if_false, if_true] <;> omega

/-- Every id of `stdconv_table` is at most 24. -/
theorem stdconv_table_le (n d0 : Nat) (h : stdconv_table.get? n = some d0) : d0 ≤ 24 := by
  have hm : d0 ∈ stdconv_table := List.get?_mem h
  have hall : ∀ x ∈ stdconv_table, x ≤ 24 := by decide
  exact hall d0 hm

/-- A numeric id with the reference and qualification bits has a rank other
than `NotConvertible` and is not derived-to-base. -/
theorem StandardConversion2.small_id_shape (d0 : Nat) (h : d0 ≤ 24) (r q : Bool) :
    (StandardConversion2.mk ((if q then (if r then d0 ||| gRefConvStdConv else d0)
        ||| gConstQualAdjustStdConv else (if r then d0 ||| gRefConvStdConv else d0)))).rank
        ≠ .NotConvertible
    ∧ (StandardConversion2.mk ((if q then (if r then d0 ||| gRefConvStdConv else d0)
        ||| gConstQualAdjustStdConv else (if r then d0 ||| gRefConvStdConv else d0)))).isDerivedToBaseConversion
        = false := by
  interval_cases d0 <;> cases r <;> cases q <;> decide

/-- What the two-type constructor returns, when it is not "not convertible". -/
theorem StandardConversion2.fromTypes_shape (src dest : Type_) (c : StandardConversion2)
    (h : StandardConversion2.fromTypes src dest = .ok c)
    (hne : c ≠ StandardConversion2.NotConvertible) :
    c.rank ≠ .NotConvertible ∧ c.isDerivedToBaseConversion = false := by
  unfold StandardConversion2.fromTypes at h
  split at h
  · cases h
  · split at h
    · injection h with h; exact absurd h.symm hne
    · split at h
      · injection h with h; exact absurd h.symm hne
      · rename_i d0 hd0
        injection h with h
        subst h
        have hle : d0 ≤ 24 := by
          unfold stdconv_at at hd0
          split at hd0
          · exact stdconv_table_le _ _ hd0
          · cases hd0
        exact StandardConversion2.small_id_shape d0 hle dest.isReference
          (dest.isConst && !src.isConst)


/-- The values that `StandardConversion2::compute` returns, by branch. -/
theorem StandardConversion2.compute_shape (src dest : Type_) (e : Engine) :
    StandardConversion2.compute src dest e = StandardConversion2.NotConvertible
    ∨ (src.isFundamentalType = true
        ∧ (StandardConversion2.compute src dest e).rank ≠ .NotConvertible
        ∧ (StandardConversion2.compute src dest e).isDerivedToBaseConversion = false)
    ∨ (∃ q, StandardConversion2.compute src dest e = StandardConversion2.default_.with_ q)
    ∨ (∃ q, StandardConversion2.compute src dest e = StandardConversion2.Copy.with_ q)
    ∨ (src.isObjectType = true ∧ ∃ depth r q,
        StandardConversion2.compute src dest e
          = StandardConversion2.DerivedToBaseConversion depth r q)
    ∨ (src.isEnumType = true ∧ ∃ q,
        StandardConversion2.compute src dest e = StandardConversion2.EnumToInt.with_ q) := by
  by_cases h1 : (dest.isReference && src.isConst && !dest.isConst) = true
  · left; simp [StandardConversion2.compute, h1]
  by_cases h2 : (dest.isFundamentalType && src.isFundamentalType) = true
  · simp only [Bool.and_eq_true] at h2
    cases hf : StandardConversion2.fromTypes src dest with
    | error err =>
      left
      unfold StandardConversion2.compute
      rw [if_neg h1, if_pos (by simp [h2]), hf]
    | ok c =>
      have hc : StandardConversion2.compute src dest e = c := by
        unfold StandardConversion2.compute
        rw [if_neg h1, if_pos (by simp [h2]), hf]
      rw [hc]
      by_cases hne : c = StandardConversion2.NotConvertible
      · left; exact hne
      · right; left
        exact ⟨h2.2, StandardConversion2.fromTypes_shape src dest c hf hne⟩
  by_cases h3 : (src.isObjectType && dest.isObjectType) = true
  · simp only [Bool.and_eq_true] at h3
    have hc : (dest.isReference && src.isConst && !dest.isConst) = false := by simpa using h1
    rw [StandardConversion2.compute_object_eq e src dest h3.1 h3.2 hc]
    split_ifs
    · left; rfl
    · right; right; left; exact ⟨_, rfl⟩
    · right; right; right; left; exact ⟨_, rfl⟩
    · left; rfl
    · right; right; right; right; left; exact ⟨h3.1, _, _, _, rfl⟩
    · left; rfl
  by_cases h4 : (src.baseType == dest.baseType) = true
  · have hc : StandardConversion2.compute src dest e =
        if dest.isReference then StandardConversion2.default_
        else if dest.isEnumType || dest.isClosureType || dest.isFunctionType then
          StandardConversion2.Copy.with_ (StandardConversion2.adjustFor src dest)
        else StandardConversion2.NotConvertible := by
      simp only [StandardConversion2.compute, h1, h2, h3, h4, if_true, if_false,
        Bool.false_eq_true]
    rw [hc]
    split_ifs
    · right; right; left; exact ⟨.NoQualificationAdjustment, rfl⟩
    · right; right; right; left; exact ⟨_, rfl⟩
    · left; rfl
  by_cases h5 : (src.isEnumType && dest.baseType == Type_.Int) = true
  · have hc : StandardConversion2.compute src dest e =
        if dest.isReference then StandardConversion2.NotConvertible
        else StandardConversion2.EnumToInt.with_ (StandardConversion2.adjustFor src dest) := by
      simp only [StandardConversion2.compute, h1, h2, h3, h4, h5, if_true, if_false,
        Bool.false_eq_true]
    rw [hc]
    simp only [Bool.and_eq_true] at h5
    split_ifs
    · left; rfl
    · right; right; right; right; right; exact ⟨h5.1, _, rfl⟩
  · left
    simp only [StandardConversion2.compute, h1, h2, h3, h4, h5, if_true, if_false,
      Bool.false_eq_true]

/-- A computed conversion other than "not convertible" has a rank other than
`NotConvertible`; it is derived-to-base only from an object type, and of rank
`Conversion` without being derived-to-base only from a fundamental or an enum
type. -/
theorem StandardConversion2.compute_regular (src dest : Type_) (e : Engine)
    (hne : StandardConversion2.compute src dest e ≠ StandardConversion2.NotConvertible) :
    (StandardConversion2.compute src dest e).rank ≠ .NotConvertible
    ∧ ((StandardConversion2.compute src dest e).isDerivedToBaseConversion = true →
        src.isObjectType = true)
    ∧ ((StandardConversion2.compute src dest e).isDerivedToBaseConversion = false →
        (StandardConversion2.compute src dest e).rank = .Conversion →
        src.isObjectType = false ∨ src.isEnumType = true) := by
  rcases StandardConversion2.compute_shape src dest e with h | h | h | h | h | h
  · exact absurd h hne
  · obtain ⟨hf, hr, hd⟩ := h
    refine ⟨hr, fun h => ?_, fun _ _ => Or.inl ?_⟩
    · rw [hd] at h; cases h
    · simp only [Type_.isFundamentalType, Bool.and_eq_true, Bool.not_eq_true'] at hf
      exact hf.1.1.1.1.2
  · obtain ⟨q, hq⟩ := h
    rw [hq]
    cases q <;> refine ⟨by decide, fun h => absurd h (by decide), fun _ h => absurd h (by decide)⟩
  · obtain ⟨q, hq⟩ := h
    rw [hq]
    cases q <;> refine ⟨by decide, fun h => absurd h (by decide), fun _ h => absurd h (by decide)⟩
  · obtain ⟨hs, depth, r, q, hq⟩ := h
    rw [hq]
    have hread := StandardConversion2.derivedToBase_read depth r q
    refine ⟨?_, fun _ => hs, fun h => ?_⟩
    · unfold StandardConversion2.rank
      rw [hread.1]
      simp
    · rw [hread.1] at h; cases h
  · obtain ⟨hs, q, hq⟩ := h
    rw [hq]
    cases q <;> exact ⟨by decide, fun h => absurd h (by decide), fun _ _ => Or.inr hs⟩

/-- The function `select_cast2` returns the first admissible cast. -/
theorem select_cast2_first (src dest : Type_) (e : Engine) (policy : ConversionPolicy)
    (pre post : List FunctionImpl) (c : FunctionImpl)
    (hpre : ∀ c' ∈ pre, castAdmissible src dest e policy c' = false)
    (hc : castAdmissible src dest e policy c = true) :
    select_cast2 src (pre ++ c :: post) dest e policy =
      { conv1 := StandardConversion2.compute src c.sourceType e, function := some c,
        conv3 := castSecondConversion dest e c } := by
  induction pre with
  | nil =>
    simp only [castAdmissible, Bool.and_eq_true, Bool.not_eq_true', bne_iff_ne, ne_eq] at hc
    obtain ⟨⟨h1, h2⟩, h3⟩ := hc
    have h2' : (StandardConversion2.compute src c.sourceType e
        == StandardConversion2.NotConvertible) = false := by simpa using h2
    have h3' : (StandardConversion2.compute c.destType dest e
        == StandardConversion2.NotConvertible) = false := by simpa using h3
    simp only [List.nil_append, select_cast2, h1, h2', h3', Bool.false_eq_true, if_false,
      castSecondConversion]
  | cons c0 rest ih =>
    have h0 := hpre c0 (List.mem_cons_self _ _)
    have ih' := ih (fun c' hc' => hpre c' (List.mem_cons_of_mem _ hc'))
    show select_cast2 src (c0 :: (rest ++ c :: post)) dest e policy = _
    rw [select_cast2]
    simp only [castAdmissible, Bool.and_eq_false_iff, Bool.not_eq_false', bne_eq_false_iff_eq] at h0
    rcases h0 with (h0 | h0) | h0
    · simp only [h0, if_true, ih']
    · by_cases hx : (c0.isExplicit && policy == ConversionPolicy.NoExplicitConversions) = true
      · simp only [hx, if_true, ih']
      · simp only [hx, h0, beq_self_eq_true, if_true, if_false, ih', Bool.false_eq_true]
    · by_cases hx : (c0.isExplicit && policy == ConversionPolicy.NoExplicitConversions) = true
      · simp only [hx, if_true, ih']
      · by_cases hy : (StandardConversion2.compute src c0.sourceType e
            == StandardConversion2.NotConvertible) = true
        · simp only [hx, hy, if_true, if_false, ih', Bool.false_eq_true]
        · simp only [hx, hy, h0, beq_self_eq_true, if_true, if_false, ih', Bool.false_eq_true]

/-- C8: when no standard conversion and no converting constructor applies and
the source is a class type, `Conversion::compute` returns the user-defined
conversion through the first cast of the source class, in declaration order,
whose source type is standard-convertible from `src` and whose target type is
standard-convertible to `dest` (explicit casts being skipped under the policy
`NoExplicitConversions`). -/
theorem Conversion.compute_through_cast (e : Engine) (policy : ConversionPolicy)
    (src dest : Type_) (pre post : List FunctionImpl) (c : FunctionImpl)
    (hstd : StandardConversion2.compute src dest e = StandardConversion2.NotConvertible)
    (hs : src.isObjectType = true)
    (hctor : dest.isObjectType = true →
      (select_converting_constructor2 src (e.constructors dest) dest e policy).ne
        Conversion.NotConvertible = false)
    (hcasts : e.casts src = pre ++ c :: post)
    (hpre : ∀ c' ∈ pre, castAdmissible src dest e policy c' = false)
    (hc : castAdmissible src dest e policy c = true) :
    Conversion.compute src dest e policy =
      { conv1 := StandardConversion2.compute src c.sourceType e, function := some c,
        conv3 := castSecondConversion dest e c }
    ∧ (Conversion.compute src dest e policy).isUserDefinedConversion = true
    ∧ (Conversion.compute src dest e policy).function = some c := by
  have hsel := select_cast2_first src dest e policy pre post c hpre hc
  have hne : (select_cast2 src (e.casts src) dest e policy).ne Conversion.NotConvertible
      = true := by
    rw [hcasts, hsel]
    simp only [castAdmissible, Bool.and_eq_true, bne_iff_ne, ne_eq] at hc
    have h2 := hc.1.2
    have : (StandardConversion2.compute src c.sourceType e
        == StandardConversion2.NotConvertible) = false := by simpa using h2
    simp [Conversion.ne, Conversion.eq, Conversion.NotConvertible, this]
  have hvia : (if dest.isObjectType = true then
        if (select_converting_constructor2 src (e.constructors dest) dest e policy).ne
            Conversion.NotConvertible = true then
          some (select_converting_constructor2 src (e.constructors dest) dest e policy)
        else none
      else none) = none := by
    by_cases hd : dest.isObjectType = true
    · simp [hd, hctor hd]
    · simp [hd]
  have hmain : Conversion.compute src dest e policy =
      { conv1 := StandardConversion2.compute src c.sourceType e, function := some c,
        conv3 := castSecondConversion dest e c } := by
    unfold Conversion.compute
    simp only [hstd, bne_self_eq_false, Bool.false_eq_true, if_false, hs, Bool.not_true,
      Bool.false_and, hvia, if_true, hne]
    rw [hcasts, hsel]
  rw [hmain]
  exact ⟨rfl, rfl, rfl⟩

/-- Witness of C8: for a class `A` with `operator int() const`, the conversion
from `A` to `int` is user-defined through that cast. -/
theorem Conversion.compute_through_cast_witness :
    Conversion.compute (classType 0) Type_.Int (Engine.ofClasses classWithCast)
        .NoExplicitConversions =
      { conv1 := StandardConversion2.compute (classType 0) cast_to_int.sourceType
          (Engine.ofClasses classWithCast),
        function := some cast_to_int,
        conv3 := castSecondConversion Type_.Int (Engine.ofClasses classWithCast) cast_to_int }
    ∧ (Conversion.compute (classType 0) Type_.Int (Engine.ofClasses classWithCast)
        .NoExplicitConversions).isUserDefinedConversion = true
    ∧ (Conversion.compute (classType 0) Type_.Int (Engine.ofClasses classWithCast)
        .NoExplicitConversions).function = some cast_to_int :=
  Conversion.compute_through_cast (Engine.ofClasses classWithCast) .NoExplicitConversions
    (classType 0) Type_.Int [] [] cast_to_int (by decide) (by decide)
    (fun h => absurd h (by decide)) (by decide) (fun _ h => absurd h (List.not_mem_nil _))
    (by decide)

/-- The loop of `select_converting_constructor2` skips a constructor that is
not admissible. -/
theorem select_converting_constructor2_step_skip (src : Type_) (e : Engine)
    (policy : ConversionPolicy) (st : CtorSelection) (c : FunctionImpl)
    (h : ctorAdmissible src e policy c = false) :
    select_converting_constructor2_step src e policy st c = st := by
  unfold select_converting_constructor2_step
  simp only [ctorAdmissible, ctorConsidered, ctorConversion, Bool.and_eq_false_iff,
    Bool.not_eq_false', bne_eq_false_iff_eq] at h
  rcases h with (h | h) | h
  · simp only [h, if_true]
  · split_ifs <;> rfl
  · split_ifs <;> first | rfl | simp_all

/-- The loop of `select_converting_constructor2` on an admissible constructor. -/
theorem select_converting_constructor2_step_adm (src : Type_) (e : Engine)
    (policy : ConversionPolicy) (st : CtorSelection) (c : FunctionImpl)
    (h : ctorAdmissible src e policy c = true) :
    select_converting_constructor2_step src e policy st c =
      if (ctorConversion src e c).lt st.best_conv && !(st.best_conv.lt (ctorConversion src e c))
      then { best_conv := ctorConversion src e c, best_ctor := some c,
             ambiguous_conv := StandardConversion2.NotConvertible }
      else if st.best_conv.lt (ctorConversion src e c)
          && !((ctorConversion src e c).lt st.best_conv) then st
      else { st with ambiguous_conv := ctorConversion src e c } := by
  unfold select_converting_constructor2_step
  simp only [ctorAdmissible, ctorConsidered, Bool.and_eq_true, Bool.not_eq_true',
    bne_iff_ne, ne_eq] at h
  obtain ⟨⟨h1, h2⟩, h3⟩ := h
  have h1' : ¬ ((c.parameters.length != 1) = true) := by simp [h1]
  have h2' : ¬ ((c.isExplicit && policy == ConversionPolicy.NoExplicitConversions) = true) := by
    simp [h2]
  have h3' : ¬ ((StandardConversion2.compute src (c.parameters.getD 0 Type_.Null) e
      == StandardConversion2.NotConvertible) = true) := by
    simpa [ctorConversion] using h3
  rw [if_neg h1', if_neg h2']
  simp only [if_neg h3', ctorConversion]

/-- An admissible conversion is better than "not convertible". -/
theorem ctorConversion_lt_notConvertible (src : Type_) (e : Engine) (policy : ConversionPolicy)
    (c : FunctionImpl) (h : ctorAdmissible src e policy c = true) :
    (ctorConversion src e c).lt StandardConversion2.NotConvertible = true := by
  simp only [ctorAdmissible, Bool.and_eq_true, bne_iff_ne, ne_eq] at h
  have hr := (StandardConversion2.compute_regular src _ e h.2).1
  apply (StandardConversion2.rank_lt_imp_better _ _ _).1
  have : StandardConversion2.NotConvertible.rank.toNat = 5 := by decide
  rw [this]
  unfold ctorConversion
  cases hk : (StandardConversion2.compute src (c.parameters.getD 0 Type_.Null) e).rank <;>
    first | (exfalso; exact hr hk) | decide

/-- After any part of the loop, `best_conv` is the initial one or the
conversion of an admissible constructor met so far. -/
theorem select_converting_constructor2_best_mem (src : Type_) (e : Engine)
    (policy : ConversionPolicy) (l : List FunctionImpl) (st : CtorSelection) :
    (l.foldl (select_converting_constructor2_step src e policy) st).best_conv = st.best_conv
    ∨ ∃ c ∈ l, ctorAdmissible src e policy c = true
        ∧ (l.foldl (select_converting_constructor2_step src e policy) st).best_conv
            = ctorConversion src e c := by
  induction l generalizing st with
  | nil => left; rfl
  | cons c0 rest ih =>
    rw [List.foldl_cons]
    rcases ih (select_converting_constructor2_step src e policy st c0) with h | ⟨c, hc, ha, hb⟩
    · cases ha0 : ctorAdmissible src e policy c0
      · rw [select_converting_constructor2_step_skip src e policy st c0 ha0] at h ⊢
        exact Or.inl h
      · rw [h, select_converting_constructor2_step_adm src e policy st c0 ha0]
        split_ifs
        · right; exact ⟨c0, List.mem_cons_self _ _, ha0, rfl⟩
        · left; rfl
        · left; rfl
    · right; exact ⟨c, List.mem_cons_of_mem _ hc, ha, hb⟩

/-- Once `best_conv` is better than the conversion of every admissible
constructor still to come, the rest of the loop leaves the state alone. -/
theorem select_converting_constructor2_best_stays (src : Type_) (e : Engine)
    (policy : ConversionPolicy) (l : List FunctionImpl) (st : CtorSelection)
    (h : ∀ c ∈ l, ctorAdmissible src e policy c = true →
      st.best_conv.lt (ctorConversion src e c) = true) :
    l.foldl (select_converting_constructor2_step src e policy) st = st := by
  induction l with
  | nil => rfl
  | cons c0 rest ih =>
    rw [List.foldl_cons]
    have hstep : select_converting_constructor2_step src e policy st c0 = st := by
      cases ha0 : ctorAdmissible src e policy c0
      · exact select_converting_constructor2_step_skip src e policy st c0 ha0
      · have h1 := h c0 (List.mem_cons_self _ _) ha0
        have h2 := StandardConversion2.lt_asymm _ _ h1
        rw [select_converting_constructor2_step_adm src e policy st c0 ha0, h1, h2]
        rfl
    rw [hstep]
    exact ih (fun c hc => h c (List.mem_cons_of_mem _ hc))

/-- No standard conversion leads from a type that is not a class to a class. -/
theorem StandardConversion2.compute_to_object (src dest : Type_) (e : Engine)
    (hs : src.isObjectType = false) (hd : dest.isObjectType = true) :
    StandardConversion2.compute src dest e = StandardConversion2.NotConvertible := by
  have hb : (src.baseType == dest.baseType) = false := by
    simp only [beq_eq_false_iff_ne, ne_eq]
    intro h
    have := congrArg Type_.objectFlag h
    simp only [Type_.isObjectType] at hs hd
    simp [Type_.baseType, hs, hd] at this
  have hi : (dest.baseType == Type_.Int) = false := by
    simp only [beq_eq_false_iff_ne, ne_eq]
    intro h
    have := congrArg Type_.objectFlag h
    simp only [Type_.isObjectType] at hd
    simp [Type_.baseType, Type_.Int, hd] at this
  unfold StandardConversion2.compute
  simp only [Type_.not_fundamental_of_object dest hd, hs, hb, hi, Bool.false_and, Bool.and_false,
    Bool.false_eq_true, if_false, ite_self]

/-- The result of `select_converting_constructor2` when one admissible
constructor is better than every other one. -/
theorem select_converting_constructor2_best (src dest : Type_) (e : Engine)
    (policy : ConversionPolicy) (pre post : List FunctionImpl) (c : FunctionImpl)
    (hconst : (dest.isReference && !dest.isConst && src.isConst) = false)
    (hc : ctorAdmissible src e policy c = true)
    (hbest : ∀ c' ∈ pre ++ post, ctorAdmissible src e policy c' = true →
      (ctorConversion src e c).lt (ctorConversion src e c') = true) :
    select_converting_constructor2 src (pre ++ c :: post) dest e policy =
      { conv1 := ctorConversion src e c, function := some c,
        conv3 := StandardConversion2.None } := by
  unfold select_converting_constructor2
  simp only [hconst, Bool.false_eq_true, if_false]
  rw [List.foldl_append, List.foldl_cons]
  have hNC := ctorConversion_lt_notConvertible src e policy c hc
  have hstep : select_converting_constructor2_step src e policy
      (pre.foldl (select_converting_constructor2_step src e policy)
        { best_conv := StandardConversion2.NotConvertible, best_ctor := none,
          ambiguous_conv := StandardConversion2.NotConvertible }) c
      = { best_conv := ctorConversion src e c, best_ctor := some c,
          ambiguous_conv := StandardConversion2.NotConvertible } := by
    have h1 : (ctorConversion src e c).lt
        (pre.foldl (select_converting_constructor2_step src e policy)
          { best_conv := StandardConversion2.NotConvertible, best_ctor := none,
            ambiguous_conv := StandardConversion2.NotConvertible }).best_conv = true := by
      rcases select_converting_constructor2_best_mem src e policy pre
        { best_conv := StandardConversion2.NotConvertible, best_ctor := none,
          ambiguous_conv := StandardConversion2.NotConvertible } with h | ⟨c', hm, ha, hb⟩
      · rw [h]; exact hNC
      · rw [hb]; exact hbest c' (List.mem_append_left _ hm) ha
    have h2 := StandardConversion2.lt_asymm _ _ h1
    rw [select_converting_constructor2_step_adm src e policy _ c hc, h1, h2]
    rfl
  rw [hstep, select_converting_constructor2_best_stays src e policy post _
    (fun c' hm ha => hbest c' (List.mem_append_right _ hm) ha)]
  simp only [hNC, Bool.not_true, Bool.false_eq_true, if_false]

/-- C6: from a source type that is not a class to a class type (any destination
of object type that the const rule does not exclude, so every non-reference
one) whose admissible one-parameter constructors include one whose parameter
conversion is better than that of every other admissible constructor,
`Conversion::compute` returns the user-defined conversion through exactly that
constructor, wherever it stands in the list of constructors. -/
theorem Conversion.compute_through_best_constructor (e : Engine) (policy : ConversionPolicy)
    (src dest : Type_) (pre post : List FunctionImpl) (c : FunctionImpl)
    (hs : src.isObjectType = false) (hd : dest.isObjectType = true)
    (hconst : (dest.isReference && !dest.isConst && src.isConst) = false)
    (hctors : e.constructors dest = pre ++ c :: post)
    (hc : ctorAdmissible src e policy c = true)
    (hbest : ∀ c' ∈ pre ++ post, ctorAdmissible src e policy c' = true →
      (ctorConversion src e c).lt (ctorConversion src e c') = true) :
    Conversion.compute src dest e policy =
      { conv1 := ctorConversion src e c, function := some c,
        conv3 := StandardConversion2.None }
    ∧ (Conversion.compute src dest e policy).isUserDefinedConversion = true
    ∧ (Conversion.compute src dest e policy).function = some c := by
  have hsel := select_converting_constructor2_best src dest e policy pre post c hconst hc hbest
  have hne : (select_converting_constructor2 src (e.constructors dest) dest e policy).ne
      Conversion.NotConvertible = true := by
    rw [hctors, hsel]
    simp only [ctorAdmissible, Bool.and_eq_true, bne_iff_ne, ne_eq] at hc
    have : (ctorConversion src e c == StandardConversion2.NotConvertible) = false := by
      simpa using hc.2
    simp [Conversion.ne, Conversion.eq, Conversion.NotConvertible, this]
  have hmain : Conversion.compute src dest e policy =
      { conv1 := ctorConversion src e c, function := some c,
        conv3 := StandardConversion2.None } := by
    unfold Conversion.compute
    simp only [StandardConversion2.compute_to_object src dest e hs hd, bne_self_eq_false,
      Bool.false_eq_true, if_false, hd, Bool.not_true, Bool.and_false, if_true, hne]
    rw [hctors, hsel]
  rw [hmain]
  exact ⟨rfl, rfl, rfl⟩

/-- Witness of C6: with the constructors `A(int)` and `A(bool)`, `bool`
converts through `A(bool)` whether it is declared second or first, and `int`
converts through `A(int)`. -/
theorem Conversion.compute_through_best_constructor_witness :
    (Conversion.compute Type_.Boolean (classType 0) (Engine.ofClasses classIntBool)
        .NoExplicitConversions).function = some ctor_bool
    ∧ (Conversion.compute Type_.Boolean (classType 0) (Engine.ofClasses classBoolInt)
        .NoExplicitConversions).function = some ctor_bool
    ∧ (Conversion.compute Type_.Int (classType 0) (Engine.ofClasses classIntBool)
        .NoExplicitConversions).function = some ctor_int :=
  ⟨(Conversion.compute_through_best_constructor (Engine.ofClasses classIntBool)
      .NoExplicitConversions Type_.Boolean (classType 0) [ctor_int] [] ctor_bool
      (by decide) (by decide) (by decide) (by decide) (by decide) (by decide)).2.2,
   (Conversion.compute_through_best_constructor (Engine.ofClasses classBoolInt)
      .NoExplicitConversions Type_.Boolean (classType 0) [] [ctor_int] ctor_bool
      (by decide) (by decide) (by decide) (by decide) (by decide) (by decide)).2.2,
   (Conversion.compute_through_best_constructor (Engine.ofClasses classIntBool)
      .NoExplicitConversions Type_.Int (classType 0) [] [ctor_bool] ctor_int
      (by decide) (by decide) (by decide) (by decide) (by decide) (by decide)).2.2⟩

/-- The key of "not convertible". -/
theorem StandardConversion2.key_notConvertible :
    StandardConversion2.NotConvertible.key = 5122 := by decide

/-- The key of an admissible conversion is below the key of "not convertible". -/
theorem ctorConversion_key_lt (src : Type_) (e : Engine) (policy : ConversionPolicy)
    (c : FunctionImpl) (h : ctorAdmissible src e policy c = true) :
    (ctorConversion src e c).key < 5122 := by
  simp only [ctorAdmissible, Bool.and_eq_true, bne_iff_ne, ne_eq] at h
  have hr := (StandardConversion2.compute_regular src _ e h.2).1
  have hd := (ctorConversion src e c).depth_le
  have hrank : (ctorConversion src e c).rank.toNat ≤ 4 := by
    unfold ctorConversion
    cases hk : (StandardConversion2.compute src (c.parameters.getD 0 Type_.Null) e).rank <;>
      first | (exfalso; exact hr hk) | decide
  unfold StandardConversion2.key
  generalize (ctorConversion src e c).rank.toNat = r at hrank
  generalize (ctorConversion src e c).derivedToBaseConversionDepth = p at hd
  split_ifs <;> omega

/-- Among "not convertible" and the conversions of the admissible constructors
from one source type, `operator<` is the order of the keys. -/
theorem ctorConversion_lt_eq_key (src : Type_) (e : Engine) (policy : ConversionPolicy)
    (hwf : src.isObjectType = true → src.isEnumType = false)
    (x y : StandardConversion2)
    (hx : x = StandardConversion2.NotConvertible
      ∨ ∃ c, ctorAdmissible src e policy c = true ∧ x = ctorConversion src e c)
    (hy : y = StandardConversion2.NotConvertible
      ∨ ∃ c, ctorAdmissible src e policy c = true ∧ y = ctorConversion src e c) :
    x.lt y = decide (x.key < y.key) := by
  apply StandardConversion2.lt_eq_key_lt
  intro hrank
  have hreg : ∀ z : StandardConversion2,
      (∃ c, ctorAdmissible src e policy c = true ∧ z = ctorConversion src e c) →
      z.rank ≠ .NotConvertible
      ∧ (z.isDerivedToBaseConversion = true → src.isObjectType = true)
      ∧ (z.isDerivedToBaseConversion = false → z.rank = .Conversion →
          src.isObjectType = false ∨ src.isEnumType = true) := by
    rintro z ⟨c, hc, rfl⟩
    simp only [ctorAdmissible, Bool.and_eq_true, bne_iff_ne, ne_eq] at hc
    exact StandardConversion2.compute_regular src _ e hc.2
  have hNCr : StandardConversion2.NotConvertible.rank = .NotConvertible := by decide
  have hNCd : StandardConversion2.NotConvertible.isDerivedToBaseConversion = false := by decide
  have hinj : ∀ a b : ConversionRank, a.toNat = b.toNat → a = b := by
    intro a b; cases a <;> cases b <;> decide
  have hrank' := hinj _ _ hrank
  have hd2b : ∀ z : StandardConversion2, z.isDerivedToBaseConversion = true →
      z.rank = .Conversion := by
    intro z hz
    unfold StandardConversion2.rank
    rw [hz]; rfl
  have hmixed : ∀ u v : StandardConversion2,
      (∃ c, ctorAdmissible src e policy c = true ∧ u = ctorConversion src e c) →
      (∃ c, ctorAdmissible src e policy c = true ∧ v = ctorConversion src e c) →
      u.rank = v.rank → u.isDerivedToBaseConversion = true →
      v.isDerivedToBaseConversion = true := by
    intro u v hu hv huv hud
    cases hvd : v.isDerivedToBaseConversion
    · exfalso
      have hso := (hreg u hu).2.1 hud
      have hvr : v.rank = .Conversion := by rw [← huv]; exact hd2b u hud
      rcases (hreg v hv).2.2 hvd hvr with h | h
      · rw [hso] at h; cases h
      · rw [hwf hso] at h; cases h
    · rfl
  rcases hx with hx | hx <;> rcases hy with hy | hy
  · rw [hx, hy]
  · exfalso; rw [hx, hNCr] at hrank'; exact (hreg y hy).1 hrank'.symm
  · exfalso; rw [hy, hNCr] at hrank'; exact (hreg x hx).1 hrank'
  · cases hxd : x.isDerivedToBaseConversion <;> cases hyd : y.isDerivedToBaseConversion
    · rfl
    · have := hmixed y x hy hx hrank'.symm hyd
      rw [hxd] at this; cases this
    · have := hmixed x y hx hy hrank' hxd
      rw [hyd] at this; cases this
    · rfl

/-- One iteration of the loop keeps the invariant. -/
theorem CtorSelection.Inv_step (src : Type_) (e : Engine) (policy : ConversionPolicy)
    (hwf : src.isObjectType = true → src.isEnumType = false)
    (seen : List FunctionImpl) (st : CtorSelection) (c : FunctionImpl)
    (hinv : CtorSelection.Inv src e policy seen st) :
    CtorSelection.Inv src e policy (seen ++ [c])
      (select_converting_constructor2_step src e policy st c) := by
  obtain ⟨i1, i2, i3, i4⟩ := hinv
  have i1' : st.best_conv = StandardConversion2.NotConvertible
      ∨ ∃ c' ∈ seen ++ [c], ctorAdmissible src e policy c' = true
          ∧ st.best_conv = ctorConversion src e c' := by
    rcases i1 with h | ⟨c', hm, ha, hb⟩
    · exact Or.inl h
    · exact Or.inr ⟨c', List.mem_append_left _ hm, ha, hb⟩
  cases hadm : ctorAdmissible src e policy c
  · rw [select_converting_constructor2_step_skip src e policy st c hadm]
    refine ⟨i1', ?_, ?_, ?_⟩
    · intro c' hm ha
      rcases List.mem_append.mp hm with h | h
      · exact i2 c' h ha
      · rw [List.mem_singleton.mp h, hadm] at ha; cases ha
    · rcases i3 with h | ⟨⟨c', hm, ha, hb⟩, hk⟩
      · exact Or.inl h
      · exact Or.inr ⟨⟨c', List.mem_append_left _ hm, ha, hb⟩, hk⟩
    · intro h
      rw [List.countP_append]
      have : List.countP (fun c => ctorAdmissible src e policy c
          && ((ctorConversion src e c).key == st.best_conv.key)) [c] = 0 := by
        simp [List.countP_cons, hadm]
      rw [this]
      exact i4 h
  · have hxdom : ctorConversion src e c = StandardConversion2.NotConvertible
        ∨ ∃ c', ctorAdmissible src e policy c' = true
            ∧ ctorConversion src e c = ctorConversion src e c' := Or.inr ⟨c, hadm, rfl⟩
    have hbdom : st.best_conv = StandardConversion2.NotConvertible
        ∨ ∃ c', ctorAdmissible src e policy c' = true
            ∧ st.best_conv = ctorConversion src e c' := by
      rcases i1 with h | ⟨c', _, ha, hb⟩
      · exact Or.inl h
      · exact Or.inr ⟨c', ha, hb⟩
    have hxNC : ctorConversion src e c ≠ StandardConversion2.NotConvertible := by
      intro h
      have := ctorConversion_key_lt src e policy c hadm
      rw [h, StandardConversion2.key_notConvertible] at this
      omega
    rw [select_converting_constructor2_step_adm src e policy st c hadm,
      ctorConversion_lt_eq_key src e policy hwf _ _ hxdom hbdom,
      ctorConversion_lt_eq_key src e policy hwf _ _ hbdom hxdom]
    rcases Nat.lt_trichotomy (ctorConversion src e c).key st.best_conv.key with hlt | heq | hgt
    · have h2 : ¬ (st.best_conv.key < (ctorConversion src e c).key) := by omega
      simp only [hlt, h2, decide_True, decide_False, Bool.not_false, Bool.and_self, if_true]
      refine ⟨Or.inr ⟨c, List.mem_append_right _ (List.mem_singleton_self c), hadm, rfl⟩,
        ?_, Or.inl rfl, ?_⟩
      · intro c' hm ha
        rcases List.mem_append.mp hm with h | h
        · have := i2 c' h ha
          show (ctorConversion src e c).key ≤ _
          omega
        · rw [List.mem_singleton.mp h]
      · intro _
        rw [List.countP_append]
        have hz : List.countP (fun c' => ctorAdmissible src e policy c'
            && ((ctorConversion src e c').key == (ctorConversion src e c).key)) seen = 0 := by
          rw [List.countP_eq_zero]
          intro c' hm
          cases ha : ctorAdmissible src e policy c'
          · simp
          · have := i2 c' hm ha
            have hne : (ctorConversion src e c').key ≠ (ctorConversion src e c).key := by omega
            simp [hne]
        show List.countP _ seen + List.countP _ [c] ≤ 1
        rw [hz]
        simp only [Nat.zero_add]
        exact Nat.le_trans (List.countP_le_length _) (by simp)
    · have h1 : ¬ ((ctorConversion src e c).key < st.best_conv.key) := by omega
      have h2 : ¬ (st.best_conv.key < (ctorConversion src e c).key) := by omega
      simp only [h1, h2, decide_False, Bool.false_and, Bool.false_eq_true, if_false]
      refine ⟨i1', ?_, Or.inr ⟨⟨c, List.mem_append_right _ (List.mem_singleton_self c),
        hadm, rfl⟩, heq⟩, fun h => absurd h hxNC⟩
      intro c' hm ha
      rcases List.mem_append.mp hm with h | h
      · exact i2 c' h ha
      · rw [List.mem_singleton.mp h]
        show st.best_conv.key ≤ _
        omega
    · have h1 : ¬ ((ctorConversion src e c).key < st.best_conv.key) := by omega
      simp only [h1, hgt, decide_True, decide_False, Bool.not_false, Bool.and_self,
        Bool.false_and, Bool.false_eq_true, if_false, if_true]
      refine ⟨i1', ?_, ?_, ?_⟩
      · intro c' hm ha
        rcases List.mem_append.mp hm with h | h
        · exact i2 c' h ha
        · rw [List.mem_singleton.mp h]
          omega
      · rcases i3 with h | ⟨⟨c', hm, ha, hb⟩, hk⟩
        · exact Or.inl h
        · exact Or.inr ⟨⟨c', List.mem_append_left _ hm, ha, hb⟩, hk⟩
      · intro h
        rw [List.countP_append]
        have hne : (ctorConversion src e c).key ≠ st.best_conv.key := by omega
        have : List.countP (fun c => ctorAdmissible src e policy c
            && ((ctorConversion src e c).key == st.best_conv.key)) [c] = 0 := by
          simp [List.countP_cons, hne]
        rw [this]
        exact i4 h

/-- The loop keeps the invariant. -/
theorem CtorSelection.Inv_foldl (src : Type_) (e : Engine) (policy : ConversionPolicy)
    (hwf : src.isObjectType = true → src.isEnumType = false)
    (l seen : List FunctionImpl) (st : CtorSelection)
    (hinv : CtorSelection.Inv src e policy seen st) :
    CtorSelection.Inv src e policy (seen ++ l)
      (l.foldl (select_converting_constructor2_step src e policy) st) := by
  induction l generalizing seen st with
  | nil => simpa using hinv
  | cons c rest ih =>
    rw [List.foldl_cons]
    have := ih (seen ++ [c]) _ (CtorSelection.Inv_step src e policy hwf seen st c hinv)
    simpa [List.append_assoc] using this

/-- A list with two marked entries has at least two entries that satisfy a
predicate they both satisfy. -/
theorem two_le_countP {α : Type} (p : α → Bool) (l1 l2 l3 : List α) (a b : α)
    (ha : p a = true) (hb : p b = true) : 2 ≤ (l1 ++ a :: l2 ++ b :: l3).countP p := by
  rw [List.append_assoc, List.countP_append, List.cons_append, List.countP_cons,
    List.countP_append, List.countP_cons]
  simp only [ha, hb, if_true]
  omega

/-- C7: converting-constructor selection reports ambiguity as not convertible.
If two admissible one-parameter constructors (at different places of the list)
have parameter conversions from `src` of which neither is better than the
other, and no admissible constructor is better than both, then
`select_converting_constructor2` returns `NotConvertible`; it also does when no
constructor is admissible. The source type is not at once a class and an enum
type. -/
theorem select_converting_constructor2_ambiguous (src dest : Type_) (e : Engine)
    (policy : ConversionPolicy) :
    (∀ (l1 l2 l3 : List FunctionImpl) (c1 c2 : FunctionImpl),
      (src.isObjectType = true → src.isEnumType = false) →
      ctorAdmissible src e policy c1 = true → ctorAdmissible src e policy c2 = true →
      (ctorConversion src e c1).lt (ctorConversion src e c2) = false →
      (ctorConversion src e c2).lt (ctorConversion src e c1) = false →
      (∀ c ∈ l1 ++ c1 :: l2 ++ c2 :: l3, ctorAdmissible src e policy c = true →
        ¬ ((ctorConversion src e c).lt (ctorConversion src e c1) = true
          ∧ (ctorConversion src e c).lt (ctorConversion src e c2) = true)) →
      select_converting_constructor2 src (l1 ++ c1 :: l2 ++ c2 :: l3) dest e policy
        = Conversion.NotConvertible)
    ∧ (∀ ctors : List FunctionImpl,
      (∀ c ∈ ctors, ctorAdmissible src e policy c = false) →
      select_converting_constructor2 src ctors dest e policy = Conversion.NotConvertible) := by
  constructor
  · intro l1 l2 l3 c1 c2 hwf ha1 ha2 h12 h21 hnone
    unfold select_converting_constructor2
    split_ifs with hconst
    · rfl
    have hinit : CtorSelection.Inv src e policy []
        { best_conv := StandardConversion2.NotConvertible, best_ctor := none,
          ambiguous_conv := StandardConversion2.NotConvertible } := by
      refine ⟨Or.inl rfl, ?_, Or.inl rfl, ?_⟩
      · intro c hc; cases hc
      · intro _; simp
    have hinv := CtorSelection.Inv_foldl src e policy hwf (l1 ++ c1 :: l2 ++ c2 :: l3) [] _ hinit
    rw [List.nil_append] at hinv
    generalize (l1 ++ c1 :: l2 ++ c2 :: l3).foldl (select_converting_constructor2_step src e policy)
      { best_conv := StandardConversion2.NotConvertible, best_ctor := none,
        ambiguous_conv := StandardConversion2.NotConvertible } = st at hinv ⊢
    obtain ⟨i1, i2, i3, i4⟩ := hinv
    have hm1 : c1 ∈ l1 ++ c1 :: l2 ++ c2 :: l3 := by simp
    have hm2 : c2 ∈ l1 ++ c1 :: l2 ++ c2 :: l3 := by simp
    have hd1 : ctorConversion src e c1 = StandardConversion2.NotConvertible
        ∨ ∃ c, ctorAdmissible src e policy c = true
            ∧ ctorConversion src e c1 = ctorConversion src e c := Or.inr ⟨c1, ha1, rfl⟩
    have hd2 : ctorConversion src e c2 = StandardConversion2.NotConvertible
        ∨ ∃ c, ctorAdmissible src e policy c = true
            ∧ ctorConversion src e c2 = ctorConversion src e c := Or.inr ⟨c2, ha2, rfl⟩
    rw [ctorConversion_lt_eq_key src e policy hwf _ _ hd1 hd2, decide_eq_false_iff_not] at h12
    rw [ctorConversion_lt_eq_key src e policy hwf _ _ hd2 hd1, decide_eq_false_iff_not] at h21
    have hk12 : (ctorConversion src e c1).key = (ctorConversion src e c2).key := by omega
    have hb1 := i2 c1 hm1 ha1
    have hk1 := ctorConversion_key_lt src e policy c1 ha1
    have hbNC : st.best_conv ≠ StandardConversion2.NotConvertible := by
      intro h
      rw [h, StandardConversion2.key_notConvertible] at hb1
      omega
    obtain ⟨cb, hmb, hab, hbeq⟩ : ∃ c ∈ l1 ++ c1 :: l2 ++ c2 :: l3,
        ctorAdmissible src e policy c = true ∧ st.best_conv = ctorConversion src e c := by
      rcases i1 with h | h
      · exact absurd h hbNC
      · exact h
    have hdb : st.best_conv = StandardConversion2.NotConvertible
        ∨ ∃ c, ctorAdmissible src e policy c = true ∧ st.best_conv = ctorConversion src e c :=
      Or.inr ⟨cb, hab, hbeq⟩
    have hkb : st.best_conv.key = (ctorConversion src e c1).key := by
      by_contra hne
      have hlt : st.best_conv.key < (ctorConversion src e c1).key := by omega
      apply hnone cb hmb hab
      rw [← hbeq, ctorConversion_lt_eq_key src e policy hwf _ _ hdb hd1,
        ctorConversion_lt_eq_key src e policy hwf _ _ hdb hd2, decide_eq_true_eq,
        decide_eq_true_eq]
      omega
    have hcount : 2 ≤ (l1 ++ c1 :: l2 ++ c2 :: l3).countP (fun c => ctorAdmissible src e policy c
        && ((ctorConversion src e c).key == st.best_conv.key)) := by
      have e1 : (ctorAdmissible src e policy c1
          && ((ctorConversion src e c1).key == st.best_conv.key)) = true := by
        simp [ha1, hkb]
      have e2 : (ctorAdmissible src e policy c2
          && ((ctorConversion src e c2).key == st.best_conv.key)) = true := by
        simp [ha2, hkb, ← hk12]
      exact two_le_countP _ l1 l2 l3 c1 c2 e1 e2
    have hamb : st.ambiguous_conv ≠ StandardConversion2.NotConvertible := by
      intro h
      have := i4 h
      omega
    obtain ⟨⟨ca, _, haa, haeq⟩, hka⟩ : (∃ c ∈ l1 ++ c1 :: l2 ++ c2 :: l3,
        ctorAdmissible src e policy c = true ∧ st.ambiguous_conv = ctorConversion src e c)
        ∧ st.ambiguous_conv.key = st.best_conv.key := by
      rcases i3 with h | h
      · exact absurd h hamb
      · exact h
    have hda : st.ambiguous_conv = StandardConversion2.NotConvertible
        ∨ ∃ c, ctorAdmissible src e policy c = true
            ∧ st.ambiguous_conv = ctorConversion src e c := Or.inr ⟨ca, haa, haeq⟩
    have hlt : st.best_conv.lt st.ambiguous_conv = false := by
      rw [ctorConversion_lt_eq_key src e policy hwf _ _ hdb hda, decide_eq_false_iff_not]
      omega
    simp [hlt]
  · intro ctors hnone
    have hfold : ∀ (l : List FunctionImpl) (st : CtorSelection),
        (∀ c ∈ l, ctorAdmissible src e policy c = false) →
        l.foldl (select_converting_constructor2_step src e policy) st = st := by
      intro l
      induction l with
      | nil => intro st _; rfl
      | cons c0 rest ih =>
        intro st h
        rw [List.foldl_cons,
          select_converting_constructor2_step_skip src e policy st c0
            (h c0 (List.mem_cons_self _ _))]
        exact ih st (fun c hc => h c (List.mem_cons_of_mem _ hc))
    unfold select_converting_constructor2
    split_ifs with hconst
    · rfl
    rw [hfold ctors _ hnone]
    have : StandardConversion2.NotConvertible.lt StandardConversion2.NotConvertible = false := by
      decide
    simp [this]

/-- Witness of C7: with the constructors `A(int)` and `A(float)` and a `bool`
source, both promotions, the selection is not convertible; so it is for a class
without constructors and a `float` source. -/
theorem select_converting_constructor2_ambiguous_witness :
    select_converting_constructor2 Type_.Boolean [ctor_int, ctor_float]
        (classType 0) (Engine.ofClasses classIntFloat) .NoExplicitConversions
      = Conversion.NotConvertible
    ∧ select_converting_constructor2 Type_.Float [] (classType 0)
        (Engine.ofClasses classEmpty) .NoExplicitConversions = Conversion.NotConvertible :=
  ⟨(select_converting_constructor2_ambiguous Type_.Boolean (classType 0)
      (Engine.ofClasses classIntFloat) .NoExplicitConversions).1 [] [] [] ctor_int ctor_float
      (by decide) (by decide) (by decide) (by decide) (by decide) (by decide),
   (select_converting_constructor2_ambiguous Type_.Float (classType 0)
      (Engine.ofClasses classEmpty) .NoExplicitConversions).2 []
      (fun _ h => absurd h (List.not_mem_nil _))⟩

/-- C11: for every function type `F` (a type with the function-signature flag
that is not an object type): converting `F` to `F` (not a reference) is not
user-defined and its standard part is a copy; converting `F` to a reference to
`F` (same base type, not dropping `const`) is not user-defined and a reference
initialization; converting `F` to a function type with another prototype is
`NotConvertible`. -/
theorem Conversion.compute_function_type (e : Engine) (policy : ConversionPolicy) (F : Type_)
    (hF : F.isFunctionType = true) (hO : F.isObjectType = false) :
    (F.isReference = false →
      Conversion.compute F F e policy = { conv1 := StandardConversion2.Copy }
      ∧ (Conversion.compute F F e policy).isUserDefinedConversion = false
      ∧ (Conversion.compute F F e policy).conv1.isCopy = true
      ∧ (Conversion.compute F F e policy).ne Conversion.NotConvertible = true)
    ∧ (∀ dest : Type_, dest.baseType = F.baseType → dest.isReference = true →
        (F.isConst = true → dest.isConst = true) →
        Conversion.compute F dest e policy = { conv1 := StandardConversion2.default_ }
        ∧ (Conversion.compute F dest e policy).isUserDefinedConversion = false
        ∧ (Conversion.compute F dest e policy).conv1.isReferenceConversion = true
        ∧ (Conversion.compute F dest e policy).ne Conversion.NotConvertible = true)
    ∧ (∀ G : Type_, G.isFunctionType = true → G.isObjectType = false →
        G.baseType ≠ F.baseType →
        Conversion.compute F G e policy = Conversion.NotConvertible) := by
  have hFf : F.isFundamentalType = false := by
    simp only [Type_.isFunctionType] at hF
    simp [Type_.isFundamentalType, hF]
  refine ⟨?_, ?_, ?_⟩
  · intro hr
    have hstd : StandardConversion2.compute F F e = StandardConversion2.Copy := by
      unfold StandardConversion2.compute
      simp only [hr, hFf, hO, hF, Bool.false_and, Bool.and_false, Bool.false_eq_true, if_false,
        beq_self_eq_true, if_true, Bool.or_true, StandardConversion2.adjustFor]
      cases F.isConst <;> rfl
    have h1 : Conversion.compute F F e policy = { conv1 := StandardConversion2.Copy } := by
      unfold Conversion.compute
      rw [hstd]
      rfl
    rw [h1]
    exact ⟨rfl, rfl, by decide, by decide⟩
  · intro dest hb hr hc
    have hconst : (dest.isReference && F.isConst && !dest.isConst) = false := by
      cases hF' : F.isConst
      · simp
      · simp [hc hF']
    have hdO : dest.isObjectType = false := by
      have := congrArg Type_.objectFlag hb
      simp only [Type_.isObjectType] at hO
      simpa [Type_.baseType, Type_.isObjectType, hO] using this
    have hstd : StandardConversion2.compute F dest e = StandardConversion2.default_ := by
      have hconst2 : (true && F.isConst && !dest.isConst) = false := by
        rw [← hr]; exact hconst
      unfold StandardConversion2.compute
      simp only [hconst2, hFf, hO, hb, hr, Bool.false_and, Bool.and_false, Bool.false_eq_true,
        if_false, beq_self_eq_true, if_true]
    have h1 : Conversion.compute F dest e policy = { conv1 := StandardConversion2.default_ } := by
      unfold Conversion.compute
      rw [hstd]
      rfl
    rw [h1]
    exact ⟨rfl, rfl, by decide, by decide⟩
  · intro G hG hGO hne
    have hGf : G.isFundamentalType = false := by
      simp only [Type_.isFunctionType] at hG
      simp [Type_.isFundamentalType, hG]
    have hb : (F.baseType == G.baseType) = false := by
      simp only [beq_eq_false_iff_ne, ne_eq]
      exact fun h => hne h.symm
    have hi : (G.baseType == Type_.Int) = false := by
      simp only [beq_eq_false_iff_ne, ne_eq]
      intro h
      have := congrArg Type_.prototypeFlag h
      simp only [Type_.isFunctionType] at hG
      simp [Type_.baseType, Type_.Int, hG] at this
    have hstd : StandardConversion2.compute F G e = StandardConversion2.NotConvertible := by
      unfold StandardConversion2.compute
      simp only [hFf, hGf, hO, hGO, hb, hi, Bool.false_and, Bool.and_false, Bool.false_eq_true,
        if_false, ite_self]
    unfold Conversion.compute
    rw [hstd]
    simp [hO, hGO]

/-- Witness of C11: the function type `A` converts to itself by a copy, and not
to the function type `B`. -/
theorem Conversion.compute_function_type_witness :
    (Conversion.compute functionTypeA functionTypeA noClasses .NoExplicitConversions
        = { conv1 := StandardConversion2.Copy })
    ∧ (Conversion.compute functionTypeA (Type_.ref functionTypeA) noClasses
        .NoExplicitConversions = { conv1 := StandardConversion2.default_ })
    ∧ Conversion.compute functionTypeA functionTypeB noClasses .NoExplicitConversions
        = Conversion.NotConvertible :=
  ⟨((Conversion.compute_function_type noClasses .NoExplicitConversions functionTypeA
      (by decide) (by decide)).1 (by decide)).1,
   ((Conversion.compute_function_type noClasses .NoExplicitConversions functionTypeA
      (by decide) (by decide)).2.1 (Type_.ref functionTypeA) (by decide) (by decide)
      (by decide)).1,
   (Conversion.compute_function_type noClasses .NoExplicitConversions functionTypeA
      (by decide) (by decide)).2.2 functionTypeB (by decide) (by decide) (by decide)⟩

/-- The standard conversion from a numeric type to a reference to the same
type, when `const` is not dropped. -/
theorem StandardConversion2.compute_numeric_ref (e : Engine) (src dest : Type_)
    (hs : src.isFundamentalType = true) (hs2 : 2 ≤ src.index)
    (hb : dest.baseType = src.baseType) (hr : dest.isReference = true)
    (hc : src.isConst = true → dest.isConst = true) :
    StandardConversion2.compute src dest e =
      ⟨gRefConvStdConv ||| (if dest.isConst && !src.isConst then gConstQualAdjustStdConv else 0)⟩ := by
  have hs' := hs
  simp only [Type_.isFundamentalType, Bool.and_eq_true, Bool.not_eq_true',
    decide_eq_true_eq] at hs'
  obtain ⟨⟨⟨⟨⟨h1, h2⟩, h3⟩, h4⟩, h5⟩, h6⟩ := hs'
  have hbi : dest.index = src.index := by
    have := congrArg Type_.index hb
    simpa [Type_.baseType] using this
  have hd : dest.isFundamentalType = true := by
    have e1 := congrArg Type_.enumFlag hb
    have e2 := congrArg Type_.objectFlag hb
    have e3 := congrArg Type_.lambdaFlag hb
    have e4 := congrArg Type_.prototypeFlag hb
    simp only [Type_.baseType] at e1 e2 e3 e4
    simp [Type_.isFundamentalType, e1, e2, e3, e4, h1, h2, h3, h4, hbi, h5, h6]
  have hconst : (true && src.isConst && !dest.isConst) = false := by
    cases hsc : src.isConst
    · simp
    · simp [hc hsc]
  have hv1 : (src == Type_.Void) = false := by
    simp only [beq_eq_false_iff_ne, ne_eq]; intro h; rw [h] at hs2; revert hs2; decide
  have hv2 : (dest == Type_.Void) = false := by
    simp only [beq_eq_false_iff_ne, ne_eq]; intro h
    rw [h] at hbi; rw [← hbi] at hs2; revert hs2; decide
  have hne : (src.baseType != dest.baseType) = false := by simp [hb]
  have hti : StandardConversion2.tableIndex src dest
      = (((src.index - 2) * 6 : Nat) : Int) := by
    simp only [StandardConversion2.tableIndex, hb]
    simp only [Type_.baseType, Type_.data, h1, h2, h3, h4]
    simp
    omega
  have hat : stdconv_at (((src.index - 2) * 6 : Nat) : Int) = some 0 := by
    have : src.index = 2 ∨ src.index = 3 ∨ src.index = 4 ∨ src.index = 5 ∨ src.index = 6 := by
      omega
    rcases this with h | h | h | h | h <;> rw [h] <;> decide
  unfold StandardConversion2.compute
  simp only [hr, hconst, hs, hd, StandardConversion2.fromTypes, checkNotConvertible, hv1, hv2,
    hne, hti, hat, Bool.false_eq_true, if_false, if_true, Bool.and_self, Bool.not_true,
    Bool.or_self, Bool.and_false, Bool.true_and]
  have hconst3 : ¬ (src.isConst = true ∧ dest.isConst = false) := by
    rintro ⟨k1, k2⟩; rw [hc k1] at k2; cases k2
  cases hq : (dest.isConst && !src.isConst) <;>
    simp [gRefConvStdConv, gConstQualAdjustStdConv, hconst3]

/-- C12: for the fundamental types `bool` to `double`, the kind of
initialization follows the destination. The standard conversion from `T` to a
reference to `T` that does not drop `const` (`T&`, `const T&`) is a reference
initialization and not a copy initialization, nor a plain copy, not narrowing,
not a numeric conversion, not a numeric promotion and not derived-to-base. The
standard conversion to a non-reference destination is a copy initialization and
not a reference initialization; among these, `isCopy` holds for the plain copy
alone, from a type to itself. -/
theorem StandardConversion2.initialization_kind (e : Engine) (src dest : Type_)
    (hs : src.isFundamentalType = true) (hs2 : 2 ≤ src.index) :
    (dest.baseType = src.baseType → dest.isReference = true →
      (src.isConst = true → dest.isConst = true) →
      (StandardConversion2.compute src dest e).isReferenceInitialization = true
      ∧ (StandardConversion2.compute src dest e).isCopyInitialization = false
      ∧ (StandardConversion2.compute src dest e).isReferenceConversion = true
      ∧ (StandardConversion2.compute src dest e).isCopy = false
      ∧ (StandardConversion2.compute src dest e).isNarrowing = false
      ∧ (StandardConversion2.compute src dest e).isNumericConversion = false
      ∧ (StandardConversion2.compute src dest e).isNumericPromotion = false
      ∧ (StandardConversion2.compute src dest e).isDerivedToBaseConversion = false)
    ∧ (dest.isFundamentalType = true → 2 ≤ dest.index → dest.isReference = false →
      (StandardConversion2.compute src dest e).isCopyInitialization = true
      ∧ (StandardConversion2.compute src dest e).isReferenceInitialization = false
      ∧ (StandardConversion2.compute src dest e).isReferenceConversion = false
      ∧ StandardConversion2.compute src dest e ≠ StandardConversion2.NotConvertible
      ∧ ((StandardConversion2.compute src dest e).isCopy = true ↔ src.index = dest.index)) := by
  constructor
  · intro hb hr hc
    rw [StandardConversion2.compute_numeric_ref e src dest hs hs2 hb hr hc]
    cases (dest.isConst && !src.isConst) <;> decide
  · intro hd hd2 hr
    rw [StandardConversion2.compute_numeric e src dest hs hd hs2 hd2 hr]
    have h6 : src.index ≤ 6 := by
      simp only [Type_.isFundamentalType, Bool.and_eq_true, decide_eq_true_eq] at hs; exact hs.2
    have g6 : dest.index ≤ 6 := by
      simp only [Type_.isFundamentalType, Bool.and_eq_true, decide_eq_true_eq] at hd; exact hd.2
    generalize src.index = si at *
    generalize dest.index = di at *
    generalize (dest.isConst && !src.isConst) = q
    interval_cases si <;> interval_cases di <;> cases q <;> decide

/-- Witness of C12, on the conversions of the test: `int` to `const int&` and
`int` to `int&` are reference initializations and not copy initializations;
`int` to `bool` and `int` to `float` are copy initializations and not reference
initializations. -/
theorem StandardConversion2.initialization_kind_witness :
    ((StandardConversion2.compute Type_.Int (Type_.cref Type_.Int)
        noClasses).isReferenceInitialization = true
      ∧ (StandardConversion2.compute Type_.Int (Type_.cref Type_.Int)
        noClasses).isCopyInitialization = false)
    ∧ ((StandardConversion2.compute Type_.Int (Type_.ref Type_.Int)
        noClasses).isReferenceInitialization = true
      ∧ (StandardConversion2.compute Type_.Int (Type_.ref Type_.Int)
        noClasses).isCopyInitialization = false)
    ∧ ((StandardConversion2.compute Type_.Int Type_.Boolean noClasses).isCopyInitialization
        = true
      ∧ (StandardConversion2.compute Type_.Int Type_.Boolean noClasses).isReferenceInitialization
        = false)
    ∧ ((StandardConversion2.compute Type_.Int Type_.Float noClasses).isCopyInitialization
        = true
      ∧ (StandardConversion2.compute Type_.Int Type_.Float noClasses).isReferenceInitialization
        = false) :=
  ⟨⟨((StandardConversion2.initialization_kind noClasses Type_.Int (Type_.cref Type_.Int)
        (by decide) (by decide)).1 (by decide) (by decide) (by decide)).1,
    ((StandardConversion2.initialization_kind noClasses Type_.Int (Type_.cref Type_.Int)
        (by decide) (by decide)).1 (by decide) (by decide) (by decide)).2.1⟩,
   ⟨((StandardConversion2.initialization_kind noClasses Type_.Int (Type_.ref Type_.Int)
        (by decide) (by decide)).1 (by decide) (by decide) (by decide)).1,
    ((StandardConversion2.initialization_kind noClasses Type_.Int (Type_.ref Type_.Int)
        (by decide) (by decide)).1 (by decide) (by decide) (by decide)).2.1⟩,
   ⟨((StandardConversion2.initialization_kind noClasses Type_.Int Type_.Boolean
        (by decide) (by decide)).2 (by decide) (by decide) (by decide)).1,
    ((StandardConversion2.initialization_kind noClasses Type_.Int Type_.Boolean
        (by decide) (by decide)).2 (by decide) (by decide) (by decide)).2.1⟩,
   ⟨((StandardConversion2.initialization_kind noClasses Type_.Int Type_.Float
        (by decide) (by decide)).2 (by decide) (by decide) (by decide)).1,
    ((StandardConversion2.initialization_kind noClasses Type_.Int Type_.Float
        (by decide) (by decide)).2 (by decide) (by decide) (by decide)).2.1⟩⟩

/-- C13: for standard conversions of equal rank, `operator<` is the order that
the claim words: smaller derived-to-base depth first, then reference binding
over none, then no qualification adjustment over one, and `false` in every
other case. -/
theorem StandardConversion2.lt_within_rank (a b : StandardConversion2)
    (h : a.rank = b.rank) : a.lt b = withinRankBetter a b := by
  unfold StandardConversion2.lt withinRankBetter
  rw [h]
  simp only [Nat.lt_irrefl, if_false, gt_iff_lt]
  generalize a.derivedToBaseConversionDepth = pa
  generalize b.derivedToBaseConversionDepth = pb
  generalize a.isDerivedToBaseConversion = da
  generalize b.isDerivedToBaseConversion = db
  generalize a.isReferenceConversion = fa
  generalize b.isReferenceConversion = fb
  generalize a.hasQualificationAdjustment = qa
  generalize b.hasQualificationAdjustment = qb
  rcases Nat.lt_trichotomy pa pb with h3 | h3 | h3
  · have h4 : ¬ pb < pa := by omega
    have h5 : ¬ pa = pb := by omega
    cases da <;> cases db <;> cases fa <;> cases fb <;> cases qa <;> cases qb <;>
      simp [h3, h4, h5]
  · subst h3
    cases da <;> cases db <;> cases fa <;> cases fb <;> cases qa <;> cases qb <;> simp
  · have h4 : ¬ pa < pb := by omega
    have h5 : ¬ pa = pb := by omega
    cases da <;> cases db <;> cases fa <;> cases fb <;> cases qa <;> cases qb <;>
      simp [h3, h4, h5]

/-- Witness of C13: among exact matches, the reference binding is better than
the copy. -/
theorem StandardConversion2.lt_within_rank_witness :
    StandardConversion2.default_.lt StandardConversion2.Copy
      = withinRankBetter StandardConversion2.default_ StandardConversion2.Copy :=
  StandardConversion2.lt_within_rank StandardConversion2.default_ StandardConversion2.Copy
    (by decide)

/-- C14: the conversion ordering is antisymmetric: `a < b` and `b < a` never
both hold, `a < a` is false, and `Conversion::comp(x, y) = -Conversion::comp(y, x)`. -/
theorem Conversion.comp_antisymmetric :
    (∀ a b : StandardConversion2, ¬ (a.lt b = true ∧ b.lt a = true))
    ∧ (∀ a : StandardConversion2, a.lt a = false)
    ∧ (∀ x y : Conversion, Conversion.comp x y = - Conversion.comp y x) := by
  have hirr : ∀ a : StandardConversion2, a.lt a = false := by
    intro a
    cases h : a.lt a
    · rfl
    · have := StandardConversion2.lt_asymm a a h
      rw [h] at this; cases this
  refine ⟨?_, hirr, ?_⟩
  · rintro a b ⟨h1, h2⟩
    have := StandardConversion2.lt_asymm a b h1
    rw [h2] at this; cases this
  · intro x y
    have key : ∀ u v : StandardConversion2,
        (if u.lt v = true then (-1 : Int) else if v.lt u = true then 1 else 0)
          = -(if v.lt u = true then (-1 : Int) else if u.lt v = true then 1 else 0) := by
      intro u v
      cases h1 : u.lt v
      · cases h2 : v.lt u <;> simp
      · rw [StandardConversion2.lt_asymm _ _ h1]; simp
    unfold Conversion.comp
    cases hx : x.function.isNone <;> cases hy : y.function.isNone <;>
      simp only [Bool.not_true, Bool.not_false, Bool.and_true, Bool.and_false, Bool.true_and,
        Bool.false_and, Bool.false_eq_true, if_false, if_true] <;>
      first
        | rfl
        | exact key _ _

/-- C15 (the code at the failing input): the user-defined conversion from `int`
to the class `A` through `A(int)` has rank `UserDefinedConversion`, below the
rank `NotConvertible`, and yet `Conversion::comp` of it against
`NotConvertible` is `1`, not `-1`. -/
theorem Conversion.comp_user_defined_against_notConvertible :
    intToClassA.function = some ctor_int
    ∧ intToClassA.rank = .UserDefinedConversion
    ∧ Conversion.NotConvertible.rank = .NotConvertible
    ∧ intToClassA.rank.toNat < Conversion.NotConvertible.rank.toNat
    ∧ Conversion.comp intToClassA Conversion.NotConvertible = 1 := by
  decide

/-- C18: `Operator::precedence` gives every operator the group of the reference
table, and `0` only to the null operator; `Operator::associativity(g)` is
`RightToLeft` exactly for `g = 3` and `g = 14`, `LeftToRight` for every other
`g` from 1 to 15, and it throws outside 1 to 15; so the associativity of the
precedence group of every operator other than the null one is defined. -/
theorem Operator.precedence_table :
    (∀ op : BuiltInOperator, Operator.precedence op = referencePrecedence op)
    ∧ (∀ op : BuiltInOperator, Operator.precedence op = 0 ↔ op = .Null)
    ∧ (∀ g : Int, 1 ≤ g → g ≤ 15 →
        Operator.associativity g
          = some (if g = 3 ∨ g = 14 then Associativity.RightToLeft
                  else Associativity.LeftToRight))
    ∧ (∀ g : Int, (g < 1 ∨ 15 < g) → Operator.associativity g = none)
    ∧ (∀ op : BuiltInOperator, op ≠ .Null →
        (Operator.associativity (Operator.precedence op)).isSome = true) := by
  refine ⟨?_, ?_, ?_, ?_, ?_⟩
  · intro op; cases op <;> decide
  · intro op; cases op <;> decide
  · intro g h1 h2
    interval_cases g <;> decide
  · intro g h
    unfold Operator.associativity
    have : ¬ (0 < g ∧ g ≤ 15) := by omega
    simp [this]
  · intro op h
    cases op <;> first | exact absurd rfl h | decide

/-- Witness of C18: the groups 3 and 14 are right-to-left, the group 5 is
left-to-right, the group 16 is invalid. -/
theorem Operator.precedence_table_witness :
    Operator.associativity 3 = some Associativity.RightToLeft
    ∧ Operator.associativity 14 = some Associativity.RightToLeft
    ∧ Operator.associativity 5 = some Associativity.LeftToRight
    ∧ Operator.associativity 16 = none :=
  ⟨Operator.precedence_table.2.2.1 3 (by decide) (by decide),
   Operator.precedence_table.2.2.1 14 (by decide) (by decide),
   Operator.precedence_table.2.2.1 5 (by decide) (by decide),
   Operator.precedence_table.2.2.2.1 16 (Or.inr (by decide))⟩

/-- Whatever `compare` answers, the `selected` and `ambiguous` slots after
`overloadresolution_process_candidate` hold one of the three candidates it
received, or the reset candidate. -/
theorem overloadresolution_process_candidate_slots (P : Candidate → Prop)
    (compare : Candidate → Candidate → OverloadComparison)
    (cur sel amb : Candidate)
    (hr : P Candidate.reset) (hc : P cur) (hs : P sel) (ha : P amb) :
    P (overloadresolution_process_candidate compare cur sel amb).2.1
      ∧ P (overloadresolution_process_candidate compare cur sel amb).2.2 := by
  unfold overloadresolution_process_candidate
  split_ifs <;> first
    | exact ⟨by assumption, by assumption⟩
    | (split <;> exact ⟨by assumption, by assumption⟩)

/-- A property of both slots preserved by every step of a loop holds after the
loop. -/
theorem foldl_slots {γ : Type} (P : Candidate → Prop)
    (step : Candidate × Candidate → γ → Candidate × Candidate) (l : List γ)
    (hstep : ∀ st x, x ∈ l → P st.1 → P st.2 → P (step st x).1 ∧ P (step st x).2)
    (st : Candidate × Candidate) (h1 : P st.1) (h2 : P st.2) :
    P (l.foldl step st).1 ∧ P (l.foldl step st).2 := by
  induction l generalizing st with
  | nil => exact ⟨h1, h2⟩
  | cons x xs ih =>
    simp only [List.foldl_cons]
    have hx := hstep st x (List.mem_cons_self _ _) h1 h2
    exact ih (fun st y hy => hstep st y (List.mem_cons_of_mem _ hy)) _ hx.1 hx.2

/-- The candidate returned by `resolve_overloads(candidates, args)`, when it
names a function, was built in the loop: the function is one of the candidates,
it passed the arity test and the recorded initializations are those of its
parameters from the arguments. -/
theorem resolve_overloads_built {α : Type} (initialization : Type_ → α → Initialization)
    (compare : Candidate → Candidate → OverloadComparison)
    (candidates : List FunctionImpl) (args : List α) (f : FunctionImpl)
    (h : (resolve_overloads initialization compare candidates args).function = some f) :
    f ∈ candidates ∧ arityMismatch args.length f = false
      ∧ collect_initializations initialization f 0 args
          = some (resolve_overloads initialization compare candidates args).initializations := by
  let P : Candidate → Prop := fun c => ∀ g, c.function = some g →
    g ∈ candidates ∧ arityMismatch args.length g = false
      ∧ collect_initializations initialization g 0 args = some c.initializations
  have hreset : P Candidate.reset := by
    intro g hg; simp [Candidate.reset] at hg
  have hfold := foldl_slots P (resolve_overloads_step initialization compare args) candidates
    (by
      intro st x hx h1 h2
      unfold resolve_overloads_step
      split_ifs with ha
      · exact ⟨h1, h2⟩
      · split
        · exact ⟨h1, h2⟩
        · rename_i inits hi
          refine overloadresolution_process_candidate_slots P compare _ _ _ hreset ?_ h1 h2
          intro g hg
          simp only [Option.some.injEq] at hg
          subst hg
          exact ⟨hx, by simpa using ha, hi⟩)
    (Candidate.reset, Candidate.reset) hreset hreset
  unfold resolve_overloads at h ⊢
  simp only at h ⊢
  split_ifs at h ⊢ with hc
  · exact hfold.1 f h
  · exact hreset f h

/-- The candidate returned by `resolve_overloads(candidates, implicit_object,
args)` for a non-null implicit object, when it names a function, was built in
the loop: the function is one of the candidates, it passed the arity test, its
implicit object initialization was accepted and the recorded initializations
are that one followed by those of the other parameters. -/
theorem resolve_overloads_object_built {α β : Type} (is_null : β → Bool)
    (get_type : β → Type_) (e : Engine) (policy : ConversionPolicy)
    (initialization : Type_ → α → Initialization)
    (compare : Candidate → Candidate → OverloadComparison)
    (candidates : List FunctionImpl) (obj : β) (args : List α) (f : FunctionImpl)
    (hnull : is_null obj = false)
    (h : (resolve_overloads_object is_null get_type e policy initialization compare
            candidates obj args).function = some f) :
    f ∈ candidates ∧ arityMismatchWithObject args.length f = false
      ∧ ∃ first inits,
          implicitObjectInitialization e policy (get_type obj) f = some first
          ∧ collect_initializations initialization f
              (if f.hasImplicitObject then 1 else 0) args = some inits
          ∧ (resolve_overloads_object is_null get_type e policy initialization compare
              candidates obj args).initializations = first ++ inits := by
  let P : Candidate → Prop := fun c => ∀ g, c.function = some g →
    g ∈ candidates ∧ arityMismatchWithObject args.length g = false
      ∧ ∃ first inits,
          implicitObjectInitialization e policy (get_type obj) g = some first
          ∧ collect_initializations initialization g
              (if g.hasImplicitObject then 1 else 0) args = some inits
          ∧ c.initializations = first ++ inits
  have hreset : P Candidate.reset := by
    intro g hg; simp [Candidate.reset] at hg
  have hfold := foldl_slots P
    (resolve_overloads_object_step e policy initialization compare (get_type obj) args)
    candidates
    (by
      intro st x hx h1 h2
      unfold resolve_overloads_object_step
      by_cases ha : arityMismatchWithObject args.length x = true
      · rw [if_pos ha]; exact ⟨h1, h2⟩
      · rw [if_neg ha]
        cases hf : implicitObjectInitialization e policy (get_type obj) x with
        | none => exact ⟨h1, h2⟩
        | some first =>
          cases hi : collect_initializations initialization x
              (if x.hasImplicitObject then 1 else 0) args with
          | none => simp only [hi]; exact ⟨h1, h2⟩
          | some inits =>
            simp only [hi]
            refine overloadresolution_process_candidate_slots P compare _ _ _ hreset ?_ h1 h2
            intro g hg
            simp only [Option.some.injEq] at hg
            subst hg
            exact ⟨hx, by simpa using ha, first, inits, hf, hi, rfl⟩)
    (Candidate.reset, Candidate.reset) hreset hreset
  have hR : P (resolve_overloads_object is_null get_type e policy initialization compare
      candidates obj args) := by
    unfold resolve_overloads_object
    rw [if_neg (by simp [hnull])]
    by_cases hc : ((candidates.foldl
        (resolve_overloads_object_step e policy initialization compare (get_type obj) args)
        (Candidate.reset, Candidate.reset)).2.function.isNone
      && !(candidates.foldl
        (resolve_overloads_object_step e policy initialization compare (get_type obj) args)
        (Candidate.reset, Candidate.reset)).1.function.isNone) = true
    · simp only [hc, if_true]; exact hfold.1
    · simp only [hc, if_false]; exact hreset
  exact hR f h

/-- C16: a function selected by `resolve_overloads(candidates, args)` is one of
the candidates and satisfies neither `argc > count` nor `argc + defaults <
count`; with a non-null implicit object the same holds with `argc + 1` in place
of `argc` for a function that has an implicit object parameter; and a candidate
that passes the test and whose arguments all initialize validly is handed, with
these initializations, to `overloadresolution_process_candidate`. -/
theorem resolve_overloads_arity {α β : Type} (is_null : β → Bool)
    (get_type : β → Type_) (e : Engine) (policy : ConversionPolicy)
    (initialization : Type_ → α → Initialization)
    (compare : Candidate → Candidate → OverloadComparison)
    (candidates : List FunctionImpl) (args : List α) :
    (∀ f, (resolve_overloads initialization compare candidates args).function = some f →
        f ∈ candidates
        ∧ ¬ args.length > f.parameters.length
        ∧ ¬ args.length + f.defaultArguments < f.parameters.length)
    ∧ (∀ obj f, is_null obj = false →
        (resolve_overloads_object is_null get_type e policy initialization compare
          candidates obj args).function = some f →
        f ∈ candidates
        ∧ ¬ (if f.hasImplicitObject then args.length + 1 else args.length)
              > f.parameters.length
        ∧ ¬ (if f.hasImplicitObject then args.length + 1 else args.length)
              + f.defaultArguments < f.parameters.length)
    ∧ (∀ st f inits,
        ¬ args.length > f.parameters.length →
        ¬ args.length + f.defaultArguments < f.parameters.length →
        collect_initializations initialization f 0 args = some inits →
        viable initialization args f = true
        ∧ resolve_overloads_step initialization compare args st f
          = (overloadresolution_process_candidate compare
              { function := some f, initializations := inits } st.1 st.2).2) := by
  refine ⟨?_, ?_, ?_⟩
  · intro f h
    have hb := resolve_overloads_built initialization compare candidates args f h
    have ha := hb.2.1
    simp only [arityMismatch, Bool.or_eq_false_iff, decide_eq_false_iff_not] at ha
    exact ⟨hb.1, ha.1, ha.2⟩
  · intro obj f hnull h
    have hb := resolve_overloads_object_built is_null get_type e policy initialization compare
      candidates obj args f hnull h
    have ha := hb.2.1
    simp only [arityMismatchWithObject, Bool.or_eq_false_iff, decide_eq_false_iff_not] at ha
    exact ⟨hb.1, ha.1, ha.2⟩
  · intro st f inits h1 h2 hi
    have ha : arityMismatch args.length f = false := by
      simp only [arityMismatch, Bool.or_eq_false_iff, decide_eq_false_iff_not]
      exact ⟨h1, h2⟩
    refine ⟨by simp [viable, ha, hi], ?_⟩
    unfold resolve_overloads_step
    simp only [ha, hi, Bool.false_eq_true, if_false]

/-- Witness of C16: with the candidate `f4(int, int)` and two arguments of type
`char` the function is selected, and it has as many parameters as there are
arguments. -/
theorem resolve_overloads_arity_witness :
    f_int_int ∈ [f_int_int]
    ∧ ¬ [Type_.Char, Type_.Char].length > f_int_int.parameters.length
    ∧ ¬ [Type_.Char, Type_.Char].length + f_int_int.defaultArguments
          < f_int_int.parameters.length :=
  (resolve_overloads_arity typeIsNull id noClasses .NoExplicitConversions typeInitialization
    OverloadResolution.compare [f_int_int] [Type_.Char, Type_.Char]).1 f_int_int (by decide)

/-- Counterexample to C17: the class `A` has the only constructor `A(float)`
and the member function `void A::f()`, whose implicit object parameter is
`A&`. With an implicit object of type `int`, `resolve_overloads` selects `f`:
the recorded conversion of the implicit object goes through `A(float)` after
the promotion of `int` to `float`, and its first standard conversion is not a
reference conversion. -/
theorem resolve_overloads_object_selects_converted_object :
    (resolve_overloads_object typeIsNull id (Engine.ofClasses classFloat)
        .NoExplicitConversions typeInitialization OverloadResolution.compare
        [member_f] Type_.Int []).function = some member_f
    ∧ (resolve_overloads_object typeIsNull id (Engine.ofClasses classFloat)
        .NoExplicitConversions typeInitialization OverloadResolution.compare
        [member_f] Type_.Int []).initializations
      = [{ kind := .DirectInitialization,
           conversion := { conv1 := StandardConversion2.compute Type_.Int Type_.Float
                                      (Engine.ofClasses classFloat),
                           function := some ctor_float,
                           conv3 := StandardConversion2.None } }]
    ∧ (StandardConversion2.compute Type_.Int Type_.Float
        (Engine.ofClasses classFloat)).isReferenceConversion = false
    ∧ (StandardConversion2.compute Type_.Int Type_.Float
        (Engine.ofClasses classFloat)).isCopy = false := by
  decide

/-- C17 (amended): with a non-null implicit object, a candidate that has an
implicit object parameter is skipped when the conversion of the implicit object
type to its first parameter compares equal to `NotConvertible` or has a first
standard conversion that is a plain copy; so when the selected function has an
implicit object parameter, the first recorded initialization is the direct
initialization by that conversion, which is neither. -/
theorem resolve_overloads_object_rejects_copy {α β : Type} (is_null : β → Bool)
    (get_type : β → Type_) (e : Engine) (policy : ConversionPolicy)
    (initialization : Type_ → α → Initialization)
    (compare : Candidate → Candidate → OverloadComparison)
    (candidates : List FunctionImpl) (obj : β) (args : List α)
    (hnull : is_null obj = false) :
    (∀ st f, f.hasImplicitObject = true →
        ((Conversion.compute (get_type obj) (f.parameters.getD 0 Type_.Null) e policy).eq
            Conversion.NotConvertible
          || (Conversion.compute (get_type obj) (f.parameters.getD 0 Type_.Null) e
                policy).conv1.isCopy) = true →
        resolve_overloads_object_step e policy initialization compare (get_type obj) args st f
          = st)
    ∧ (∀ f, (resolve_overloads_object is_null get_type e policy initialization compare
          candidates obj args).function = some f →
        f.hasImplicitObject = true →
        ∃ rest,
          (resolve_overloads_object is_null get_type e policy initialization compare
            candidates obj args).initializations
            = { kind := .DirectInitialization,
                conversion := Conversion.compute (get_type obj)
                  (f.parameters.getD 0 Type_.Null) e policy } :: rest
          ∧ (Conversion.compute (get_type obj) (f.parameters.getD 0 Type_.Null) e policy).eq
              Conversion.NotConvertible = false
          ∧ (Conversion.compute (get_type obj) (f.parameters.getD 0 Type_.Null) e
              policy).conv1.isCopy = false) := by
  refine ⟨?_, ?_⟩
  · intro st f hf hc
    unfold resolve_overloads_object_step
    by_cases ha : arityMismatchWithObject args.length f = true
    · rw [if_pos ha]
    · rw [if_neg ha]
      have : implicitObjectInitialization e policy (get_type obj) f = none := by
        unfold implicitObjectInitialization
        rw [if_pos hf]
        simp only [hc, if_true]
      simp only [this]
  · intro f h hf
    obtain ⟨_, _, first, inits, h1, _, h3⟩ :=
      resolve_overloads_object_built is_null get_type e policy initialization compare
        candidates obj args f hnull h
    unfold implicitObjectInitialization at h1
    rw [if_pos hf] at h1
    by_cases hc : ((Conversion.compute (get_type obj) (f.parameters.getD 0 Type_.Null) e
          policy).eq Conversion.NotConvertible
        || (Conversion.compute (get_type obj) (f.parameters.getD 0 Type_.Null) e
              policy).conv1.isCopy) = true
    · simp only [hc, if_true] at h1
      exact absurd h1 (by simp)
    · simp only [hc, Bool.false_eq_true, if_false, Option.some.injEq] at h1
      subst h1
      simp only [Bool.or_eq_true, not_or, Bool.not_eq_true] at hc
      exact ⟨inits, by simpa using h3, hc.1, hc.2⟩

/-- Witness of C17: the member function `void A::f()` called on an object of
type `A` is selected, and the recorded initialization of the implicit object is
not a copy. -/
theorem resolve_overloads_object_rejects_copy_witness :
    ∃ rest,
      (resolve_overloads_object typeIsNull id (Engine.ofClasses classFloat)
          .NoExplicitConversions typeInitialization OverloadResolution.compare
          [member_f] (classType 0) []).initializations
        = { kind := .DirectInitialization,
            conversion := Conversion.compute (id (classType 0))
              (member_f.parameters.getD 0 Type_.Null) (Engine.ofClasses classFloat)
              .NoExplicitConversions } :: rest
      ∧ (Conversion.compute (id (classType 0)) (member_f.parameters.getD 0 Type_.Null)
          (Engine.ofClasses classFloat) .NoExplicitConversions).eq
            Conversion.NotConvertible = false
      ∧ (Conversion.compute (id (classType 0)) (member_f.parameters.getD 0 Type_.Null)
          (Engine.ofClasses classFloat) .NoExplicitConversions).conv1.isCopy = false :=
  (resolve_overloads_object_rejects_copy typeIsNull id (Engine.ofClasses classFloat)
    .NoExplicitConversions typeInitialization OverloadResolution.compare [member_f]
    (classType 0) [] (by decide)).2 member_f (by decide) (by decide)

/-- No operator has a precedence group above 15. -/
theorem Operator.precedence_le (op : BuiltInOperator) : Operator.precedence op ≤ 15 := by
  cases op <;> decide

/-- Every operator other than `Null` has a precedence group of at least 1. -/
theorem Operator.precedence_pos (op : BuiltInOperator) (h : op ≠ .Null) :
    1 ≤ Operator.precedence op := by
  cases op <;> first | exact absurd rfl h | decide

/-- The associativity of the groups 1 to 15 is defined. -/
theorem Operator.associativity_defined (g : Int) (h1 : 1 ≤ g) (h2 : g ≤ 15) :
    Operator.associativity g = some .LeftToRight
      ∨ Operator.associativity g = some .RightToLeft := by
  interval_cases g <;> decide

/-- The precedence that `buildExpression` gives a token is at most 15. -/
theorem getPrecedence_le (g : Token → BuiltInOperator) (tok : Token) :
    getPrecedence g tok ≤ 15 := by
  unfold getPrecedence
  split_ifs
  · decide
  · decide
  · exact Operator.precedence_le _

/-- The precedence that `buildExpression` gives an infix operator token is that
of its operator, between 1 and 15. -/
theorem getPrecedence_binary (g : Token → BuiltInOperator) (tok : Token)
    (h : isInfixToken g tok) :
    getPrecedence g tok = Operator.precedence (g tok) ∧ 1 ≤ getPrecedence g tok := by
  have : getPrecedence g tok = Operator.precedence (g tok) := by
    unfold getPrecedence
    rw [if_neg h.2.1, if_neg h.1]
  exact ⟨this, this ▸ Operator.precedence_pos _ h.2.2⟩

/-- The token at a position of a range that starts, from that position on, with
`tok`. -/
theorem getOp_of_drop (ops rest : List Token) (tok : Token) (i : Nat)
    (h : ops.drop i = tok :: rest) :
    getOp ops i = tok ∧ i < ops.length ∧ ops.drop (i + 1) = rest := by
  have hlt : i < ops.length := by
    by_contra hc
    rw [List.drop_eq_nil_of_le (by omega)] at h
    exact List.noConfusion h
  refine ⟨?_, hlt, ?_⟩
  · have h0 : (ops.drop i)[0]? = some tok := by rw [h]; simp
    rw [List.getElem?_drop] at h0
    unfold getOp
    rw [List.getD_eq_getElem?_getD]
    simpa using congrArg (fun o => o.getD {}) h0
  · have : ops.drop (i + 1) = (ops.drop i).drop 1 := by
      rw [List.drop_drop]
    rw [this, h]; rfl

/-- A token read at a position inside the range belongs to the range. -/
theorem getOp_mem (ops : List Token) (i : Nat) (h : i < ops.length) : getOp ops i ∈ ops := by
  unfold getOp
  rw [List.getD_eq_getElem _ _ h]
  exact List.getElem_mem _

/-- The selection loop of `buildExpression`: when the precedence of the first
operator token is at least 1, the loop ends on a position of the largest
precedence, the rightmost one when the group is left-to-right and the leftmost
one when it is right-to-left. -/
theorem selectLoop_spec (g : Token → BuiltInOperator) (ops : List Token) :
    ∀ (rest : List Token) (i index : Nat) (preced : Int),
      ops.drop i = rest → i ≤ ops.length → index < i →
      preced = getPrecedence g (getOp ops index) → 1 ≤ preced →
      (∀ j, j < i → getPrecedence g (getOp ops j) ≤ preced) →
      (Operator.associativity preced = some .LeftToRight →
        ∀ j, index < j → j < i → getPrecedence g (getOp ops j) < preced) →
      (Operator.associativity preced = some .RightToLeft →
        ∀ j, j < index → getPrecedence g (getOp ops j) < preced) →
      ∃ k, selectLoop g rest i (index, preced) = some (k, getPrecedence g (getOp ops k))
        ∧ k < ops.length
        ∧ (∀ j, j < ops.length → getPrecedence g (getOp ops j) ≤ getPrecedence g (getOp ops k))
        ∧ (Operator.associativity (getPrecedence g (getOp ops k)) = some .LeftToRight →
            ∀ j, k < j → j < ops.length →
              getPrecedence g (getOp ops j) < getPrecedence g (getOp ops k))
        ∧ (Operator.associativity (getPrecedence g (getOp ops k)) = some .RightToLeft →
            ∀ j, j < k → getPrecedence g (getOp ops j) < getPrecedence g (getOp ops k)) := by
  intro rest
  induction rest with
  | nil =>
    intro i index preced hd hi hidx hp h1 hmax hl hr
    have hlen : ops.length ≤ i := by
      by_contra hc
      have : (ops.drop i).length = ops.length - i := List.length_drop _ _
      rw [hd] at this
      simp at this
      omega
    have hi2 : i = ops.length := by omega
    subst hi2
    subst hp
    exact ⟨index, rfl, hidx, hmax, fun h j hj1 hj2 => hl h j hj1 hj2, hr⟩
  | cons tok rest ih =>
    intro i index preced hd hi hidx hp h1 hmax hl hr
    obtain ⟨htok, hlt, hd2⟩ := getOp_of_drop ops rest tok i hd
    have hptok : getPrecedence g tok = getPrecedence g (getOp ops i) := by rw [htok]
    rw [selectLoop]
    by_cases hgt : getPrecedence g tok > preced
    · rw [if_pos hgt]
      refine ih (i + 1) i (getPrecedence g tok) hd2 (by omega) (by omega) hptok (by omega)
        ?_ ?_ ?_
      · intro j hj
        by_cases hji : j = i
        · subst hji; omega
        · have := hmax j (by omega); omega
      · intro _ j hj1 hj2; omega
      · intro _ j hj
        have := hmax j hj; omega
    · rw [if_neg hgt]
      by_cases heq : getPrecedence g tok = preced
      · rw [if_pos heq]
        have h15 : preced ≤ 15 := heq ▸ getPrecedence_le g tok
        rcases Operator.associativity_defined preced h1 h15 with ha | ha
        · rw [ha]
          simp only [if_true]
          refine ih (i + 1) i preced hd2 (by omega) (by omega) (by rw [← heq, hptok]) h1
            ?_ ?_ ?_
          · intro j hj
            by_cases hji : j = i
            · subst hji; omega
            · exact hmax j (by omega)
          · intro _ j hj1 hj2; omega
          · intro h; rw [ha] at h; exact absurd h (by decide)
        · rw [ha]
          simp only [if_neg (show ¬ Associativity.RightToLeft = Associativity.LeftToRight by decide)]
          refine ih (i + 1) index preced hd2 (by omega) (by omega) hp h1 ?_ ?_ ?_
          · intro j hj
            by_cases hji : j = i
            · subst hji; omega
            · exact hmax j (by omega)
          · intro h; rw [ha] at h; exact absurd h (by decide)
          · exact hr
      · rw [if_neg heq]
        refine ih (i + 1) index preced hd2 (by omega) (by omega) hp h1 ?_ ?_ ?_
        · intro j hj
          by_cases hji : j = i
          · subst hji; omega
          · exact hmax j (by omega)
        · intro h j hj1 hj2
          by_cases hji : j = i
          · subst hji; omega
          · exact hl h j hj1 (by omega)
        · exact hr

/-- The selection of `buildExpression` over a non-empty range whose first
operator token has a precedence of at least 1. -/
theorem selectIndex_spec (g : Token → BuiltInOperator) (ops : List Token)
    (hne : ops ≠ []) (h1 : 1 ≤ getPrecedence g (getOp ops 0)) :
    ∃ k, selectIndex g ops = some k
      ∧ k < ops.length
      ∧ (∀ j, j < ops.length → getPrecedence g (getOp ops j) ≤ getPrecedence g (getOp ops k))
      ∧ (Operator.associativity (getPrecedence g (getOp ops k)) = some .LeftToRight →
          ∀ j, k < j → j < ops.length →
            getPrecedence g (getOp ops j) < getPrecedence g (getOp ops k))
      ∧ (Operator.associativity (getPrecedence g (getOp ops k)) = some .RightToLeft →
          ∀ j, j < k → getPrecedence g (getOp ops j) < getPrecedence g (getOp ops k)) := by
  cases ops with
  | nil => exact absurd rfl hne
  | cons tok rest =>
    have h0 : getOp (tok :: rest) 0 = tok := rfl
    obtain ⟨k, hk, hrest⟩ := selectLoop_spec g (tok :: rest) rest 1 0
      (getPrecedence g tok) rfl (by simp) (by omega) (by rw [h0]) (by rw [← h0]; exact h1)
      (by intro j hj; have : j = 0 := by omega
          subst this; rw [h0])
      (by intro _ j hj1 hj2; omega)
      (by intro _ j hj; omega)
    refine ⟨k, ?_, hrest⟩
    simp only [selectIndex, hk, Option.map_some']

/-- The position that the selection loop returns lies inside the range. -/
theorem selectLoop_lt (g : Token → BuiltInOperator) :
    ∀ (rest : List Token) (i index : Nat) (preced : Int) (k : Nat) (pk : Int),
      selectLoop g rest i (index, preced) = some (k, pk) → index < i →
      k < i + rest.length := by
  intro rest
  induction rest with
  | nil =>
    intro i index preced k pk h hidx
    simp only [selectLoop, Option.some.injEq, Prod.mk.injEq] at h
    simp only [List.length_nil]; omega
  | cons tok rest ih =>
    intro i index preced k pk h hidx
    rw [selectLoop] at h
    simp only [List.length_cons]
    split_ifs at h with h1 h2
    · have := ih (i + 1) i _ k pk h (by omega); omega
    · cases ha : Operator.associativity preced with
      | none => rw [ha] at h; exact absurd h (by simp)
      | some a =>
        rw [ha] at h
        simp only at h
        split_ifs at h
        · have := ih (i + 1) i _ k pk h (by omega); omega
        · have := ih (i + 1) index _ k pk h (by omega); omega
    · have := ih (i + 1) index _ k pk h (by omega); omega

/-- The position that `buildExpression` selects lies inside the range. -/
theorem selectIndex_lt (g : Token → BuiltInOperator) (ops : List Token) (k : Nat)
    (h : selectIndex g ops = some k) : k < ops.length := by
  cases ops with
  | nil => simp [selectIndex] at h
  | cons tok rest =>
    simp only [selectIndex, Option.map_eq_some', Prod.exists, exists_and_right,
      exists_eq_right] at h
    obtain ⟨pk, hpk⟩ := h
    have := selectLoop_lt g rest 1 0 _ k pk hpk (by omega)
    simp only [List.length_cons]; omega

/-- The result of `buildExpression` on a range does not depend on the budget,
once the budget exceeds the number of operator tokens. -/
theorem buildExpressionFuel_fuel (g : Token → BuiltInOperator) :
    ∀ (n m : Nat) (operands : List ast.Expression) (ops : List Token),
      ops.length < n → ops.length < m →
      buildExpressionFuel g n operands ops = buildExpressionFuel g m operands ops := by
  intro n
  induction n with
  | zero => intro m operands ops h; omega
  | succ n ih =>
    intro m operands ops hn hm
    cases m with
    | zero => omega
    | succ m =>
      conv_lhs => unfold buildExpressionFuel
      conv_rhs => unfold buildExpressionFuel
      by_cases h0 : ops.length = 0
      · rw [if_pos h0, if_pos h0]
      · rw [if_neg h0, if_neg h0]
        cases hs : selectIndex g ops with
        | none => rfl
        | some index =>
          have hlt := selectIndex_lt g ops index hs
          have e1 : buildExpressionFuel g n (operands.take (index + 1)) (ops.take index)
              = buildExpressionFuel g m (operands.take (index + 1)) (ops.take index) :=
            ih m _ _ (by rw [List.length_take]; omega) (by rw [List.length_take]; omega)
          have e2 : buildExpressionFuel g n (operands.drop (index + 1)) (ops.drop (index + 1))
              = buildExpressionFuel g m (operands.drop (index + 1)) (ops.drop (index + 1)) :=
            ih m _ _ (by rw [List.length_drop]; omega) (by rw [List.length_drop]; omega)
          have e3 : ∀ c, buildExpressionFuel g n
                ((operands.drop (index + 1)).take (c - index))
                ((ops.drop (index + 1)).take (c - index - 1))
              = buildExpressionFuel g m
                ((operands.drop (index + 1)).take (c - index))
                ((ops.drop (index + 1)).take (c - index - 1)) := fun c =>
            ih m _ _ (by rw [List.length_take, List.length_drop]; omega)
              (by rw [List.length_take, List.length_drop]; omega)
          have e4 : ∀ c, buildExpressionFuel g n (operands.drop (c + 1)) (ops.drop (c + 1))
              = buildExpressionFuel g m (operands.drop (c + 1)) (ops.drop (c + 1)) := fun c =>
            ih m _ _ (by rw [List.length_drop]; omega) (by rw [List.length_drop]; omega)
          simp only [e1, e2, e3, e4]

/-- The budget of `buildExpressionRange` is never exhausted. -/
theorem buildExpressionFuel_total (g : Token → BuiltInOperator) :
    ∀ (n : Nat) (operands : List ast.Expression) (ops : List Token),
      ops.length < n → buildExpressionFuel g n operands ops ≠ .error .OutOfFuel := by
  intro n
  induction n with
  | zero => intro operands ops h; omega
  | succ n ih =>
    intro operands ops hn
    unfold buildExpressionFuel
    by_cases h0 : ops.length = 0
    · rw [if_pos h0]
      cases operands <;> simp
    · rw [if_neg h0]
      cases hs : selectIndex g ops with
      | none => simp
      | some index =>
        have hlt := selectIndex_lt g ops index hs
        have e1 := ih (operands.take (index + 1)) (ops.take index)
          (by rw [List.length_take]; omega)
        have e2 := ih (operands.drop (index + 1)) (ops.drop (index + 1))
          (by rw [List.length_drop]; omega)
        have e3 : ∀ c, _ := fun c => ih ((operands.drop (index + 1)).take (c - index))
          ((ops.drop (index + 1)).take (c - index - 1))
          (by rw [List.length_take, List.length_drop]; omega)
        have e4 : ∀ c, _ := fun c => ih (operands.drop (c + 1)) (ops.drop (c + 1))
          (by rw [List.length_drop]; omega)
        simp only
        split_ifs
        · generalize buildExpressionFuel g n (operands.take (index + 1)) (ops.take index) = r1
            at e1 ⊢
          cases r1 with
          | error err => simpa using e1
          | ok cond =>
            simp only
            cases hc : colonSearch ops index (ops.length - 1) with
            | none => simp
            | some c =>
              simp only
              have e3c := e3 c
              have e4c := e4 c
              generalize buildExpressionFuel g n ((operands.drop (index + 1)).take (c - index))
                ((ops.drop (index + 1)).take (c - index - 1)) = r2 at e3c ⊢
              cases r2 with
              | error err => simpa using e3c
              | ok onTrue =>
                simp only
                generalize buildExpressionFuel g n (operands.drop (c + 1)) (ops.drop (c + 1))
                  = r3 at e4c ⊢
                cases r3 with
                | error err => simpa using e4c
                | ok onFalse => simp
        · generalize buildExpressionFuel g n (operands.take (index + 1)) (ops.take index) = r1
            at e1 ⊢
          cases r1 with
          | error err => simpa using e1
          | ok lhs =>
            simp only
            generalize buildExpressionFuel g n (operands.drop (index + 1)) (ops.drop (index + 1))
              = r2 at e2 ⊢
            cases r2 with
            | error err => simpa using e2
            | ok rhs => simp

/-- One call of `buildExpression` on a non-empty range whose selected operator
token is not `?`: the node is the operation of that token on the trees of the
two sides. -/
theorem buildExpressionFuel_operation (g : Token → BuiltInOperator) (n : Nat)
    (operands : List ast.Expression) (ops : List Token) (k : Nat) (L R : ast.Expression)
    (h0 : ops.length ≠ 0) (hs : selectIndex g ops = some k)
    (hq : (getOp ops k).type ≠ .QuestionMark)
    (hL : buildExpressionFuel g n (operands.take (k + 1)) (ops.take k) = .ok L)
    (hR : buildExpressionFuel g n (operands.drop (k + 1)) (ops.drop (k + 1)) = .ok R) :
    buildExpressionFuel g (n + 1) operands ops = .ok (.Operation (getOp ops k) L R) := by
  unfold buildExpressionFuel
  rw [if_neg h0]
  simp only [hs, if_neg hq, hL, hR]

/-- On `n + 1` operands and `n` infix operator tokens, none of them `?` or
`:`, `buildExpression` returns a node. -/
theorem buildExpressionFuel_binary (g : Token → BuiltInOperator) :
    ∀ (n : Nat) (operands : List ast.Expression) (ops : List Token),
      ops.length < n → operands.length = ops.length + 1 →
      (∀ t ∈ ops, isInfixToken g t) →
      ∃ e, buildExpressionFuel g n operands ops = .ok e := by
  intro n
  induction n with
  | zero => intro operands ops h; omega
  | succ n ih =>
    intro operands ops hn hlen hinf
    by_cases h0 : ops.length = 0
    · unfold buildExpressionFuel
      rw [if_pos h0]
      cases operands with
      | nil => simp at hlen
      | cons e rest => exact ⟨e, rfl⟩
    · have hne : ops ≠ [] := fun h => h0 (by rw [h]; rfl)
      have hp0 := (getPrecedence_binary g _ (hinf _ (getOp_mem ops 0 (by omega)))).2
      obtain ⟨k, hs, hk, _⟩ := selectIndex_spec g ops hne hp0
      obtain ⟨L, hL⟩ := ih (operands.take (k + 1)) (ops.take k)
        (by rw [List.length_take]; omega)
        (by rw [List.length_take, List.length_take]; omega)
        (fun t ht => hinf t (List.mem_of_mem_take ht))
      obtain ⟨R, hR⟩ := ih (operands.drop (k + 1)) (ops.drop (k + 1))
        (by rw [List.length_drop]; omega)
        (by rw [List.length_drop, List.length_drop]; omega)
        (fun t ht => hinf t (List.mem_of_mem_drop ht))
      exact ⟨_, buildExpressionFuel_operation g n operands ops k L R h0 hs
        (hinf _ (getOp_mem ops k hk)).1 hL hR⟩

/-- With one operand more than operator tokens, the two overloads of
`buildExpression` agree. -/
theorem buildExpression_eq_range (g : Token → BuiltInOperator)
    (operands : List ast.Expression) (ops : List Token)
    (hlen : operands.length = ops.length + 1) :
    buildExpression g operands ops = buildExpressionRange g operands ops := by
  cases operands with
  | nil => simp at hlen
  | cons e rest =>
    cases rest with
    | nil =>
      have : ops = [] := by
        cases ops with
        | nil => rfl
        | cons t ts => simp at hlen
      subst this
      rfl
    | cons e2 rest => rfl

/-- C19: for `n + 1` operands and `n ≥ 1` infix operator tokens, none of them
`?` or `:`, `buildExpression` returns `Operation(op_k, L, R)` where `op_k` has
the largest precedence group among the operators, no operator to its right has
the same group when the group is left-to-right and none to its left when it is
right-to-left, and `L` and `R` are what `buildExpression` returns on the
operands and operators on each side of `op_k`. So `1 + 2 * 3` has root `+` with
right operand `2 * 3`, `a - b - c` is `(a - b) - c` and `a = b = c` is
`a = (b = c)`. -/
theorem buildExpression_binary_operators (g : Token → BuiltInOperator) :
    (∀ (operands : List ast.Expression) (ops : List Token),
      operands.length = ops.length + 1 → ops ≠ [] → (∀ t ∈ ops, isInfixToken g t) →
      ∃ k L R, k < ops.length
        ∧ (∀ j, j < ops.length →
            Operator.precedence (g (getOp ops j)) ≤ Operator.precedence (g (getOp ops k)))
        ∧ (Operator.associativity (Operator.precedence (g (getOp ops k)))
              = some .LeftToRight →
            ∀ j, k < j → j < ops.length →
              Operator.precedence (g (getOp ops j)) < Operator.precedence (g (getOp ops k)))
        ∧ (Operator.associativity (Operator.precedence (g (getOp ops k)))
              = some .RightToLeft →
            ∀ j, j < k →
              Operator.precedence (g (getOp ops j)) < Operator.precedence (g (getOp ops k)))
        ∧ (Operator.associativity (Operator.precedence (g (getOp ops k))) = some .LeftToRight
            ∨ Operator.associativity (Operator.precedence (g (getOp ops k)))
                = some .RightToLeft)
        ∧ buildExpression g (operands.take (k + 1)) (ops.take k) = .ok L
        ∧ buildExpression g (operands.drop (k + 1)) (ops.drop (k + 1)) = .ok R
        ∧ buildExpression g operands ops = .ok (.Operation (getOp ops k) L R))
    ∧ buildExpression binaryOperatorId [.Operand 1, .Operand 2, .Operand 3]
          [tokenAt .Plus 1, tokenAt .Mul 3]
        = .ok (.Operation (tokenAt .Plus 1) (.Operand 1)
                (.Operation (tokenAt .Mul 3) (.Operand 2) (.Operand 3)))
    ∧ buildExpression binaryOperatorId [.Operand 1, .Operand 2, .Operand 3]
          [tokenAt .Minus 1, tokenAt .Minus 3]
        = .ok (.Operation (tokenAt .Minus 3)
                (.Operation (tokenAt .Minus 1) (.Operand 1) (.Operand 2)) (.Operand 3))
    ∧ buildExpression binaryOperatorId [.Operand 1, .Operand 2, .Operand 3]
          [tokenAt .Eq 1, tokenAt .Eq 3]
        = .ok (.Operation (tokenAt .Eq 1) (.Operand 1)
                (.Operation (tokenAt .Eq 3) (.Operand 2) (.Operand 3))) := by
  refine ⟨?_, rfl, rfl, rfl⟩
  intro operands ops hlen hne hinf
  have h0 : ops.length ≠ 0 := fun h => hne (List.length_eq_zero.mp h)
  have hprec : ∀ j, j < ops.length →
      getPrecedence g (getOp ops j) = Operator.precedence (g (getOp ops j))
        ∧ 1 ≤ getPrecedence g (getOp ops j) :=
    fun j hj => getPrecedence_binary g _ (hinf _ (getOp_mem ops j hj))
  obtain ⟨k, hs, hk, hmax, hl, hr⟩ := selectIndex_spec g ops hne (hprec 0 (by omega)).2
  have hlenL : (operands.take (k + 1)).length = (ops.take k).length + 1 := by
    rw [List.length_take, List.length_take]; omega
  have hlenR : (operands.drop (k + 1)).length = (ops.drop (k + 1)).length + 1 := by
    rw [List.length_drop, List.length_drop]; omega
  obtain ⟨L, hL⟩ := buildExpressionFuel_binary g ((ops.take k).length + 1)
    (operands.take (k + 1)) (ops.take k) (by omega) hlenL
    (fun t ht => hinf t (List.mem_of_mem_take ht))
  obtain ⟨R, hR⟩ := buildExpressionFuel_binary g ((ops.drop (k + 1)).length + 1)
    (operands.drop (k + 1)) (ops.drop (k + 1)) (by omega) hlenR
    (fun t ht => hinf t (List.mem_of_mem_drop ht))
  have hkp := hprec k hk
  refine ⟨k, L, R, hk, ?_, ?_, ?_, ?_, ?_, ?_, ?_⟩
  · intro j hj
    rw [← (hprec j hj).1, ← hkp.1]; exact hmax j hj
  · intro ha j hj1 hj2
    rw [← (hprec j hj2).1, ← hkp.1]
    exact hl (by rw [hkp.1]; exact ha) j hj1 hj2
  · intro ha j hj
    rw [← (hprec j (by omega)).1, ← hkp.1]
    exact hr (by rw [hkp.1]; exact ha) j hj
  · exact Operator.associativity_defined _ (hkp.1 ▸ hkp.2) (Operator.precedence_le _)
  · rw [buildExpression_eq_range g _ _ hlenL]; exact hL
  · rw [buildExpression_eq_range g _ _ hlenR]; exact hR
  · rw [buildExpression_eq_range g _ _ hlen]
    unfold buildExpressionRange
    refine buildExpressionFuel_operation g ops.length operands ops k L R h0 hs
      (hinf _ (getOp_mem ops k hk)).1 ?_ ?_
    · rw [buildExpressionFuel_fuel g ops.length ((ops.take k).length + 1) _ _
        (by rw [List.length_take]; omega) (by omega)]
      exact hL
    · rw [buildExpressionFuel_fuel g ops.length ((ops.drop (k + 1)).length + 1) _ _
        (by rw [List.length_drop]; omega) (by omega)]
      exact hR

/-- Witness of C19: on `1 + 2 * 3` the hypotheses hold, so the root is an
operation on the trees of the two sides of an operator of the largest group. -/
theorem buildExpression_binary_operators_witness :
    ∃ k L R, k < [tokenAt .Plus 1, tokenAt .Mul 3].length
      ∧ buildExpression binaryOperatorId [.Operand 1, .Operand 2, .Operand 3]
          [tokenAt .Plus 1, tokenAt .Mul 3]
        = .ok (.Operation (getOp [tokenAt .Plus 1, tokenAt .Mul 3] k) L R) := by
  obtain ⟨k, L, R, hk, _, _, _, _, _, _, h⟩ :=
    (buildExpression_binary_operators binaryOperatorId).1 [.Operand 1, .Operand 2, .Operand 3]
      [tokenAt .Plus 1, tokenAt .Mul 3] (by decide) (by decide)
      (by intro t ht
          simp only [List.mem_cons, List.mem_singleton, List.not_mem_nil, or_false] at ht
          rcases ht with rfl | rfl <;> exact ⟨by decide, by decide, by decide⟩)
  exact ⟨k, L, R, hk, h⟩

/-- The token at a position of the left part of a range. -/
theorem getOp_append_left (A X : List Token) (j : Nat) (h : j < A.length) :
    getOp (A ++ X) j = getOp A j := by
  unfold getOp
  rw [List.getD_eq_getElem?_getD, List.getD_eq_getElem?_getD, List.getElem?_append_left h]

/-- The token at a position of the right part of a range. -/
theorem getOp_append_right (A X : List Token) (j : Nat) (h : A.length ≤ j) :
    getOp (A ++ X) j = getOp X (j - A.length) := by
  unfold getOp
  rw [List.getD_eq_getElem?_getD, List.getD_eq_getElem?_getD, List.getElem?_append_right h]

/-- The token at the position that follows a part `A` of the range. -/
theorem getOp_middle (A X : List Token) (q : Token) : getOp (A ++ q :: X) A.length = q := by
  rw [getOp_append_right A _ _ (le_refl _), Nat.sub_self]; rfl

/-- The tokens after the position that follows a part `A` of the range. -/
theorem getOp_after (A X : List Token) (q : Token) (j : Nat) (h : A.length < j) :
    getOp (A ++ q :: X) j = getOp X (j - A.length - 1) := by
  rw [getOp_append_right A _ _ (by omega)]
  obtain ⟨d, hd⟩ : ∃ d, j - A.length = d + 1 := ⟨j - A.length - 1, by omega⟩
  rw [hd]
  simp only [getOp, List.getD_cons_succ, Nat.add_sub_cancel]

/-- When one operator token of group 14 has only tokens of smaller precedence
around it, and the first token of the range has a precedence of at least 1,
the selection loop of `buildExpression` ends on it. -/
theorem selectIndex_unique (g : Token → BuiltInOperator) (ops : List Token) (k0 : Nat)
    (hk0 : k0 < ops.length) (h1 : 1 ≤ getPrecedence g (getOp ops 0))
    (hlt : ∀ j, j < ops.length → j ≠ k0 →
      getPrecedence g (getOp ops j) < getPrecedence g (getOp ops k0)) :
    selectIndex g ops = some k0 := by
  have hne : ops ≠ [] := fun h => by rw [h] at hk0; simp at hk0
  obtain ⟨k, hs, hk, hmax, _⟩ := selectIndex_spec g ops hne h1
  have : k = k0 := by
    by_contra hc
    have a := hlt k hk hc
    have b := hmax k0 hk0
    omega
  rw [hs, this]

/-- The search of the colon finds the last colon to the right of `index`. -/
theorem colonSearch_some (ops : List Token) (index m : Nat) (hm : index < m)
    (hc : (getOp ops m).type = .Colon) :
    ∀ j, m ≤ j → (∀ i, m < i → i ≤ j → (getOp ops i).type ≠ .Colon) →
      colonSearch ops index j = some m := by
  intro j
  induction j with
  | zero => intro h; omega
  | succ j ih =>
    intro hmj hno
    rw [colonSearch, if_pos (by omega)]
    by_cases hj : m = j + 1
    · subst hj
      rw [if_pos hc]
    · rw [if_neg (hno (j + 1) (by omega) (le_refl _))]
      exact ih (by omega) (fun i hi1 hi2 => hno i hi1 (by omega))

/-- The search of the colon fails when no colon stands to the right of
`index`. -/
theorem colonSearch_none (ops : List Token) (index : Nat) :
    ∀ j, (∀ i, index < i → i ≤ j → (getOp ops i).type ≠ .Colon) →
      colonSearch ops index j = none := by
  intro j
  induction j with
  | zero => intro _; rfl
  | succ j ih =>
    intro hno
    rw [colonSearch]
    by_cases hj : j + 1 > index
    · rw [if_pos hj, if_neg (hno (j + 1) hj (le_refl _))]
      exact ih (fun i hi1 hi2 => hno i hi1 (by omega))
    · rw [if_neg hj]

/-- An operator token that binds tighter than group 14 has, in
`buildExpression`, a precedence from 1 to 13. -/
theorem getPrecedence_tighter (g : Token → BuiltInOperator) (tok : Token)
    (h : bindsTighter g tok) :
    1 ≤ getPrecedence g tok ∧ getPrecedence g tok < 14 := by
  have := getPrecedence_binary g tok h.1
  exact ⟨this.2, this.1 ▸ h.2⟩

/-- The precedence that `buildExpression` gives `?` is 14 and the one it gives
`:` is -66. -/
theorem getPrecedence_conditional (g : Token → BuiltInOperator) (q c : Token)
    (hq : q.type = .QuestionMark) (hc : c.type = .Colon) :
    getPrecedence g q = 14 ∧ getPrecedence g c = -66 := by
  unfold getPrecedence
  rw [if_pos hc, hq]
  refine ⟨?_, rfl⟩
  rw [if_neg (by decide), if_pos rfl]
  decide

/-- One call of `buildExpression` on a range whose selected operator token is
`?`, with a colon found to its right: the node is the conditional expression of
the trees of the three parts. -/
theorem buildExpressionFuel_conditional (g : Token → BuiltInOperator) (n : Nat)
    (operands : List ast.Expression) (ops : List Token) (k ci : Nat)
    (cond onTrue onFalse : ast.Expression)
    (h0 : ops.length ≠ 0) (hs : selectIndex g ops = some k)
    (hq : (getOp ops k).type = .QuestionMark)
    (h1 : buildExpressionFuel g n (operands.take (k + 1)) (ops.take k) = .ok cond)
    (hc : colonSearch ops k (ops.length - 1) = some ci)
    (h2 : buildExpressionFuel g n ((operands.drop (k + 1)).take (ci - k))
            ((ops.drop (k + 1)).take (ci - k - 1)) = .ok onTrue)
    (h3 : buildExpressionFuel g n (operands.drop (ci + 1)) (ops.drop (ci + 1)) = .ok onFalse) :
    buildExpressionFuel g (n + 1) operands ops
      = .ok (.ConditionalExpression cond (getOp ops k) onTrue (getOp ops ci) onFalse) := by
  unfold buildExpressionFuel
  rw [if_neg h0]
  simp only [hs, if_pos hq, h1, hc, h2, h3]

/-- One call of `buildExpression` on a range whose selected operator token is
`?`, with no colon to its right, after the condition has been built. -/
theorem buildExpressionFuel_missing_colon (g : Token → BuiltInOperator) (n : Nat)
    (operands : List ast.Expression) (ops : List Token) (k : Nat) (cond : ast.Expression)
    (h0 : ops.length ≠ 0) (hs : selectIndex g ops = some k)
    (hq : (getOp ops k).type = .QuestionMark)
    (h1 : buildExpressionFuel g n (operands.take (k + 1)) (ops.take k) = .ok cond)
    (hc : colonSearch ops k (ops.length - 1) = none) :
    buildExpressionFuel g (n + 1) operands ops = .error .MissingConditionalColon := by
  unfold buildExpressionFuel
  rw [if_neg h0]
  simp only [hs, if_pos hq, h1, hc]

/-- The tree of a sequence of operands separated by operator tokens that bind
tighter than group 14, with any sufficient budget. -/
theorem buildExpression_tighter (g : Token → BuiltInOperator) (n : Nat)
    (operands : List ast.Expression) (ops : List Token)
    (hn : ops.length < n) (hlen : operands.length = ops.length + 1)
    (ht : ∀ t ∈ ops, bindsTighter g t) :
    ∃ e, buildExpression g operands ops = .ok e
      ∧ buildExpressionFuel g n operands ops = .ok e := by
  obtain ⟨e, he⟩ := buildExpressionFuel_binary g n operands ops hn hlen (fun t h => (ht t h).1)
  refine ⟨e, ?_, he⟩
  rw [buildExpression_eq_range g _ _ hlen]
  unfold buildExpressionRange
  rw [buildExpressionFuel_fuel g (ops.length + 1) n _ _ (by omega) hn]
  exact he

/-- In a range `A ? X` where the operator tokens of `A` bind tighter than group
14 and those of `X` are such tokens or colons, the selection loop of
`buildExpression` ends on the `?`. -/
theorem selectIndex_question (g : Token → BuiltInOperator) (A X : List Token) (q : Token)
    (hq : q.type = .QuestionMark) (hA : ∀ t ∈ A, bindsTighter g t)
    (hX : ∀ t ∈ X, bindsTighter g t ∨ t.type = .Colon) :
    selectIndex g (A ++ q :: X) = some A.length := by
  have hpq : getPrecedence g q = 14 := by
    unfold getPrecedence
    rw [hq, if_neg (by decide), if_pos rfl]
    decide
  have hlen : (A ++ q :: X).length = A.length + 1 + X.length := by
    simp only [List.length_append, List.length_cons]; omega
  refine selectIndex_unique g _ A.length (by omega) ?_ ?_
  · by_cases hA0 : A.length = 0
    · have := getOp_middle A X q
      rw [hA0] at this
      rw [this, hpq]; decide
    · rw [getOp_append_left A _ 0 (by omega)]
      exact (getPrecedence_tighter g _ (hA _ (getOp_mem A 0 (by omega)))).1
  · intro j hj hne
    rw [getOp_middle, hpq]
    by_cases hjA : j < A.length
    · rw [getOp_append_left A _ j hjA]
      exact (getPrecedence_tighter g _ (hA _ (getOp_mem A j hjA))).2
    · rw [getOp_after A X q j (by omega)]
      rcases hX _ (getOp_mem X (j - A.length - 1) (by omega)) with h | h
      · exact (getPrecedence_tighter g _ h).2
      · unfold getPrecedence
        rw [if_pos h]; decide

/-- C20: for operand sequences `a`, `b`, `c` whose operator tokens all bind
tighter than group 14, separated by a `?` token and a `:` token,
`buildExpression` returns the conditional expression whose condition, true
branch and false branch are the trees of `a`, `b` and `c`, carrying the two
tokens; and for `a ? b` with no colon it raises `MissingConditionalColon`. -/
theorem buildExpression_conditional (g : Token → BuiltInOperator) :
    (∀ (A B C : List Token) (q c : Token) (oa ob oc : List ast.Expression),
      q.type = .QuestionMark → c.type = .Colon →
      (∀ t ∈ A, bindsTighter g t) → (∀ t ∈ B, bindsTighter g t) →
      (∀ t ∈ C, bindsTighter g t) →
      oa.length = A.length + 1 → ob.length = B.length + 1 → oc.length = C.length + 1 →
      ∃ ea eb ec,
        buildExpression g oa A = .ok ea
        ∧ buildExpression g ob B = .ok eb
        ∧ buildExpression g oc C = .ok ec
        ∧ buildExpression g (oa ++ (ob ++ oc)) (A ++ q :: (B ++ c :: C))
            = .ok (.ConditionalExpression ea q eb c ec))
    ∧ (∀ (A B : List Token) (q : Token) (oa ob : List ast.Expression),
      q.type = .QuestionMark →
      (∀ t ∈ A, bindsTighter g t) → (∀ t ∈ B, bindsTighter g t) →
      oa.length = A.length + 1 → ob.length = B.length + 1 →
      buildExpression g (oa ++ ob) (A ++ q :: B) = .error .MissingConditionalColon) := by
  refine ⟨?_, ?_⟩
  · intro A B C q c oa ob oc hq hc hA hB hC hoa hob hoc
    have hlen : (A ++ q :: (B ++ c :: C)).length = A.length + 1 + (B.length + 1 + C.length) := by
      simp only [List.length_append, List.length_cons]; omega
    have holen : (oa ++ (ob ++ oc)).length = (A ++ q :: (B ++ c :: C)).length + 1 := by
      rw [hlen]; simp only [List.length_append]; omega
    have hX : ∀ t ∈ B ++ c :: C, bindsTighter g t ∨ t.type = .Colon := by
      intro t ht
      rcases List.mem_append.mp ht with h | h
      · exact Or.inl (hB t h)
      · rcases List.mem_cons.mp h with h | h
        · exact Or.inr (h ▸ hc)
        · exact Or.inl (hC t h)
    have hs := selectIndex_question g A (B ++ c :: C) q hq hA hX
    have hqk : (getOp (A ++ q :: (B ++ c :: C)) A.length).type = .QuestionMark := by
      rw [getOp_middle]; exact hq
    have hci : getOp (A ++ q :: (B ++ c :: C)) (A.length + 1 + B.length) = c := by
      rw [getOp_after A _ q _ (by omega)]
      have : A.length + 1 + B.length - A.length - 1 = B.length := by omega
      rw [this, getOp_middle]
    have hcs : colonSearch (A ++ q :: (B ++ c :: C)) A.length
        ((A ++ q :: (B ++ c :: C)).length - 1) = some (A.length + 1 + B.length) := by
      refine colonSearch_some _ _ _ (by omega) (by rw [hci]; exact hc) _ (by rw [hlen]; omega) ?_
      intro i hi1 hi2
      rw [hlen] at hi2
      rw [getOp_after A _ q i (by omega), getOp_after B C c _ (by omega)]
      exact (hC _ (getOp_mem C _ (by omega))).1.2.1
    have t1 : (A ++ q :: (B ++ c :: C)).take A.length = A := List.take_left' rfl
    have t2 : (oa ++ (ob ++ oc)).take (A.length + 1) = oa := List.take_left' hoa
    have d1 : (A ++ q :: (B ++ c :: C)).drop (A.length + 1) = B ++ c :: C := by
      rw [List.append_cons]
      exact List.drop_left' (by simp)
    have d2 : (oa ++ (ob ++ oc)).drop (A.length + 1) = ob ++ oc := List.drop_left' hoa
    have t3 : (B ++ c :: C).take (A.length + 1 + B.length - A.length - 1) = B :=
      List.take_left' (by omega)
    have t4 : (ob ++ oc).take (A.length + 1 + B.length - A.length) = ob :=
      List.take_left' (by omega)
    have d3 : (A ++ q :: (B ++ c :: C)).drop (A.length + 1 + B.length + 1) = C := by
      have : A ++ q :: (B ++ c :: C) = (A ++ [q] ++ B ++ [c]) ++ C := by simp
      rw [this]
      exact List.drop_left' (by simp; omega)
    have d4 : (oa ++ (ob ++ oc)).drop (A.length + 1 + B.length + 1) = oc := by
      rw [← List.append_assoc]
      exact List.drop_left' (by simp; omega)
    obtain ⟨ea, hea, hea2⟩ := buildExpression_tighter g (A ++ q :: (B ++ c :: C)).length
      oa A (by omega) hoa hA
    obtain ⟨eb, heb, heb2⟩ := buildExpression_tighter g (A ++ q :: (B ++ c :: C)).length
      ob B (by omega) hob hB
    obtain ⟨ec, hec, hec2⟩ := buildExpression_tighter g (A ++ q :: (B ++ c :: C)).length
      oc C (by omega) hoc hC
    refine ⟨ea, eb, ec, hea, heb, hec, ?_⟩
    rw [buildExpression_eq_range g _ _ holen]
    unfold buildExpressionRange
    have := buildExpressionFuel_conditional g (A ++ q :: (B ++ c :: C)).length
      (oa ++ (ob ++ oc)) (A ++ q :: (B ++ c :: C)) A.length (A.length + 1 + B.length)
      ea eb ec (by omega) hs hqk (by rw [t1, t2]; exact hea2) hcs
      (by rw [d1, d2, t3, t4]; exact heb2) (by rw [d3, d4]; exact hec2)
    rw [this, getOp_middle, hci]
  · intro A B q oa ob hq hA hB hoa hob
    have hlen : (A ++ q :: B).length = A.length + 1 + B.length := by
      simp only [List.length_append, List.length_cons]; omega
    have holen : (oa ++ ob).length = (A ++ q :: B).length + 1 := by
      rw [hlen]; simp only [List.length_append]; omega
    have hs := selectIndex_question g A B q hq hA (fun t ht => Or.inl (hB t ht))
    have hqk : (getOp (A ++ q :: B) A.length).type = .QuestionMark := by
      rw [getOp_middle]; exact hq
    have hcs : colonSearch (A ++ q :: B) A.length ((A ++ q :: B).length - 1) = none := by
      refine colonSearch_none _ _ _ ?_
      intro i hi1 hi2
      rw [hlen] at hi2
      rw [getOp_after A B q i hi1]
      exact (hB _ (getOp_mem B _ (by omega))).1.2.1
    have t1 : (A ++ q :: B).take A.length = A := List.take_left' rfl
    have t2 : (oa ++ ob).take (A.length + 1) = oa := List.take_left' hoa
    obtain ⟨ea, _, hea2⟩ := buildExpression_tighter g (A ++ q :: B).length
      oa A (by omega) hoa hA
    rw [buildExpression_eq_range g _ _ holen]
    unfold buildExpressionRange
    exact buildExpressionFuel_missing_colon g (A ++ q :: B).length (oa ++ ob) (A ++ q :: B)
      A.length ea (by omega) hs hqk (by rw [t1, t2]; exact hea2) hcs

/-- Witness of C20: `x + 1 ? 2 * y : z` is the conditional expression of
`x + 1`, `2 * y` and `z`. -/
theorem buildExpression_conditional_witness :
    ∃ ea eb ec,
      buildExpression binaryOperatorId [.Operand 1, .Operand 2] [tokenAt .Plus 2] = .ok ea
      ∧ buildExpression binaryOperatorId [.Operand 3, .Operand 4] [tokenAt .Mul 8] = .ok eb
      ∧ buildExpression binaryOperatorId [.Operand 5] [] = .ok ec
      ∧ buildExpression binaryOperatorId
          ([.Operand 1, .Operand 2] ++ ([.Operand 3, .Operand 4] ++ [.Operand 5]))
          ([tokenAt .Plus 2] ++ tokenAt .QuestionMark 6
            :: ([tokenAt .Mul 8] ++ tokenAt .Colon 12 :: []))
        = .ok (.ConditionalExpression ea (tokenAt .QuestionMark 6) eb (tokenAt .Colon 12) ec) :=
  (buildExpression_conditional binaryOperatorId).1 [tokenAt .Plus 2] [tokenAt .Mul 8] []
    (tokenAt .QuestionMark 6) (tokenAt .Colon 12)
    [.Operand 1, .Operand 2] [.Operand 3, .Operand 4] [.Operand 5] rfl rfl
    (by intro t ht
        simp only [List.mem_singleton] at ht
        subst ht
        exact ⟨⟨by decide, by decide, by decide⟩, by decide⟩)
    (by intro t ht
        simp only [List.mem_singleton] at ht
        subst ht
        exact ⟨⟨by decide, by decide, by decide⟩, by decide⟩)
    (by intro t ht; exact absurd ht (List.not_mem_nil t))
    rfl rfl rfl

/-- C21 (the code at the failing input): on the operands `a, b, c, d, e` and
the operator tokens `? : ? :` of `a ? b : c ? d : e`, `buildExpression` selects
the first `?`, takes the last colon for it, and fails with
`MissingConditionalColon` on the range `b : c ? d` between them, whatever the
operator table; the nested conditional expression is not returned. -/
theorem buildExpression_chain_of_conditionals (g : Token → BuiltInOperator)
    (a b c d e : ast.Expression) :
    selectIndex g [tokenAt .QuestionMark 2, tokenAt .Colon 6, tokenAt .QuestionMark 10,
        tokenAt .Colon 14] = some 0
    ∧ colonSearch [tokenAt .QuestionMark 2, tokenAt .Colon 6, tokenAt .QuestionMark 10,
        tokenAt .Colon 14] 0 3 = some 3
    ∧ buildExpressionRange g [b, c, d] [tokenAt .Colon 6, tokenAt .QuestionMark 10]
        = .error .MissingConditionalColon
    ∧ buildExpression g [a, b, c, d, e]
        [tokenAt .QuestionMark 2, tokenAt .Colon 6, tokenAt .QuestionMark 10,
          tokenAt .Colon 14]
      = .error .MissingConditionalColon
    ∧ buildExpression g [a, b, c, d, e]
        [tokenAt .QuestionMark 2, tokenAt .Colon 6, tokenAt .QuestionMark 10,
          tokenAt .Colon 14]
      ≠ .ok (.ConditionalExpression a (tokenAt .QuestionMark 2) b (tokenAt .Colon 6)
          (.ConditionalExpression c (tokenAt .QuestionMark 10) d (tokenAt .Colon 14) e)) := by
  refine ⟨rfl, rfl, rfl, rfl, ?_⟩
  have h : buildExpression g [a, b, c, d, e]
      [tokenAt .QuestionMark 2, tokenAt .Colon 6, tokenAt .QuestionMark 10,
        tokenAt .Colon 14] = .error .MissingConditionalColon := rfl
  rw [h]
  intro hc
  cases hc

/-- C23: when the token at the index is a `>>` at offset `p`, `consumeEnd` on
an inner template argument list (flag not set) whose grandparent is the
enclosing list sets the flag of the enclosing list, leaves the parser data as
it is and records a `RightAngle` of length 1 at offset `p`; `consumeComma` on
the argument fragment in between reads nothing when the fragment around the
enclosing list is not at its end (or is itself an argument fragment); and
`consumeEnd` on the enclosing list then reads the `>>`, the index advancing by
one, and records a `RightAngle` of length 1 at offset `p + 1`. -/
theorem TemplateArgumentListFragment.consumeEnd_right_shift (data : ParserData) (tok : Token)
    (P : AbstractFragment) (ra rao : Token) (flagO : Bool)
    (hlt : data.mIndex < data.mBuffer.length)
    (htok : data.mBuffer.getD data.mIndex {} = tok)
    (hty : tok.type = .RightRightAngle) :
    TemplateArgumentListFragment.consumeEnd data
        (.TemplateArgumentListFragment false ra
          (.TemplateArgumentFragment (.TemplateArgumentListFragment flagO rao P)))
      = .ok (.TemplateArgumentListFragment false
              { tok with type := .RightAngle, length := 1 }
              (.TemplateArgumentFragment (.TemplateArgumentListFragment true rao P)), data)
    ∧ ((P.atEnd data = .ok false
          ∨ (P.atEnd data = .ok true ∧ P.isTemplateArgumentFragment = true)) →
        TemplateArgumentFragment.consumeComma data
          (.TemplateArgumentFragment (.TemplateArgumentListFragment true rao P))
        = .ok ((), data))
    ∧ TemplateArgumentListFragment.consumeEnd data (.TemplateArgumentListFragment true rao P)
      = .ok (.TemplateArgumentListFragment true
              { tok with type := .RightAngle, length := 1, pos := tok.pos + 1 } P,
             { data with mIndex := data.mIndex + 1 })
    ∧ ({ tok with type := TokenType.RightAngle, length := 1 } : Token).pos = tok.pos
    ∧ ({ tok with type := TokenType.RightAngle, length := 1, pos := tok.pos + 1 } : Token).pos
        = tok.pos + 1 := by
  have hpeek : data.peek = .ok tok := by
    simp only [ParserData.peek, ParserData.atEnd, hlt, if_true, htok]
    rfl
  refine ⟨?_, ?_, ?_, rfl, rfl⟩
  · simp only [TemplateArgumentListFragment.consumeEnd, hpeek, hty, if_true,
      AbstractFragment.parent, AbstractFragment.withParent]
    rfl
  · intro hP
    have hend : (AbstractFragment.TemplateArgumentListFragment true rao P).atEnd data
        = .ok true := by
      rcases hP with h | ⟨h, h2⟩
      · simp [AbstractFragment.atEnd, h, hpeek, hty]
      · simp [AbstractFragment.atEnd, h, h2, hpeek, hty]
    simp only [TemplateArgumentFragment.consumeComma, hend]
  · simp only [TemplateArgumentListFragment.consumeEnd, hpeek, hty, if_true,
      ParserData.unsafe_read, htok]

/-- Witness of C23: on `A<B<C>>` with the index on the `>>` at offset 5, the
list of `B` closes at offset 5 without reading, and the list of `A` closes at
offset 6 and reads the token. -/
theorem TemplateArgumentListFragment.consumeEnd_right_shift_witness :
    TemplateArgumentListFragment.consumeEnd { mBuffer := nestedTemplateTokens, mIndex := 5 }
        (.TemplateArgumentListFragment false {}
          (.TemplateArgumentFragment
            (.TemplateArgumentListFragment false {} .ScriptFragment)))
      = .ok (.TemplateArgumentListFragment false
              { type := .RightAngle, pos := 5, length := 1, column := 5 }
              (.TemplateArgumentFragment
                (.TemplateArgumentListFragment true {} .ScriptFragment)),
             { mBuffer := nestedTemplateTokens, mIndex := 5 })
    ∧ TemplateArgumentListFragment.consumeEnd { mBuffer := nestedTemplateTokens, mIndex := 5 }
        (.TemplateArgumentListFragment true {} .ScriptFragment)
      = .ok (.TemplateArgumentListFragment true
              { type := .RightAngle, pos := 6, length := 1, column := 5 } .ScriptFragment,
             { mBuffer := nestedTemplateTokens, mIndex := 6 }) :=
  ⟨(TemplateArgumentListFragment.consumeEnd_right_shift
      { mBuffer := nestedTemplateTokens, mIndex := 5 }
      { type := .RightShift, pos := 5, length := 2, column := 5 } .ScriptFragment {} {} false
      (by decide) rfl rfl).1,
   (TemplateArgumentListFragment.consumeEnd_right_shift
      { mBuffer := nestedTemplateTokens, mIndex := 5 }
      { type := .RightShift, pos := 5, length := 2, column := 5 } .ScriptFragment {} {} false
      (by decide) rfl rfl).2.2.1⟩

/-- The loop of `Parser::parse` logs nothing and does not flag the tree: it
only adds statements after those that the tree holds. -/
theorem Parser.parseStatements_keeps (env : ParserEnv) (fuel : Nat) :
    ∀ (n : Nat) (data : ParserData) (ret : ast.AST),
      (Parser.parseStatements env fuel n data ret).1.messages = ret.messages
      ∧ (Parser.parseStatements env fuel n data ret).1.hasErrors = ret.hasErrors
      ∧ ret.statements <+: (Parser.parseStatements env fuel n data ret).1.statements := by
  intro n
  induction n with
  | zero => intro data ret; exact ⟨rfl, rfl, List.prefix_refl _⟩
  | succ n ih =>
    intro data ret
    unfold Parser.parseStatements
    by_cases hend : data.atEnd = true
    · rw [if_pos hend]; exact ⟨rfl, rfl, List.prefix_refl _⟩
    · rw [if_neg hend]
      cases hs : ProgramParser.parseStatement env .ScriptFragment fuel data with
      | error ex => exact ⟨rfl, rfl, List.prefix_refl _⟩
      | ok r =>
        obtain ⟨stmt, data1⟩ := r
        have h := ih data1.clearBuffer { ret with statements := ret.statements ++ [stmt] }
        exact ⟨h.1, h.2.1, (List.prefix_append _ _).trans h.2.2⟩

/-- C22 (counterexample): on `friend ; friend` the first statement raises
`IllegalUseOfKeyword`; the `;` that follows is a well-formed null statement and
the second `friend` raises again when parsed from its position, and yet
`Parser::parse` returns a tree without any statement and with one message. -/
theorem Parser.parse_friend_tokens :
    Parser.parse simpleParserEnv 8 8 friendTokens 15
      = .ok { statements := [], hasErrors := true,
              messages := [(.IllegalUseOfKeyword, { pos := 0, line := 0, col := 0 })] }
    ∧ ProgramParser.parseStatement simpleParserEnv .ScriptFragment 8
        { mBuffer := friendTokens, mIndex := 1 }
      = .ok (.NullStatement (tokenAt .Semicolon 7), { mBuffer := friendTokens, mIndex := 2 })
    ∧ ProgramParser.parseStatement simpleParserEnv .ScriptFragment 8
        { mBuffer := friendTokens, mIndex := 2 }
      = .error (.SyntaxError .IllegalUseOfKeyword, { mBuffer := friendTokens, mIndex := 2 }) := by
  refine ⟨rfl, rfl, rfl⟩

/-- C22 (amended): when a top-level statement raises a `SyntaxError`, the loop
of `Parser::parse` is left at once, whatever follows; the tree returned holds
the statements parsed before, is flagged `hasErrors` and has the one message of
that error. A tree returned by `Parser::parse` never has more than one
message, and it has one exactly when it is flagged. -/
theorem Parser.parse_stops_at_first_error (env : ParserEnv) (fuel : Nat) :
    (∀ (n : Nat) (data : ParserData) (ret : ast.AST) (e : ParserError) (d : ParserData),
      data.atEnd = false →
      ProgramParser.parseStatement env .ScriptFragment fuel data = .error (.SyntaxError e, d) →
      Parser.parseStatements env fuel (n + 1) data ret = (ret, some (.SyntaxError e, d)))
    ∧ (∀ (loopFuel : Nat) (tokens : List Token) (len : Nat) (ret : ast.AST)
        (e : ParserError) (d : ParserData),
      Parser.parseStatements env fuel loopFuel { mBuffer := tokens, mIndex := 0 } {}
        = (ret, some (.SyntaxError e, d)) →
      Parser.parse env fuel loopFuel tokens len
        = .ok { statements := ret.statements, hasErrors := true,
                messages := [(e, ParserBase.location len d)] })
    ∧ (∀ (loopFuel : Nat) (tokens : List Token) (len : Nat) (tree : ast.AST),
      Parser.parse env fuel loopFuel tokens len = .ok tree →
      tree.messages.length ≤ 1 ∧ (tree.hasErrors = true ↔ tree.messages.length = 1)) := by
  refine ⟨?_, ?_, ?_⟩
  · intro n data ret e d hend hs
    unfold Parser.parseStatements
    rw [if_neg (by simp [hend])]
    simp only [hs]
  · intro loopFuel tokens len ret e d h
    have hk := Parser.parseStatements_keeps env fuel loopFuel { mBuffer := tokens, mIndex := 0 } {}
    rw [h] at hk
    simp only at hk
    unfold Parser.parse
    rw [h]
    simp only [hk.1, List.nil_append]
  · intro loopFuel tokens len tree h
    have hk := Parser.parseStatements_keeps env fuel loopFuel { mBuffer := tokens, mIndex := 0 } {}
    unfold Parser.parse at h
    generalize Parser.parseStatements env fuel loopFuel { mBuffer := tokens, mIndex := 0 } {}
      = r at h hk
    obtain ⟨ret, o⟩ := r
    simp only at hk
    cases o with
    | none =>
      simp only [Except.ok.injEq] at h
      subst h
      rw [hk.1, hk.2.1]
      simp
    | some p =>
      obtain ⟨ex, d⟩ := p
      cases ex with
      | SyntaxError e =>
        simp only [Except.ok.injEq] at h
        subst h
        rw [hk.1]
        simp
      | RuntimeError => simp at h
      | OutOfFuel => simp at h

/-- Witness of C22 (amended): on `; break break ; break ;` the null statement
is added, the second statement raises `UnexpectedToken`, and the tree returned
holds the null statement only, with one message. -/
theorem Parser.parse_stops_at_first_error_witness :
    Parser.parse simpleParserEnv 8 8 breakTokens 23
      = .ok { statements := [.NullStatement (tokenAt .Semicolon 0)], hasErrors := true,
              messages := [(.UnexpectedToken,
                ParserBase.location 23
                  { mBuffer := breakTokens.drop 1, mIndex := 2 })] } :=
  (Parser.parse_stops_at_first_error simpleParserEnv 8).2.1 8 breakTokens 23
    { statements := [.NullStatement (tokenAt .Semicolon 0)] } .UnexpectedToken
    { mBuffer := breakTokens.drop 1, mIndex := 2 } rfl

/-- The loop of `ExpressionParser::parse` ends only when its fragment is at its
end. -/
theorem ExpressionParser.parseLoop_atEnd (env : ParserEnv) (frag : AbstractFragment) :
    ∀ (n : Nat) (operands : List ast.Expression) (operators : List Token) (data : ParserData)
      (r : List ast.Expression × List Token) (d : ParserData),
      ExpressionParser.parseLoop env frag n operands operators data = .ok (r, d) →
      frag.atEnd d = .ok true := by
  intro n
  induction n with
  | zero => intro operands operators data r d h; simp [ExpressionParser.parseLoop] at h
  | succ n ih =>
    intro operands operators data r d h
    unfold ExpressionParser.parseLoop at h
    cases he : frag.atEnd data with
    | error ex => rw [he] at h; simp at h
    | ok b =>
      rw [he] at h
      cases b with
      | true =>
        simp only [Except.ok.injEq, Prod.mk.injEq] at h
        rw [← h.2]; exact he
      | false =>
        simp only at h
        cases hb : ExpressionParser.readBinaryOperator env frag data with
        | error ex => rw [hb] at h; simp at h
        | ok p =>
          obtain ⟨operation, data1⟩ := p
          rw [hb] at h
          simp only at h
          cases ho : env.readOperand frag data1 with
          | error ex => rw [ho] at h; simp at h
          | ok q =>
            obtain ⟨operand, data2⟩ := q
            rw [ho] at h
            exact ih _ _ _ _ _ h

/-- When `ExpressionParser::parse` returns, its fragment is at its end. -/
theorem ExpressionParser.parse_atEnd (env : ParserEnv) (frag : AbstractFragment) (fuel : Nat)
    (data : ParserData) (expr : ast.Expression) (d : ParserData)
    (h : ExpressionParser.parse env frag fuel data = .ok (expr, d)) :
    frag.atEnd d = .ok true := by
  unfold ExpressionParser.parse at h
  cases ho : env.readOperand frag data with
  | error ex => rw [ho] at h; simp at h
  | ok q =>
    obtain ⟨operand, data1⟩ := q
    rw [ho] at h
    simp only at h
    cases hl : ExpressionParser.parseLoop env frag fuel [operand] [] data1 with
    | error ex => rw [hl] at h; simp at h
    | ok r =>
      obtain ⟨⟨operands, operators⟩, data2⟩ := r
      rw [hl] at h
      simp only at h
      cases hb : buildExpression env.getOperatorId operands operators with
      | error err => rw [hb] at h; simp at h
      | ok e =>
        rw [hb] at h
        simp only [Except.ok.injEq, Prod.mk.injEq] at h
        rw [← h.2]
        exact ExpressionParser.parseLoop_atEnd env frag fuel _ _ _ _ _ hl

/-- C24: when `detectDecl` reports that the statement is not a declaration,
whatever tokens it has read, `parseAmbiguous` parses an expression from the
position at entry, in a fragment that ends at `;`, and reads one more token.
It returns a statement exactly when the expression parser returns with a token
left: that token is the `;` on which the expression parser stopped, the
statement is the expression statement of the expression and of that token, and
the index after the call is one past it. -/
theorem ProgramParser.parseAmbiguous_not_a_declaration (env : ParserEnv)
    (frag : AbstractFragment) (fuel : Nat) (data data1 : ParserData)
    (hd : env.detectDecl frag data = .ok (false, data1))
    (hb : data1.mBuffer = data.mBuffer) :
    ProgramParser.parseAmbiguous env frag fuel data
      = (match ExpressionParser.parse env (.SentinelFragment .Semicolon frag) fuel data with
         | .error ex => .error ex
         | .ok (expr, data3) =>
           match SentinelFragment.consumeSentinel data3 with
           | .error ex => .error ex
           | .ok (semicolon, data4) => .ok (.ExpressionStatement expr semicolon, data4))
    ∧ (∀ stmt data4, ProgramParser.parseAmbiguous env frag fuel data = .ok (stmt, data4) →
        ∃ expr data3,
          ExpressionParser.parse env (.SentinelFragment .Semicolon frag) fuel data
            = .ok (expr, data3)
          ∧ data3.mIndex < data3.mBuffer.length
          ∧ data3.unsafe_peek.type = .Semicolon
          ∧ stmt = .ExpressionStatement expr data3.unsafe_peek
          ∧ data4 = { data3 with mIndex := data3.mIndex + 1 })
    ∧ (∀ expr data3,
        ExpressionParser.parse env (.SentinelFragment .Semicolon frag) fuel data
          = .ok (expr, data3) →
        data3.mIndex < data3.mBuffer.length →
        data3.unsafe_peek.type = .Semicolon
        ∧ ProgramParser.parseAmbiguous env frag fuel data
          = .ok (.ExpressionStatement expr data3.unsafe_peek,
                 { data3 with mIndex := data3.mIndex + 1 })) := by
  have hseek : data1.seek data.pos = data := by
    cases data; cases data1
    simp only [ParserData.seek, ParserData.pos] at *
    simp [hb]
  have h1 : ProgramParser.parseAmbiguous env frag fuel data
      = (match ExpressionParser.parse env (.SentinelFragment .Semicolon frag) fuel data with
         | .error ex => .error ex
         | .ok (expr, data3) =>
           match SentinelFragment.consumeSentinel data3 with
           | .error ex => .error ex
           | .ok (semicolon, data4) => .ok (.ExpressionStatement expr semicolon, data4)) := by
    unfold ProgramParser.parseAmbiguous
    simp only [hd, hseek]
  have hsc : ∀ expr data3,
      ExpressionParser.parse env (.SentinelFragment .Semicolon frag) fuel data
        = .ok (expr, data3) →
      data3.mIndex < data3.mBuffer.length → data3.unsafe_peek.type = .Semicolon := by
    intro expr data3 hp hlt
    have := ExpressionParser.parse_atEnd env _ fuel data expr data3 hp
    simp only [AbstractFragment.atEnd, ParserData.atEnd, hlt, if_true, Bool.false_or,
      Except.ok.injEq, beq_iff_eq] at this
    exact this
  have hread : ∀ data3 : ParserData, data3.mIndex < data3.mBuffer.length →
      SentinelFragment.consumeSentinel data3
        = .ok (data3.unsafe_peek, { data3 with mIndex := data3.mIndex + 1 }) := by
    intro data3 hlt
    simp only [SentinelFragment.consumeSentinel, ParserData.read, ParserData.unsafe_peek]
    rw [if_neg (by omega), if_neg (by omega)]
  refine ⟨h1, ?_, ?_⟩
  · intro stmt data4 h
    rw [h1] at h
    cases hp : ExpressionParser.parse env (.SentinelFragment .Semicolon frag) fuel data with
    | error ex => rw [hp] at h; simp at h
    | ok r =>
      obtain ⟨expr, data3⟩ := r
      rw [hp] at h
      simp only at h
      have hlt : data3.mIndex < data3.mBuffer.length := by
        by_contra hc
        simp only [SentinelFragment.consumeSentinel, ParserData.read] at h
        split_ifs at h
        omega
      rw [hread data3 hlt] at h
      simp only [Except.ok.injEq, Prod.mk.injEq] at h
      exact ⟨expr, data3, rfl, hlt, hsc expr data3 hp hlt, h.1.symm, h.2.symm⟩
  · intro expr data3 hp hlt
    refine ⟨hsc expr data3 hp hlt, ?_⟩
    rw [h1, hp]
    simp only [hread data3 hlt]

/-- Witness of C24: on `x = 3 ;`, after a detection that has read `x` and
reports that the statement is not a declaration, `parseAmbiguous` returns the
expression statement of `x = 3` and of the `;`, with the index after the
`;`. -/
theorem ProgramParser.parseAmbiguous_not_a_declaration_witness :
    ProgramParser.parseAmbiguous simpleParserEnv .ScriptFragment 8
        { mBuffer := assignmentTokens, mIndex := 0 }
      = .ok (.ExpressionStatement
              (.Operation (tokenAt .Eq 2) (.Operand 0) (.Operand 4))
              (tokenAt .Semicolon 6),
             { mBuffer := assignmentTokens, mIndex := 4 }) :=
  ((ProgramParser.parseAmbiguous_not_a_declaration simpleParserEnv .ScriptFragment 8
      { mBuffer := assignmentTokens, mIndex := 0 }
      { mBuffer := assignmentTokens, mIndex := 1 } rfl rfl).2.2
    (.Operation (tokenAt .Eq 2) (.Operand 0) (.Operand 4))
    { mBuffer := assignmentTokens, mIndex := 3 } rfl (by decide)).2

/-- C25: for each built-in type name and every scope, both overloads of
`NameLookup::resolve` return a lookup whose result type is `TypeName` and
whose `typeResult` is the built-in type of that name; the result does not
depend on the functions that look names up in the scope, which are not
called. For the overload on an identifier the name is told by the kind of its
token. -/
theorem NameLookup.resolve_builtin_types (env : LookupEnv) (scope : Scope)
    (parent : Nat → Option Nat) :
    (∀ p ∈ [("void", Type_.Void), ("bool", Type_.Boolean), ("char", Type_.Char),
            ("int", Type_.Int), ("float", Type_.Float), ("double", Type_.Double),
            ("auto", Type_.Auto)],
      NameLookup.resolve env p.1 scope parent
        = some (.ok (), { parent := parent, d := { scope := scope, typeResult := p.2 } })
      ∧ NameLookup.resultType { scope := scope, typeResult := p.2 } = .TypeName)
    ∧ (∀ p ∈ [(TokenType.Void, Type_.Void), (TokenType.Bool, Type_.Boolean),
              (TokenType.Char, Type_.Char), (TokenType.Int, Type_.Int),
              (TokenType.Float, Type_.Float), (TokenType.Double, Type_.Double),
              (TokenType.Auto, Type_.Auto)],
      ∀ (tok : Token) (text : String), tok.type = p.1 →
        NameLookup.resolveIdentifier env (.SimpleIdentifier tok text) scope parent
          = some (.ok (), { parent := parent,
                            d := { identifier := some (.SimpleIdentifier tok text),
                                   scope := scope, typeResult := p.2 } })
        ∧ NameLookup.resultType
            { identifier := some (.SimpleIdentifier tok text), scope := scope,
              typeResult := p.2 } = .TypeName) := by
  constructor
  · intro p hp
    simp only [List.mem_cons, List.mem_singleton, List.not_mem_nil, or_false] at hp
    rcases hp with rfl | rfl | rfl | rfl | rfl | rfl | rfl <;> exact ⟨rfl, rfl⟩
  · intro p hp tok text ht
    simp only [List.mem_cons, List.mem_singleton, List.not_mem_nil, or_false] at hp
    rcases hp with rfl | rfl | rfl | rfl | rfl | rfl | rfl <;>
      exact ⟨by simp only [NameLookup.resolveIdentifier, NameLookup.process,
                  NameLookup.checkBuiltinName, ht], rfl⟩

/-- Witness of C25: `int`, as a string and as the identifier of the keyword
token, resolves to the type `int`. -/
theorem NameLookup.resolve_builtin_types_witness :
    NameLookup.resolve emptyLookupEnv "int" (some 3) (fun _ => none)
      = some (.ok (), { parent := fun _ => none,
                        d := { scope := some 3, typeResult := Type_.Int } })
    ∧ NameLookup.resolveIdentifier emptyLookupEnv
        (.SimpleIdentifier { type := .Int, pos := 0, length := 3 } "int") (some 3)
        (fun _ => none)
      = some (.ok (), { parent := fun _ => none,
                        d := { identifier :=
                                 some (.SimpleIdentifier { type := .Int, pos := 0, length := 3 }
                                   "int"),
                               scope := some 3, typeResult := Type_.Int } }) :=
  ⟨((NameLookup.resolve_builtin_types emptyLookupEnv (some 3) (fun _ => none)).1
      ("int", Type_.Int) (by simp)).1,
   ((NameLookup.resolve_builtin_types emptyLookupEnv (some 3) (fun _ => none)).2
      (TokenType.Int, Type_.Int) (by simp)
      { type := .Int, pos := 0, length := 3 } "int" rfl).1⟩

/-- One call of `qualified_lookup` with a simple identifier: the lookup runs in
the state where the parent of the scope is null, and the parent is written back
after it. -/
theorem NameLookup.qualified_lookupFuel_simple (env : LookupEnv) (fuel : Nat) (tok : Token)
    (text : String) (impl : Nat) (st : LookupState) :
    NameLookup.qualified_lookupFuel env (fuel + 1) (.SimpleIdentifier tok text) (some impl) st
      = some ((env.scopeLookup (some impl) text
                { st with parent := Function.update st.parent impl none }).1,
              { (env.scopeLookup (some impl) text
                  { st with parent := Function.update st.parent impl none }).2 with
                parent := Function.update
                  (env.scopeLookup (some impl) text
                    { st with parent := Function.update st.parent impl none }).2.parent
                  impl (st.parent impl) }) := by
  rfl

/-- Shape of the result of `qualified_lookup`: with a budget of 2 the function
returns, and its final state is some state in which the parent of the scope has
been written back. -/
theorem NameLookup.qualified_lookupFuel_shape (env : LookupEnv) (name : ast.Identifier)
    (impl : Nat) (st : LookupState) :
    ∃ (r : Except LookupError Unit) (st3 : LookupState),
      NameLookup.qualified_lookupFuel env 2 name (some impl) st
      = some (r, { st3 with parent := Function.update st3.parent impl (st.parent impl) }) := by
  cases name with
  | SimpleIdentifier tok text => exact ⟨_, _, NameLookup.qualified_lookupFuel_simple ..⟩
  | OperatorName symbol =>
    unfold NameLookup.qualified_lookupFuel
    simp only
    cases env.scopeLookupOperator (some impl) (env.getOperatorId symbol)
        { st with parent := Function.update st.parent impl none } with
    | mk r st2 =>
      cases r with
      | error err => exact ⟨_, _, rfl⟩
      | ok ops => exact ⟨_, _, rfl⟩
  | TemplateIdentifier tok text args =>
    unfold NameLookup.qualified_lookupFuel
    simp only [NameLookup.qualified_lookupFuel_simple]
    cases env.scopeLookup (some impl) text
        { parent := Function.update (Function.update st.parent impl none) impl none,
          d := st.d } with
    | mk r st2 =>
      cases r with
      | error err => exact ⟨_, _, rfl⟩
      | ok u => exact ⟨_, _, rfl⟩
  | ScopedIdentifier lhs rhs => exact ⟨_, _, rfl⟩

/-- C28: `qualified_lookup(name, s)` on a non-null scope `s` returns or raises
with the parent of `s` equal to its value before the call, for every kind of
identifier and whatever the lookups called in between do to the state; and the
functions that look names up are only run in states where the parent of `s` is
null: replacing them by functions that agree with them on these states does
not change the outcome. The nested call that a template identifier makes on the
same scope is within the budget. -/
theorem NameLookup.qualified_lookup_restores_parent (env : LookupEnv)
    (name : ast.Identifier) (impl : Nat) (st : LookupState) :
    (∃ r, NameLookup.qualified_lookup env name (some impl) st = some r
        ∧ r.2.parent impl = st.parent impl)
    ∧ (∀ env2 : LookupEnv, env2.getOperatorId = env.getOperatorId →
        (∀ text st1, st1.parent impl = none →
          env2.scopeLookup (some impl) text st1 = env.scopeLookup (some impl) text st1) →
        (∀ op st1, st1.parent impl = none →
          env2.scopeLookupOperator (some impl) op st1
            = env.scopeLookupOperator (some impl) op st1) →
        (∀ scp ct id st1, st1.parent impl = none →
          env2.getClassTemplateInstance scp ct id st1
            = env.getClassTemplateInstance scp ct id st1) →
        NameLookup.qualified_lookup env2 name (some impl) st
          = NameLookup.qualified_lookup env name (some impl) st) := by
  constructor
  · obtain ⟨r, st3, h⟩ := NameLookup.qualified_lookupFuel_shape env name impl st
    refine ⟨_, h, ?_⟩
    simp only [Function.update_same]
  · intro env2 hop hl hlo hg
    have hnull : (Function.update st.parent impl none) impl = none := Function.update_same ..
    unfold NameLookup.qualified_lookup
    cases name with
    | SimpleIdentifier tok text =>
      rw [NameLookup.qualified_lookupFuel_simple, NameLookup.qualified_lookupFuel_simple,
        hl text _ hnull]
    | OperatorName symbol =>
      unfold NameLookup.qualified_lookupFuel
      simp only [hop]
      rw [hlo _ _ hnull]
    | TemplateIdentifier tok text args =>
      unfold NameLookup.qualified_lookupFuel
      simp only [NameLookup.qualified_lookupFuel_simple]
      rw [hl text _ (Function.update_same ..)]
      cases env.scopeLookup (some impl) text
          { parent := Function.update (Function.update st.parent impl none) impl none,
            d := st.d } with
      | mk r st2 =>
        cases r with
        | error err => rfl
        | ok u =>
          simp only
          have hk : ∀ stx : LookupState, stx.parent impl = none →
              NameLookup.keepTemplates env2 (.TemplateIdentifier tok text args) stx
                = NameLookup.keepTemplates env (.TemplateIdentifier tok text args) stx := by
            intro stx hx
            unfold NameLookup.keepTemplates
            simp only
            split_ifs with hrt
            · cases stx.d.classTemplateResult with
              | none => rfl
              | some ct =>
                simp only
                rw [hg]
                exact hx
            · rfl
          rw [hk _ (by simp only [Function.update_same])]
    | ScopedIdentifier lhs rhs => rfl

/-- Witness of C28: the scope at address 1 has a parent; a lookup inside it,
for a simple name or for a template identifier, runs while it has none and
records 0, and after the call the parent is the scope at address 0 again. -/
theorem NameLookup.qualified_lookup_restores_parent_witness :
    (∃ r, NameLookup.qualified_lookup parentProbeEnv
            (.TemplateIdentifier (tokenAt .UserDefinedName 3) "A" [0]) (some 1)
            { parent := nestedScopeParents, d := {} } = some r
        ∧ r.2.parent 1 = nestedScopeParents 1)
    ∧ nestedScopeParents 1 = some 0
    ∧ (NameLookup.qualified_lookup parentProbeEnv
          (.SimpleIdentifier (tokenAt .UserDefinedName 3) "a") (some 1)
          { parent := nestedScopeParents, d := {} }).map (fun r => r.2.d.globalIndex)
        = some 0 :=
  ⟨(NameLookup.qualified_lookup_restores_parent parentProbeEnv
      (.TemplateIdentifier (tokenAt .UserDefinedName 3) "A" [0]) 1
      { parent := nestedScopeParents, d := {} }).1, rfl, rfl⟩

/-- A class that declares no member of the name adds nothing to the result of
the member lookup, which goes on with its parent. -/
theorem NameLookup.recursive_member_lookup_skip (name : String) (result : NameLookupImpl)
    (c : ClassData) (rest : List ClassData) (hc : declaresMember name c = false)
    (hf : result.functions = []) (ht : result.functionTemplateResult = []) :
    NameLookup.recursive_member_lookup name result (c :: rest)
      = NameLookup.recursive_member_lookup name result rest := by
  simp only [declaresMember, Bool.or_eq_false_iff] at hc
  obtain ⟨⟨h1, h2⟩, h3⟩ := hc
  have f1 : c.memberFunctions.filter (fun f => f.name == name) = [] :=
    List.filter_eq_nil_iff.mpr (List.any_eq_false.mp h1)
  have f2 : c.templates.filter (fun ft => ft.isFunctionTemplate && ft.name == name) = [] :=
    List.filter_eq_nil_iff.mpr (List.any_eq_false.mp h2)
  have f3 : c.dataMembers.findIdx? (fun m => m.name == name) = none :=
    List.findIdx?_eq_none_iff.mpr (fun x hx => by simpa using List.any_eq_false.mp h3 x hx)
  rw [NameLookup.recursive_member_lookup]
  simp only [f1, f2, f3, hf, ht, List.append_nil, List.isEmpty_nil, Bool.not_true,
    Bool.or_self, Bool.false_eq_true, if_false]
  congr 1
  cases result
  simp only at hf ht
  simp only [hf, ht]

/-- The first class that declares a member of the name ends the member lookup:
the result holds its functions and function templates of that name, and the
index of its data member of that name if it has one. -/
theorem NameLookup.recursive_member_lookup_found (name : String) (result : NameLookupImpl)
    (K : ClassData) (rest : List ClassData) (hK : declaresMember name K = true)
    (hf : result.functions = []) (ht : result.functionTemplateResult = []) :
    NameLookup.recursive_member_lookup name result (K :: rest)
      = { result with
          functions := K.memberFunctions.filter (fun f => f.name == name),
          functionTemplateResult :=
            K.templates.filter (fun ft => ft.isFunctionTemplate && ft.name == name),
          dataMemberIndex :=
            match K.dataMembers.findIdx? (fun m => m.name == name) with
            | some i => ((i + K.attributesOffset : Nat) : Int)
            | none => result.dataMemberIndex } := by
  rw [NameLookup.recursive_member_lookup]
  cases h3 : K.dataMembers.findIdx? (fun m => m.name == name) with
  | some i => simp only [hf, ht, List.nil_append]
  | none =>
    have hd : K.dataMembers.any (fun m => m.name == name) = false := by
      rw [List.any_eq_false]
      intro x hx
      have := List.findIdx?_eq_none_iff.mp h3 x hx
      simpa using this
    simp only [declaresMember, hd, Bool.or_false, Bool.or_eq_true] at hK
    have hne : (!(K.memberFunctions.filter (fun f => f.name == name)).isEmpty
        || !(K.templates.filter
              (fun ft => ft.isFunctionTemplate && ft.name == name)).isEmpty) = true := by
      rcases hK with h | h
      · obtain ⟨x, hx, hp⟩ := List.any_eq_true.mp h
        have : x ∈ K.memberFunctions.filter (fun f => f.name == name) :=
          List.mem_filter.mpr ⟨hx, hp⟩
        cases hl : K.memberFunctions.filter (fun f => f.name == name) with
        | nil => rw [hl] at this; exact absurd this (List.not_mem_nil _)
        | cons a l => simp
      · obtain ⟨x, hx, hp⟩ := List.any_eq_true.mp h
        have : x ∈ K.templates.filter (fun ft => ft.isFunctionTemplate && ft.name == name) :=
          List.mem_filter.mpr ⟨hx, hp⟩
        cases hl : K.templates.filter
            (fun ft => ft.isFunctionTemplate && ft.name == name) with
        | nil => rw [hl] at this; exact absurd this (List.not_mem_nil _)
        | cons a l => simp
    simp only [hf, ht, List.nil_append, hne, if_true]

/-- Classes that declare no member of the name, at the start of the chain, are
passed over by the member lookup. -/
theorem NameLookup.recursive_member_lookup_pass (name : String) (result : NameLookupImpl)
    (hf : result.functions = []) (ht : result.functionTemplateResult = []) :
    ∀ (pre rest : List ClassData), (∀ c ∈ pre, declaresMember name c = false) →
      NameLookup.recursive_member_lookup name result (pre ++ rest)
        = NameLookup.recursive_member_lookup name result rest := by
  intro pre
  induction pre with
  | nil => intro rest _; rfl
  | cons c pre ih =>
    intro rest h
    rw [List.cons_append,
      NameLookup.recursive_member_lookup_skip name result c _ (h c (List.mem_cons_self _ _)) hf ht]
    exact ih rest (fun x hx => h x (List.mem_cons_of_mem _ hx))

/-- C26 (counterexample): the class `C` and its base `B` both declare a member
function `f` and neither declares a data member `f`; the member lookup of `f`
in `C` returns the function of `C` only. -/
theorem NameLookup.member_f_in_derived_only :
    (NameLookup.member "f" [classC, classB]).functions
      = [{ name := "f", function := { id := 21, hasImplicitObject := true } }]
    ∧ classB.memberFunctions
      = [{ name := "f", function := { id := 20, hasImplicitObject := true } }]
    ∧ classC.dataMembers.any (fun m => m.name == "f") = false
    ∧ classB.dataMembers.any (fun m => m.name == "f") = false := by
  decide

/-- C26 (amended): `NameLookup::member(name, C)` walks `C` and then each base in
order and stops at the first class that declares a member function, a function
template or a data member named `name`: the result holds the member functions
and the function templates of that name of that class alone, and the index of
its data member of that name when it has one; the classes above it are not
visited. When no class of the chain declares such a member, the result is
empty. -/
theorem NameLookup.member_stops_at_first_declaring_class (name : String) :
    (∀ (pre : List ClassData) (K : ClassData) (post : List ClassData),
      (∀ c ∈ pre, declaresMember name c = false) → declaresMember name K = true →
      NameLookup.member name (pre ++ K :: post)
        = { scope := (pre ++ K :: post).head?.map (fun c => c.id),
            functions := K.memberFunctions.filter (fun f => f.name == name),
            functionTemplateResult :=
              K.templates.filter (fun ft => ft.isFunctionTemplate && ft.name == name),
            dataMemberIndex :=
              match K.dataMembers.findIdx? (fun m => m.name == name) with
              | some i => ((i + K.attributesOffset : Nat) : Int)
              | none => -1 })
    ∧ (∀ chain : List ClassData, (∀ c ∈ chain, declaresMember name c = false) →
      NameLookup.member name chain = { scope := chain.head?.map (fun c => c.id) }) := by
  constructor
  · intro pre K post hpre hK
    unfold NameLookup.member
    refine (NameLookup.recursive_member_lookup_pass name _ rfl rfl pre _ hpre).trans ?_
    refine (NameLookup.recursive_member_lookup_found name _ K post hK rfl rfl).trans ?_
    cases K.dataMembers.findIdx? (fun m => m.name == name) <;> rfl
  · intro chain h
    unfold NameLookup.member
    have := NameLookup.recursive_member_lookup_pass name
      { scope := chain.head?.map (fun c => c.id) } rfl rfl chain [] h
    rw [List.append_nil] at this
    rw [this]
    rfl

/-- Witness of C26 (amended): the member lookup of `b0` in `C` passes over `C`,
which declares no member of that name, and ends on `B` with the index of
`b0`. -/
theorem NameLookup.member_stops_at_first_declaring_class_witness :
    NameLookup.member "b0" ([classC] ++ classB :: [])
      = { scope := some 1, functions := [], functionTemplateResult := [],
          dataMemberIndex := 0 } :=
  (NameLookup.member_stops_at_first_declaring_class "b0").1 [classC] classB []
    (by decide) (by decide)

/-- C27 (the code at the failing input): the class `C` has one data member,
`d0` of type `float`, and its base `B` has one, `b0` of type `int`, so that
`attributesOffset(C)` is 1, the number of data members of `B`. The member
lookup of `d0` in `C` yields the index 1, and `generateMemberAccess` on an
object of type `C` with that index ends its loop on the member 0 of `B`: it
emits a member access of type `int&`, the type of `b0`, not of `d0`. -/
theorem ExpressionCompiler.generateMemberAccess_resolves_other_member :
    classC.attributesOffset = classB.dataMembers.length
    ∧ classB.attributesOffset = 0
    ∧ (NameLookup.member "d0" [classC, classB]).dataMemberIndex
        = ((classC.attributesOffset + 0 : Nat) : Int)
    ∧ classC.dataMembers[0]? = some { type := Type_.Float, name := "d0" }
    ∧ resolveRelativeIndex [classC, classB] 1 = some (classB, 0)
    ∧ classB.dataMembers[0]? = some { type := Type_.Int, name := "b0" }
    ∧ ExpressionCompiler.generateMemberAccess exampleCompilerEnv { type := classType 1 } 1
        = .ok (.MemberAccess (Type_.ref Type_.Int) { type := classType 1 } 1)
    ∧ Type_.ref Type_.Int ≠ Type_.ref Type_.Float := by
  refine ⟨by decide, by decide, by decide, by decide, by decide, by decide, rfl, by decide⟩

/-- C29 (counterexample): the branches of `c ? t : f` compile to an expression
of type `int` and to one of the class type `B`, neither type convertible to the
other; `generateConditionalExpression` returns the conditional expression with
these two branches, of different types. -/
theorem ExpressionCompiler.generateConditionalExpression_unrelated_branches :
    ExpressionCompiler.generateConditionalExpression exampleCompilerEnv
        (.ConditionalExpression (.Operand 1) (tokenAt .QuestionMark 2) (.Operand 2)
          (tokenAt .Colon 6) (.Operand 3))
      = .ok (.ConditionalExpression { type := Type_.Boolean, node := 1 }
              { type := Type_.Int, node := 2 } { type := classType 0, node := 3 })
    ∧ Conversion.compute Type_.Int (classType 0) (Engine.ofClasses classEmpty)
        .NoExplicitConversions = Conversion.NotConvertible
    ∧ Conversion.compute (classType 0) Type_.Int (Engine.ofClasses classEmpty)
        .NoExplicitConversions = Conversion.NotConvertible
    ∧ Type_.Int ≠ classType 0 := by
  refine ⟨rfl, by decide, by decide, by decide⟩

/-- C29 (amended): `generateConditionalExpression` compiles the branch taken
when the condition holds, then the other branch, then the condition; it fails
with the error of the first of these that fails and with no other error;
otherwise it returns the conditional expression of the three expressions as
they were compiled, whatever the types of the two branches, which are neither
compared nor converted. -/
theorem ExpressionCompiler.generateConditionalExpression_as_compiled
    (cenv : ExpressionCompilerEnv) (c t f : ast.Expression) (q col : Token) :
    (∀ tru fal con, cenv.generateExpression t = .ok tru →
      cenv.generateExpression f = .ok fal → cenv.generateExpression c = .ok con →
      ExpressionCompiler.generateConditionalExpression cenv (.ConditionalExpression c q t col f)
        = .ok (.ConditionalExpression con tru fal))
    ∧ (∀ err, cenv.generateExpression t = .error err →
      ExpressionCompiler.generateConditionalExpression cenv (.ConditionalExpression c q t col f)
        = .error err)
    ∧ (∀ tru err, cenv.generateExpression t = .ok tru →
      cenv.generateExpression f = .error err →
      ExpressionCompiler.generateConditionalExpression cenv (.ConditionalExpression c q t col f)
        = .error err)
    ∧ (∀ tru fal err, cenv.generateExpression t = .ok tru →
      cenv.generateExpression f = .ok fal → cenv.generateExpression c = .error err →
      ExpressionCompiler.generateConditionalExpression cenv (.ConditionalExpression c q t col f)
        = .error err) := by
  refine ⟨?_, ?_, ?_, ?_⟩
  · intro tru fal con h1 h2 h3
    simp only [ExpressionCompiler.generateConditionalExpression, h1, h2, h3]
  · intro err h1
    simp only [ExpressionCompiler.generateConditionalExpression, h1]
  · intro tru err h1 h2
    simp only [ExpressionCompiler.generateConditionalExpression, h1, h2]
  · intro tru fal err h1 h2 h3
    simp only [ExpressionCompiler.generateConditionalExpression, h1, h2, h3]

/-- Witness of C29 (amended): with the condition of type `bool` and both
branches of type `int`, the conditional expression of the three compiled
expressions is returned. -/
theorem ExpressionCompiler.generateConditionalExpression_as_compiled_witness :
    ExpressionCompiler.generateConditionalExpression exampleCompilerEnv
        (.ConditionalExpression (.Operand 1) (tokenAt .QuestionMark 2) (.Operand 2)
          (tokenAt .Colon 6) (.Operand 2))
      = .ok (.ConditionalExpression { type := Type_.Boolean, node := 1 }
              { type := Type_.Int, node := 2 } { type := Type_.Int, node := 2 }) :=
  (ExpressionCompiler.generateConditionalExpression_as_compiled exampleCompilerEnv
    (.Operand 1) (.Operand 2) (.Operand 2) (tokenAt .QuestionMark 2) (tokenAt .Colon 6)).1
    { type := Type_.Int, node := 2 } { type := Type_.Int, node := 2 }
    { type := Type_.Boolean, node := 1 } rfl rfl rfl

/-- C30 (the code at the failing input): a value of the function type
`int(int, int)` called with the one argument of type `int`: the loop converts
that argument to the first parameter and `generateFunctionVariableCall` emits
the call with one argument, without any error. With two arguments of which the
second, of a function type, is not convertible to `int`, it raises
`CouldNotConvert`. -/
theorem ExpressionCompiler.generateFunctionVariableCall_one_argument_of_two :
    (exampleCompilerEnv.getFunctionType functionTypeA).parameters = [Type_.Int, Type_.Int]
    ∧ ExpressionCompiler.generateFunctionVariableCall noClasses noConstructors
        exampleCompilerEnv { type := functionTypeA, node := 9 } [{ type := Type_.Int, node := 5 }]
      = .ok (.FunctionVariableCall { type := functionTypeA, node := 9 } Type_.Int
              [{ type := Type_.Int, node := 5 }])
    ∧ ExpressionCompiler.functionVariableConversions noClasses noConstructors
        { returnType := Type_.Int, parameters := [Type_.Int, Type_.Int] } 0
        [{ type := Type_.Int, node := 5 }]
      = .ok [Conversion.compute Type_.Int Type_.Int noClasses noConstructors.defaultPolicy]
    ∧ ExpressionCompiler.generateFunctionVariableCall noClasses noConstructors
        exampleCompilerEnv { type := functionTypeA, node := 9 }
        [{ type := Type_.Int, node := 5 }, { type := functionTypeB, node := 6 }]
      = .error (.CouldNotConvert functionTypeB Type_.Int) := by
  refine ⟨by decide, rfl, rfl, rfl⟩

/-- C36: for every depth, reference flag `r` and qualification adjustment `q`,
`DerivedToBaseConversion(depth, r, q)` is a derived-to-base conversion of rank
`Conversion` whose reference flag reads `r` and whose qualification flag reads
"`q` is a const qualification"; its low eight bits (conversion id and flags) do
not depend on the depth; a depth in `0..255` is read back by
`derivedToBaseConversionDepth`, and a depth above 255 is not. -/
theorem StandardConversion2.DerivedToBaseConversion_fields (depth : Nat) (r : Bool)
    (q : QualificationAdjustment) :
    (StandardConversion2.DerivedToBaseConversion depth r q).isDerivedToBaseConversion = true
    ∧ (StandardConversion2.DerivedToBaseConversion depth r q).isReferenceConversion = r
    ∧ (StandardConversion2.DerivedToBaseConversion depth r q).hasQualificationAdjustment
        = decide (q = .ConstQualification)
    ∧ (StandardConversion2.DerivedToBaseConversion depth r q).rank = .Conversion
    ∧ (StandardConversion2.DerivedToBaseConversion depth r q).d % 256
        = (StandardConversion2.DerivedToBaseConversion 0 r q).d
    ∧ (depth ≤ 255 →
        (StandardConversion2.DerivedToBaseConversion depth r q).derivedToBaseConversionDepth
          = depth)
    ∧ (255 < depth →
        (StandardConversion2.DerivedToBaseConversion depth r q).derivedToBaseConversionDepth
          ≠ depth) := by
  obtain ⟨h1, h2, h3, h4⟩ := StandardConversion2.derivedToBase_read depth r q
  refine ⟨h1, h2, ?_, ?_, ?_, ?_, ?_⟩
  · rw [h3]; cases q <;> decide
  · unfold StandardConversion2.rank; rw [h1]; rfl
  · rw [StandardConversion2.derivedToBase_d, StandardConversion2.derivedToBase_d]
    cases r <;> cases q <;>
      simp only [QualificationAdjustment.toNat, Bool.false_eq_true, if_false, if_true] <;> omega
  · intro h; rw [h4]; exact Nat.mod_eq_of_lt (by omega)
  · intro h; rw [h4]
    have := Nat.mod_lt depth (show 0 < 256 by decide)
    omega

/-- C36 (witness): depth 255 with both flags is read back; depth 256 is not. -/
theorem StandardConversion2.DerivedToBaseConversion_fields_witness :
    (StandardConversion2.DerivedToBaseConversion 255 true
        .ConstQualification).derivedToBaseConversionDepth = 255
    ∧ (StandardConversion2.DerivedToBaseConversion 256 true
        .ConstQualification).derivedToBaseConversionDepth ≠ 256 :=
  ⟨(StandardConversion2.DerivedToBaseConversion_fields 255 true .ConstQualification).2.2.2.2.2.1
      (by decide),
   (StandardConversion2.DerivedToBaseConversion_fields 256 true .ConstQualification).2.2.2.2.2.2
      (by decide)⟩

/-- C38 (the code at the failing input): `Conversion::operator==` does not read
the conversion function of the left operand, its third conjunct compares
`other.function` with itself. Two conversions are equal for it exactly when
their two standard conversions are equal; the user-defined conversions to the
class `A` through `A(int)` and through `A(float)`, with the same standard
conversions, compare equal although their functions differ. -/
theorem Conversion.eq_ignores_function :
    (∀ a b : Conversion, a.eq b = (a.conv1 == b.conv1 && a.conv3 == b.conv3))
    ∧ Conversion.eq { conv1 := StandardConversion2.Copy, function := some ctor_int }
        { conv1 := StandardConversion2.Copy, function := some ctor_float } = true
    ∧ ({ conv1 := StandardConversion2.Copy, function := some ctor_int } : Conversion).function
        ≠ ({ conv1 := StandardConversion2.Copy, function := some ctor_float } : Conversion).function
    ∧ Conversion.ne { conv1 := StandardConversion2.Copy, function := some ctor_int }
        { conv1 := StandardConversion2.Copy, function := some ctor_float } = false := by
  refine ⟨?_, by decide, by decide, by decide⟩
  intro a b
  unfold Conversion.eq
  simp

/-- C32 (the code at the failing input): for the call `f(c, c)` with two `char`
arguments, `resolve_overloads` selects `f4` among `f1(int, bool)`,
`f2(bool, char)`, `f3(bool, int)`, `f4(int, int)`, and fails when `f2` appears
a second time at the end of the list: by then `f2` is in neither slot, it is
compared with `f4` again, and the two are not comparable. -/
theorem resolve_overloads_duplicate_candidate :
    (resolve_overloads typeInitialization OverloadResolution.compare
        [f_int_bool, f_bool_char, f_bool_int, f_int_int] [Type_.Char, Type_.Char]).function
      = some f_int_int
    ∧ (resolve_overloads typeInitialization OverloadResolution.compare
        [f_int_bool, f_bool_char, f_bool_int, f_int_int, f_bool_char]
        [Type_.Char, Type_.Char]).function = none
    ∧ f_bool_char ∈ [f_int_bool, f_bool_char, f_bool_int, f_int_int] := by
  decide

/-- C34 (the code at the failing input): when source and destination have the
same base type, an enum, closure or function type, and the destination is a
reference, `compute` returns the default-constructed reference binding, whose
qualification flag is not set, also when the destination is const and the
source is not; without the reference the result is a copy that carries the
adjustment. -/
theorem StandardConversion2.compute_same_base_reference (src dest : Type_) (e : Engine)
    (hb : src.baseType = dest.baseType)
    (hk : (dest.isEnumType || dest.isClosureType || dest.isFunctionType) = true)
    (ho : dest.isObjectType = false)
    (hr : dest.isReference = true) (hc : dest.isConst = true) (hs : src.isConst = false) :
    StandardConversion2.compute src dest e = StandardConversion2.default_
    ∧ (StandardConversion2.compute src dest e).isReferenceConversion = true
    ∧ (StandardConversion2.compute src dest e).hasQualificationAdjustment = false
    ∧ (StandardConversion2.compute src { dest with referenceFlag := false }
        e).hasQualificationAdjustment = true := by
  have hf : dest.isFundamentalType = false := by
    simp only [Type_.isEnumType, Type_.isClosureType, Type_.isFunctionType,
      Bool.or_eq_true] at hk
    unfold Type_.isFundamentalType
    rcases hk with (hk | hk) | hk <;> simp [hk]
  have h1 : StandardConversion2.compute src dest e = StandardConversion2.default_ := by
    unfold StandardConversion2.compute
    simp [hf, ho, hr, hc, hs, hb]
  have hb2 : src.baseType = ({ dest with referenceFlag := false } : Type_).baseType := by
    rw [hb]; rfl
  have h2 : StandardConversion2.compute src { dest with referenceFlag := false } e
      = StandardConversion2.Copy.with_ .ConstQualification := by
    generalize hd : ({ dest with referenceFlag := false } : Type_) = dest2 at hb2
    have g1 : dest2.isFundamentalType = false := by rw [← hd]; exact hf
    have g2 : dest2.isObjectType = false := by rw [← hd]; exact ho
    have g3 : dest2.isReference = false := by rw [← hd]; rfl
    have g4 : dest2.isConst = true := by rw [← hd]; exact hc
    have g5 : (dest2.isEnumType || dest2.isClosureType || dest2.isFunctionType) = true := by
      rw [← hd]; exact hk
    unfold StandardConversion2.compute
    simp [g1, g2, g3, g4, g5, hs, hb2, StandardConversion2.adjustFor]
  rw [h1, h2]
  exact ⟨rfl, by decide, by decide, by decide⟩

/-- C34 (witness): an enumeration and the const reference to it. -/
theorem StandardConversion2.compute_same_base_reference_witness :
    StandardConversion2.compute enumA (Type_.cref enumA) noClasses
      = StandardConversion2.default_
    ∧ (StandardConversion2.compute enumA (Type_.cref enumA) noClasses).isReferenceConversion
      = true
    ∧ (StandardConversion2.compute enumA (Type_.cref enumA) noClasses).hasQualificationAdjustment
      = false
    ∧ (StandardConversion2.compute enumA { Type_.cref enumA with referenceFlag := false }
        noClasses).hasQualificationAdjustment = true :=
  StandardConversion2.compute_same_base_reference enumA (Type_.cref enumA) noClasses
    (by decide) (by decide) (by decide) (by decide) (by decide) (by decide)

/-- Among the conversions computed from one source type, `operator<` is the
order of the keys. -/
theorem StandardConversion2.compute_lt_eq_key (src d1 d2 : Type_) (e : Engine)
    (hwf : src.isObjectType = true → src.isEnumType = false) :
    (StandardConversion2.compute src d1 e).lt (StandardConversion2.compute src d2 e)
      = decide ((StandardConversion2.compute src d1 e).key
          < (StandardConversion2.compute src d2 e).key) := by
  apply StandardConversion2.lt_eq_key_lt
  intro hrank
  have hNCr : StandardConversion2.NotConvertible.rank = .NotConvertible := by decide
  have hinj : ∀ a b : ConversionRank, a.toNat = b.toNat → a = b := by
    intro a b; cases a <;> cases b <;> decide
  have hrank' := hinj _ _ hrank
  have hd2b : ∀ z : StandardConversion2, z.isDerivedToBaseConversion = true →
      z.rank = .Conversion := by
    intro z hz
    unfold StandardConversion2.rank
    rw [hz]; rfl
  have hmixed : ∀ u v : Type_,
      StandardConversion2.compute src u e ≠ StandardConversion2.NotConvertible →
      StandardConversion2.compute src v e ≠ StandardConversion2.NotConvertible →
      (StandardConversion2.compute src u e).rank = (StandardConversion2.compute src v e).rank →
      (StandardConversion2.compute src u e).isDerivedToBaseConversion = true →
      (StandardConversion2.compute src v e).isDerivedToBaseConversion = true := by
    intro u v hu hv huv hud
    cases hvd : (StandardConversion2.compute src v e).isDerivedToBaseConversion
    · exfalso
      have hso := (StandardConversion2.compute_regular src u e hu).2.1 hud
      have hvr : (StandardConversion2.compute src v e).rank = .Conversion := by
        rw [← huv]; exact hd2b _ hud
      rcases (StandardConversion2.compute_regular src v e hv).2.2 hvd hvr with h | h
      · rw [hso] at h; cases h
      · rw [hwf hso] at h; cases h
    · rfl
  by_cases hx : StandardConversion2.compute src d1 e = StandardConversion2.NotConvertible <;>
    by_cases hy : StandardConversion2.compute src d2 e = StandardConversion2.NotConvertible
  · rw [hx, hy]
  · exfalso; rw [hx, hNCr] at hrank'
    exact (StandardConversion2.compute_regular src d2 e hy).1 hrank'.symm
  · exfalso; rw [hy, hNCr] at hrank'
    exact (StandardConversion2.compute_regular src d1 e hx).1 hrank'
  · cases hxd : (StandardConversion2.compute src d1 e).isDerivedToBaseConversion <;>
      cases hyd : (StandardConversion2.compute src d2 e).isDerivedToBaseConversion
    · rfl
    · have := hmixed d2 d1 hy hx hrank'.symm hyd
      rw [hxd] at this; cases this
    · have := hmixed d1 d2 hx hy hrank' hxd
      rw [hyd] at this; cases this
    · rfl

/-- C37 (counterexample): the reference binding to a base class two levels up,
the enum-to-int conversion and the const-adjusted copy to a base class one
level up are factory values of rank `Conversion` with `a < b` and `b < c` but
not `a < c`: the depth is compared only between two derived-to-base
conversions. -/
theorem StandardConversion2.lt_not_transitive :
    (StandardConversion2.DerivedToBaseConversion 2 true .NoQualificationAdjustment).lt
        StandardConversion2.EnumToInt = true
    ∧ StandardConversion2.EnumToInt.lt
        (StandardConversion2.DerivedToBaseConversion 1 false .ConstQualification) = true
    ∧ (StandardConversion2.DerivedToBaseConversion 2 true .NoQualificationAdjustment).lt
        (StandardConversion2.DerivedToBaseConversion 1 false .ConstQualification) = false := by
  decide

/-- C37 (amended): `operator<` is transitive over standard conversions of which
any two of equal rank are both derived-to-base or both not, and in particular
over the conversions that `compute` returns from one source type to any
destination types, which are the ones compared with each other. -/
theorem StandardConversion2.lt_transitive_same_source :
    (∀ a b c : StandardConversion2,
      (a.rank.toNat = b.rank.toNat →
        a.isDerivedToBaseConversion = b.isDerivedToBaseConversion) →
      (b.rank.toNat = c.rank.toNat →
        b.isDerivedToBaseConversion = c.isDerivedToBaseConversion) →
      (a.rank.toNat = c.rank.toNat →
        a.isDerivedToBaseConversion = c.isDerivedToBaseConversion) →
      a.lt b = true → b.lt c = true → a.lt c = true)
    ∧ (∀ (e : Engine) (src d1 d2 d3 : Type_),
      (src.isObjectType = true → src.isEnumType = false) →
      (StandardConversion2.compute src d1 e).lt (StandardConversion2.compute src d2 e) = true →
      (StandardConversion2.compute src d2 e).lt (StandardConversion2.compute src d3 e) = true →
      (StandardConversion2.compute src d1 e).lt (StandardConversion2.compute src d3 e)
        = true) := by
  constructor
  · intro a b c hab hbc hac h1 h2
    rw [StandardConversion2.lt_eq_key_lt a b hab, decide_eq_true_eq] at h1
    rw [StandardConversion2.lt_eq_key_lt b c hbc, decide_eq_true_eq] at h2
    rw [StandardConversion2.lt_eq_key_lt a c hac, decide_eq_true_eq]
    exact Nat.lt_trans h1 h2
  · intro e src d1 d2 d3 hwf h1 h2
    rw [StandardConversion2.compute_lt_eq_key src d1 d2 e hwf, decide_eq_true_eq] at h1
    rw [StandardConversion2.compute_lt_eq_key src d2 d3 e hwf, decide_eq_true_eq] at h2
    rw [StandardConversion2.compute_lt_eq_key src d1 d3 e hwf, decide_eq_true_eq]
    exact Nat.lt_trans h1 h2

/-- C37 (witness): from `char`, the conversion to `char` is better than the
promotion to `int`, which is better than the conversion to `bool`; and the
reference binding is better than the copy, which is better than the copy with
a const adjustment. -/
theorem StandardConversion2.lt_transitive_same_source_witness :
    ((StandardConversion2.compute Type_.Char Type_.Char noClasses).lt
        (StandardConversion2.compute Type_.Char Type_.Int noClasses) = true
      ∧ (StandardConversion2.compute Type_.Char Type_.Int noClasses).lt
        (StandardConversion2.compute Type_.Char Type_.Boolean noClasses) = true
      ∧ (StandardConversion2.compute Type_.Char Type_.Char noClasses).lt
        (StandardConversion2.compute Type_.Char Type_.Boolean noClasses) = true)
    ∧ StandardConversion2.default_.lt StandardConversion2.Copy = true
    ∧ StandardConversion2.Copy.lt (StandardConversion2.Copy.with_ .ConstQualification) = true
    ∧ StandardConversion2.default_.lt (StandardConversion2.Copy.with_ .ConstQualification)
        = true :=
  ⟨⟨by decide, by decide,
    StandardConversion2.lt_transitive_same_source.2 noClasses Type_.Char Type_.Char Type_.Int
      Type_.Boolean (by decide) (by decide) (by decide)⟩,
   by decide, by decide,
   StandardConversion2.lt_transitive_same_source.1 StandardConversion2.default_
     StandardConversion2.Copy (StandardConversion2.Copy.with_ .ConstQualification)
     (by decide) (by decide) (by decide) (by decide) (by decide)⟩

/-- The loop of `setStatic` after `k` iterations: the first `k` parameters are
the former parameters `1 .. k`, the others are unchanged. -/
theorem FunctionBuilder.shift_loop (p : Prototype) (k : Nat) (hk : k + 1 ≤ p.parameters.length) :
    ((List.range k).foldl (fun q i => q.setParameter i (q.at_ (i + 1))) p).returnType
      = p.returnType
    ∧ ((List.range k).foldl (fun q i => q.setParameter i (q.at_ (i + 1))) p).parameters
      = p.parameters.tail.take k ++ p.parameters.drop k := by
  induction k with
  | zero => simp
  | succ k ih =>
    obtain ⟨h1, h2⟩ := ih (by omega)
    rw [List.range_succ, List.foldl_append]
    simp only [List.foldl_cons, List.foldl_nil]
    generalize (List.range k).foldl (fun q i => q.setParameter i (q.at_ (i + 1))) p = q at h1 h2
    refine ⟨h1, ?_⟩
    unfold Prototype.setParameter Prototype.at_
    simp only
    rw [h2]
    apply List.ext_getElem?
    intro i
    simp only [List.getElem?_set, List.getElem?_append, List.getElem?_take, List.getElem?_drop,
      List.length_take, List.length_append, List.length_drop, List.length_tail, List.getD_eq_getElem?_getD,
      List.getElem?_tail]
    have e1 : min k (p.parameters.length - 1) = k := by omega
    have e2 : min (k + 1) (p.parameters.length - 1) = k + 1 := by omega
    rw [e1, e2]
    by_cases hik : i < k
    · have : ¬ k = i := by omega
      simp [hik, this, show i < k + 1 by omega]
    · by_cases hik2 : i = k
      · subst hik2
        have hlt : i + 1 < p.parameters.length := by omega
        simp [hlt, List.getElem?_eq_getElem hlt]
        omega
      · have : ¬ k = i := by omega
        simp [hik, this, show ¬ i < k + 1 by omega]
        congr 1; omega

/-- The prototype after `setStatic`, when the first parameter carries the
this-flag: the other parameters, in order, and the same return type. -/
theorem FunctionBuilder.setStatic_this (Static : Nat) (b : FunctionBuilder) (t : Type_)
    (rest : List Type_) (hp : b.proto.parameters = t :: rest) (ht : t.testThisFlag = true) :
    b.setStatic Static
      = { flags := b.flags ||| (Static <<< 2),
          proto := { returnType := b.proto.returnType, parameters := rest } } := by
  unfold FunctionBuilder.setStatic
  have hc : (b.proto.count == 0 || !(b.proto.at_ 0).testThisFlag) = false := by
    simp [Prototype.count, Prototype.at_, hp, ht]
  simp only [hc, Bool.false_eq_true, if_false]
  obtain ⟨h1, h2⟩ := FunctionBuilder.shift_loop b.proto (b.proto.count - 1)
    (by simp [Prototype.count, hp])
  generalize (List.range (b.proto.count - 1)).foldl
    (fun q i => q.setParameter i (q.at_ (i + 1))) b.proto = q at h1 h2
  have h3 : q.popParameter = { returnType := b.proto.returnType, parameters := rest } := by
    unfold Prototype.popParameter
    rw [h2, h1]
    simp only [Prototype.count, hp, List.tail_cons, List.length_cons, Nat.add_sub_cancel]
    congr 1
    rw [List.take_length]
    have hl : ((t :: rest).drop rest.length).length = 1 := by simp
    obtain ⟨x, hx⟩ := List.length_eq_one.mp hl
    rw [hx, List.dropLast_concat]
  rw [h3]

/-- The builder after `setStatic`, when there is no parameter or the first
parameter does not carry the this-flag: only the flags change. -/
theorem FunctionBuilder.setStatic_no_this (Static : Nat) (b : FunctionBuilder)
    (h : b.proto.parameters = [] ∨ ∃ t rest, b.proto.parameters = t :: rest
      ∧ t.testThisFlag = false) :
    b.setStatic Static = { b with flags := b.flags ||| (Static <<< 2) } := by
  unfold FunctionBuilder.setStatic
  have hc : (b.proto.count == 0 || !(b.proto.at_ 0).testThisFlag) = true := by
    rcases h with h | ⟨t, rest, h, ht⟩
    · simp [Prototype.count, h]
    · simp [Prototype.count, Prototype.at_, h, ht]
  simp only [hc, if_true]

/-- C33: `FunctionBuilder::setStatic` sets the static flag and leaves the return
type alone; when the first parameter carries the this-flag the parameters
become the former parameters `1 .. n-1` in the same order (one less); with no
parameter, or a first parameter without the this-flag, the prototype is
unchanged; and when no parameter after the first carries the this-flag, a
second call changes nothing. -/
theorem FunctionBuilder.setStatic_removes_this (Static : Nat) (b : FunctionBuilder) :
    (Static ≠ 0 → (b.setStatic Static).isStatic Static = true)
    ∧ (b.setStatic Static).flags = b.flags ||| (Static <<< 2)
    ∧ (b.setStatic Static).proto.returnType = b.proto.returnType
    ∧ (∀ t rest, b.proto.parameters = t :: rest → t.testThisFlag = true →
        (b.setStatic Static).proto.parameters = rest
        ∧ (b.setStatic Static).proto.count + 1 = b.proto.count
        ∧ ∀ i, (b.setStatic Static).proto.at_ i = b.proto.at_ (i + 1))
    ∧ (b.proto.count = 0 → (b.setStatic Static).proto = b.proto)
    ∧ ((b.proto.at_ 0).testThisFlag = false → (b.setStatic Static).proto = b.proto)
    ∧ ((∀ t ∈ b.proto.parameters.tail, t.testThisFlag = false) →
        (b.setStatic Static).setStatic Static = b.setStatic Static) := by
  have hcases : (b.proto.parameters = [] ∨ ∃ t rest, b.proto.parameters = t :: rest
        ∧ t.testThisFlag = false)
      ∨ ∃ t rest, b.proto.parameters = t :: rest ∧ t.testThisFlag = true := by
    cases hp : b.proto.parameters with
    | nil => exact Or.inl (Or.inl rfl)
    | cons t rest =>
      cases ht : t.testThisFlag
      · exact Or.inl (Or.inr ⟨t, rest, rfl, ht⟩)
      · exact Or.inr ⟨t, rest, rfl, ht⟩
  have hflags : (b.setStatic Static).flags = b.flags ||| (Static <<< 2) := by
    rcases hcases with h | ⟨t, rest, hp, ht⟩
    · rw [FunctionBuilder.setStatic_no_this Static b h]
    · rw [FunctionBuilder.setStatic_this Static b t rest hp ht]
  refine ⟨?_, hflags, ?_, ?_, ?_, ?_, ?_⟩
  · intro hs
    unfold FunctionBuilder.isStatic
    rw [hflags]
    have : (b.flags ||| Static <<< 2) &&& Static <<< 2 = Static <<< 2 := by
      apply Nat.eq_of_testBit_eq
      intro i
      simp only [Nat.testBit_and, Nat.testBit_or]
      cases (Static <<< 2).testBit i <;> simp
    rw [this]
    simp only [bne_iff_ne, ne_eq, Nat.shiftLeft_eq]
    have : 0 < Static := Nat.pos_of_ne_zero hs
    omega
  · rcases hcases with h | ⟨t, rest, hp, ht⟩
    · rw [FunctionBuilder.setStatic_no_this Static b h]
    · rw [FunctionBuilder.setStatic_this Static b t rest hp ht]
  · intro t rest hp ht
    rw [FunctionBuilder.setStatic_this Static b t rest hp ht]
    refine ⟨rfl, ?_, ?_⟩
    · simp [Prototype.count, hp]
    · intro i
      simp [Prototype.at_, hp]
  · intro h0
    rw [FunctionBuilder.setStatic_no_this Static b
      (Or.inl (List.length_eq_zero.mp h0))]
  · intro hth
    rcases hcases with h | ⟨t, rest, hp, ht⟩
    · rw [FunctionBuilder.setStatic_no_this Static b h]
    · exfalso
      simp only [Prototype.at_, hp, List.getD_cons_zero] at hth
      rw [ht] at hth; cases hth
  · intro hall
    have hor : ∀ x y : Nat, (x ||| y) ||| y = x ||| y := by
      intro x y
      rw [Nat.or_assoc, Nat.or_self]
    rcases hcases with h | ⟨t, rest, hp, ht⟩
    · rw [FunctionBuilder.setStatic_no_this Static b h]
      have h2 := FunctionBuilder.setStatic_no_this Static
        { b with flags := b.flags ||| Static <<< 2 } h
      rw [h2]
      simp only [hor]
    · rw [FunctionBuilder.setStatic_this Static b t rest hp ht]
      rw [hp] at hall
      simp only [List.tail_cons] at hall
      have h2 := FunctionBuilder.setStatic_no_this Static
        { flags := b.flags ||| Static <<< 2,
          proto := { returnType := b.proto.returnType, parameters := rest } }
        (by
          cases rest with
          | nil => exact Or.inl rfl
          | cons u rest2 =>
            exact Or.inr ⟨u, rest2, rfl, hall u (List.mem_cons_self _ _)⟩)
      rw [h2]
      simp only [hor]

/-- C33 (witness): the builder of `int f(this, int, bool)` becomes the builder
of `int f(int, bool)`, static, and stays so after a second call. -/
theorem FunctionBuilder.setStatic_removes_this_witness :
    (memberBuilder.setStatic 1).isStatic 1 = true
    ∧ (memberBuilder.setStatic 1).proto.parameters = [Type_.Int, Type_.Boolean]
    ∧ (memberBuilder.setStatic 1).proto.count + 1 = memberBuilder.proto.count
    ∧ ({ memberBuilder with proto := {} } : FunctionBuilder).setStatic 1
        = { flags := 4, proto := {} }
    ∧ (memberBuilder.setStatic 1).setStatic 1 = memberBuilder.setStatic 1 :=
  ⟨(FunctionBuilder.setStatic_removes_this 1 memberBuilder).1 (by decide),
   ((FunctionBuilder.setStatic_removes_this 1 memberBuilder).2.2.2.1 _ _ rfl (by decide)).1,
   ((FunctionBuilder.setStatic_removes_this 1 memberBuilder).2.2.2.1 _ _ rfl (by decide)).2.1,
   by decide,
   (FunctionBuilder.setStatic_removes_this 1 memberBuilder).2.2.2.2.2.2 (by decide)⟩

/-- Successive reads return the tokens of the buffer from the index onwards. -/
theorem ParserData.reads_eq (n : Nat) (d : ParserData) (h : d.mIndex ≤ d.mBuffer.length) :
    ParserData.reads n d = (d.mBuffer.drop d.mIndex).take n := by
  induction n generalizing d with
  | zero => simp [ParserData.reads]
  | succ n ih =>
    unfold ParserData.reads ParserData.read
    by_cases he : d.mIndex = d.mBuffer.length
    · rw [if_pos he]
      simp [he]
    · have hlt : d.mIndex < d.mBuffer.length := by omega
      rw [if_neg he, if_neg (by omega)]
      simp only
      rw [ih _ (by simp only; omega)]
      simp only
      rw [List.drop_eq_getElem_cons hlt, List.take_succ_cons]
      congr 1
      simp [List.getD_eq_getElem?_getD, List.getElem?_eq_getElem hlt]

/-- C40: on a parser data whose index is within the buffer, `clearBuffer` sets
the index to 0 and the buffer to the former buffer from the former index
onwards; `atEnd` is unchanged and successive reads return the same tokens as
without the call (the remaining tokens of the buffer, in order); `read` at the
end of the buffer throws `UnexpectedEndOfInput`, before as after the call; and
`seek(pos())` leaves the parser data unchanged. -/
theorem ParserData.clearBuffer_keeps_tokens (d : ParserData)
    (h : d.mIndex ≤ d.mBuffer.length) :
    d.clearBuffer.mIndex = 0
    ∧ d.clearBuffer.mBuffer = d.mBuffer.drop d.mIndex
    ∧ d.clearBuffer.atEnd = d.atEnd
    ∧ (∀ n, ParserData.reads n d.clearBuffer = ParserData.reads n d)
    ∧ (∀ n, ParserData.reads n d = (d.mBuffer.drop d.mIndex).take n)
    ∧ (d.atEnd = true →
        d.read = .error (.SyntaxError .UnexpectedEndOfInput, d)
        ∧ d.clearBuffer.read = .error (.SyntaxError .UnexpectedEndOfInput, d.clearBuffer))
    ∧ (d.atEnd = false →
        ∃ t d2 d3, d.read = .ok (t, d2) ∧ d.clearBuffer.read = .ok (t, d3)
          ∧ d3.mBuffer.drop d3.mIndex = d2.mBuffer.drop d2.mIndex)
    ∧ d.seek d.pos = d
    ∧ (d.seek d.pos).mIndex = d.mIndex := by
  have hi : d.clearBuffer.mIndex = 0 := by
    unfold ParserData.clearBuffer; split_ifs <;> rfl
  have hb : d.clearBuffer.mBuffer = d.mBuffer.drop d.mIndex := by
    unfold ParserData.clearBuffer
    split_ifs with he
    · simp [he]
    · rfl
  have hle : d.clearBuffer.mIndex ≤ d.clearBuffer.mBuffer.length := by rw [hi]; omega
  have hrem : d.clearBuffer.mBuffer.drop d.clearBuffer.mIndex = d.mBuffer.drop d.mIndex := by
    rw [hi, hb]; rfl
  have hend : d.clearBuffer.atEnd = d.atEnd := by
    unfold ParserData.atEnd
    rw [hi, hb, List.length_drop]
    by_cases he : d.mIndex < d.mBuffer.length
    · rw [if_pos he, if_pos (by omega)]
    · rw [if_neg he, if_neg (by omega)]
  refine ⟨hi, hb, hend, ?_, fun n => ParserData.reads_eq n d h, ?_, ?_, rfl, rfl⟩
  · intro n
    rw [ParserData.reads_eq n d h, ParserData.reads_eq n _ hle, hrem]
  · intro hat
    have he : d.mIndex = d.mBuffer.length := by
      unfold ParserData.atEnd at hat
      by_cases hlt : d.mIndex < d.mBuffer.length
      · rw [if_pos hlt] at hat; cases hat
      · omega
    have he2 : d.clearBuffer.mIndex = d.clearBuffer.mBuffer.length := by
      rw [hi, hb, List.length_drop]; omega
    unfold ParserData.read
    rw [if_pos he, if_pos he2]
    exact ⟨rfl, rfl⟩
  · intro hat
    have hlt : d.mIndex < d.mBuffer.length := by
      unfold ParserData.atEnd at hat
      by_cases hlt : d.mIndex < d.mBuffer.length
      · exact hlt
      · rw [if_neg hlt] at hat; cases hat
    have hlt2 : d.clearBuffer.mIndex < d.clearBuffer.mBuffer.length := by
      rw [hi, hb, List.length_drop]; omega
    refine ⟨d.mBuffer.getD d.mIndex {}, { d with mIndex := d.mIndex + 1 },
      { d.clearBuffer with mIndex := d.clearBuffer.mIndex + 1 }, ?_, ?_, ?_⟩
    · unfold ParserData.read
      rw [if_neg (by omega), if_neg (by omega)]
    · unfold ParserData.read
      rw [if_neg (by omega), if_neg (by omega)]
      rw [hi, hb]
      simp [List.getD_eq_getElem?_getD]
      exact hb.symm
    · show d.clearBuffer.mBuffer.drop (d.clearBuffer.mIndex + 1) = d.mBuffer.drop (d.mIndex + 1)
      rw [hi, hb, List.drop_drop]

/-- C40 (witness): the buffer of `x = 3 ;` with the index on `3`. -/
theorem ParserData.clearBuffer_keeps_tokens_witness :
    ({ mBuffer := assignmentTokens, mIndex := 2 } : ParserData).clearBuffer.mIndex = 0
    ∧ ({ mBuffer := assignmentTokens, mIndex := 2 } : ParserData).clearBuffer.mBuffer
        = assignmentTokens.drop 2
    ∧ ∀ n, ParserData.reads n ({ mBuffer := assignmentTokens, mIndex := 2 } : ParserData).clearBuffer
        = ParserData.reads n { mBuffer := assignmentTokens, mIndex := 2 } :=
  ⟨(ParserData.clearBuffer_keeps_tokens { mBuffer := assignmentTokens, mIndex := 2 }
      (by decide)).1,
   (ParserData.clearBuffer_keeps_tokens { mBuffer := assignmentTokens, mIndex := 2 }
      (by decide)).2.1,
   (ParserData.clearBuffer_keeps_tokens { mBuffer := assignmentTokens, mIndex := 2 }
      (by decide)).2.2.2.1⟩

/-- The colon that the search finds stands to the right of `index`, at most at
the start position of the search. -/
theorem colonSearch_range (ops : List Token) (index : Nat) :
    ∀ j ci, colonSearch ops index j = some ci → index < ci ∧ ci ≤ j := by
  intro j
  induction j with
  | zero => intro ci h; simp [colonSearch] at h
  | succ j ih =>
    intro ci h
    rw [colonSearch] at h
    by_cases hj : j + 1 > index
    · rw [if_pos hj] at h
      by_cases hc : (getOp ops (j + 1)).type = .Colon
      · rw [if_pos hc] at h
        cases h
        exact ⟨hj, le_refl _⟩
      · rw [if_neg hc] at h
        have := ih ci h
        omega
    · rw [if_neg hj] at h; cases h

/-- A list is the part before a position, the element there and the part after. -/
theorem getOp_split (ops : List Token) (k : Nat) (hk : k < ops.length) :
    ops.take k ++ getOp ops k :: ops.drop (k + 1) = ops := by
  unfold getOp
  rw [List.getD_eq_getElem?_getD, List.getElem?_eq_getElem hk]
  simp only [Option.getD_some]
  rw [← List.drop_eq_getElem_cons hk, List.take_append_drop]

/-- The tree that `buildExpression` returns on leaves lists them, and the
operator tokens, in the order in which it received them. -/
theorem buildExpressionFuel_order (g : Token → BuiltInOperator) :
    ∀ (n : Nat) (operands : List ast.Expression) (ops : List Token) (e : ast.Expression),
      operands.length = ops.length + 1 →
      (∀ x ∈ operands, ∃ id, x = .Operand id) →
      buildExpressionFuel g n operands ops = .ok e →
      e.operands = operands ∧ e.operatorTokens = ops := by
  intro n
  induction n with
  | zero => intro operands ops e _ _ h; simp [buildExpressionFuel] at h
  | succ n ih =>
    intro operands ops e hlen hleaf h
    unfold buildExpressionFuel at h
    by_cases h0 : ops.length = 0
    · rw [if_pos h0] at h
      have hops : ops = [] := List.length_eq_zero.mp h0
      cases operands with
      | nil => simp at hlen
      | cons x rest =>
        have hrest : rest = [] := by
          apply List.length_eq_zero.mp
          simp only [List.length_cons, h0] at hlen
          omega
        subst hrest
        simp only [Except.ok.injEq] at h
        subst h
        obtain ⟨id, hid⟩ := hleaf x (List.mem_cons_self _ _)
        subst hid
        exact ⟨rfl, hops.symm⟩
    · rw [if_neg h0] at h
      cases hs : selectIndex g ops with
      | none => rw [hs] at h; simp at h
      | some k =>
        rw [hs] at h
        simp only at h
        have hk := selectIndex_lt g ops k hs
        have hleafT : ∀ m, ∀ x ∈ operands.take m, ∃ id, x = ast.Expression.Operand id :=
          fun m x hx => hleaf x (List.mem_of_mem_take hx)
        have hleafD : ∀ m, ∀ x ∈ operands.drop m, ∃ id, x = ast.Expression.Operand id :=
          fun m x hx => hleaf x (List.mem_of_mem_drop hx)
        by_cases hq : (getOp ops k).type = .QuestionMark
        · rw [if_pos hq] at h
          cases h1 : buildExpressionFuel g n (operands.take (k + 1)) (ops.take k) with
          | error err => rw [h1] at h; simp at h
          | ok cond =>
            rw [h1] at h
            simp only at h
            cases hc : colonSearch ops k (ops.length - 1) with
            | none => rw [hc] at h; simp at h
            | some ci =>
              rw [hc] at h
              simp only at h
              obtain ⟨hci1, hci2⟩ := colonSearch_range ops k _ ci hc
              cases h2 : buildExpressionFuel g n ((operands.drop (k + 1)).take (ci - k))
                  ((ops.drop (k + 1)).take (ci - k - 1)) with
              | error err => rw [h2] at h; simp at h
              | ok onTrue =>
                rw [h2] at h
                simp only at h
                cases h3 : buildExpressionFuel g n (operands.drop (ci + 1))
                    (ops.drop (ci + 1)) with
                | error err => rw [h3] at h; simp at h
                | ok onFalse =>
                  rw [h3] at h
                  simp only [Except.ok.injEq] at h
                  subst h
                  obtain ⟨a1, b1⟩ := ih _ _ cond
                    (by rw [List.length_take, List.length_take]; omega) (hleafT _) h1
                  obtain ⟨a2, b2⟩ := ih _ _ onTrue
                    (by simp only [List.length_take, List.length_drop]; omega)
                    (fun x hx => hleafD _ x (List.mem_of_mem_take hx)) h2
                  obtain ⟨a3, b3⟩ := ih _ _ onFalse
                    (by simp only [List.length_drop]; omega) (hleafD _) h3
                  constructor
                  · simp only [ast.Expression.operands, a1, a2, a3]
                    have e1 : operands.drop (ci + 1)
                        = (operands.drop (k + 1)).drop (ci - k) := by
                      rw [List.drop_drop]; congr 1; omega
                    rw [e1, List.append_assoc, List.take_append_drop, List.take_append_drop]
                  · simp only [ast.Expression.operatorTokens, b1, b2, b3]
                    have hci : ci < ops.length := by omega
                    have e2 : (ops.drop (k + 1)).take (ci - k - 1) ++ getOp ops ci
                        :: ops.drop (ci + 1) = ops.drop (k + 1) := by
                      have hlt : ci - k - 1 < (ops.drop (k + 1)).length := by
                        rw [List.length_drop]; omega
                      have := getOp_split (ops.drop (k + 1)) (ci - k - 1) hlt
                      rw [List.drop_drop] at this
                      have e3 : getOp (ops.drop (k + 1)) (ci - k - 1) = getOp ops ci := by
                        unfold getOp
                        rw [List.getD_eq_getElem?_getD, List.getD_eq_getElem?_getD,
                          List.getElem?_drop]
                        congr 2; omega
                      have e4 : k + 1 + (ci - k - 1 + 1) = ci + 1 := by omega
                      rw [e3] at this
                      rw [← e4]
                      exact this
                    rw [List.append_assoc, List.cons_append, e2]
                    exact getOp_split ops k hk
        · rw [if_neg hq] at h
          cases h1 : buildExpressionFuel g n (operands.take (k + 1)) (ops.take k) with
          | error err => rw [h1] at h; simp at h
          | ok lhs =>
            rw [h1] at h
            simp only at h
            cases h2 : buildExpressionFuel g n (operands.drop (k + 1)) (ops.drop (k + 1)) with
            | error err => rw [h2] at h; simp at h
            | ok rhs =>
              rw [h2] at h
              simp only [Except.ok.injEq] at h
              subst h
              obtain ⟨a1, b1⟩ := ih _ _ lhs
                (by rw [List.length_take, List.length_take]; omega) (hleafT _) h1
              obtain ⟨a2, b2⟩ := ih _ _ rhs
                (by simp only [List.length_drop]; omega) (hleafD _) h2
              constructor
              · simp only [ast.Expression.operands, a1, a2, List.take_append_drop]
              · simp only [ast.Expression.operatorTokens, b1, b2]
                exact getOp_split ops k hk

/-- The tree that `buildExpression` returns does not depend on what the
operands are: replacing the operands replaces the leaves. -/
theorem buildExpressionFuel_substitute (g : Token → BuiltInOperator)
    (f : Nat → ast.Expression) :
    ∀ (n : Nat) (xs : List ast.Expression) (ops : List Token),
      buildExpressionFuel g n (xs.map (ast.Expression.substitute f)) ops
        = (buildExpressionFuel g n xs ops).map (ast.Expression.substitute f) := by
  intro n
  induction n with
  | zero => intro xs ops; rfl
  | succ n ih =>
    intro xs ops
    conv_lhs => unfold buildExpressionFuel
    conv_rhs => unfold buildExpressionFuel
    by_cases h0 : ops.length = 0
    · rw [if_pos h0, if_pos h0]
      cases xs with
      | nil => rfl
      | cons x rest => rfl
    · rw [if_neg h0, if_neg h0]
      cases hs : selectIndex g ops with
      | none => rfl
      | some k =>
        simp only [← List.map_take, ← List.map_drop, ih]
        by_cases hq : (getOp ops k).type = .QuestionMark
        · rw [if_pos hq, if_pos hq]
          cases h1 : buildExpressionFuel g n (xs.take (k + 1)) (ops.take k) with
          | error err => rfl
          | ok cond =>
            simp only [Except.map]
            cases hc : colonSearch ops k (ops.length - 1) with
            | none => rfl
            | some ci =>
              simp only
              cases h2 : buildExpressionFuel g n ((xs.drop (k + 1)).take (ci - k))
                  ((ops.drop (k + 1)).take (ci - k - 1)) with
              | error err => rfl
              | ok onTrue =>
                simp only [Except.map]
                cases h3 : buildExpressionFuel g n (xs.drop (ci + 1)) (ops.drop (ci + 1)) with
                | error err => rfl
                | ok onFalse => rfl
        · rw [if_neg hq, if_neg hq]
          cases h1 : buildExpressionFuel g n (xs.take (k + 1)) (ops.take k) with
          | error err => rfl
          | ok lhs =>
            simp only [Except.map]
            cases h2 : buildExpressionFuel g n (xs.drop (k + 1)) (ops.drop (k + 1)) with
            | error err => rfl
            | ok rhs => rfl

/-- C39: on `n + 1` operands and `n` operator tokens, a tree that
`buildExpression` returns is the tree that it builds over the placeholders
`Operand 0, ..., Operand n`, with the operand at position `i` in the place of
`Operand i`; an in-order traversal of that tree lists the placeholders in the
order `0, ..., n`, each of them once, and its nodes hold the operator tokens in
their original order, each of them once (a `?` and its `:` in one conditional
node); a single operand is returned as it is; and the recursion ends: the
budget of one more than the number of operator tokens is never exhausted, and
a larger one gives the same result. -/
theorem buildExpression_preserves_order (g : Token → BuiltInOperator)
    (operands : List ast.Expression) (ops : List Token) :
    (operands.length = ops.length + 1 →
      ∀ e, buildExpression g operands ops = .ok e →
        ∃ shape,
          buildExpression g ((List.range operands.length).map ast.Expression.Operand) ops
            = .ok shape
          ∧ shape.operands = (List.range operands.length).map ast.Expression.Operand
          ∧ shape.operatorTokens = ops
          ∧ e = shape.substitute (fun i => operands.getD i (.Operand i)))
    ∧ (operands.length = ops.length + 1 →
      (∀ x ∈ operands, ∃ id, x = ast.Expression.Operand id) →
      ∀ e, buildExpression g operands ops = .ok e →
        e.operands = operands ∧ e.operatorTokens = ops)
    ∧ (∀ x, buildExpression g [x] ops = .ok x)
    ∧ buildExpression g operands ops ≠ .error .OutOfFuel
    ∧ (∀ fuel, ops.length < fuel →
        buildExpressionFuel g fuel operands ops = buildExpressionRange g operands ops) := by
  refine ⟨?_, ?_, fun x => rfl, ?_, ?_⟩
  · intro hlen e h
    have hL : ((List.range operands.length).map ast.Expression.Operand).length
        = ops.length + 1 := by
      rw [List.length_map, List.length_range, hlen]
    have hmap : ((List.range operands.length).map ast.Expression.Operand).map
        (ast.Expression.substitute (fun i => operands.getD i (.Operand i))) = operands := by
      apply List.ext_getElem
      · simp
      · intro i h1 h2
        simp [ast.Expression.substitute, List.getD_eq_getElem?_getD, List.getElem?_eq_getElem h2]
    rw [buildExpression_eq_range g operands ops hlen] at h
    unfold buildExpressionRange at h
    rw [← hmap, buildExpressionFuel_substitute] at h
    cases hb : buildExpressionFuel g (ops.length + 1)
        ((List.range operands.length).map ast.Expression.Operand) ops with
    | error err => rw [hb] at h; cases h
    | ok shape =>
      rw [hb] at h
      simp only [Except.map, Except.ok.injEq] at h
      obtain ⟨a, b⟩ := buildExpressionFuel_order g _ _ ops shape hL
        (by intro x hx
            simp only [List.mem_map, List.mem_range] at hx
            obtain ⟨i, _, hi⟩ := hx
            exact ⟨i, hi.symm⟩) hb
      refine ⟨shape, ?_, a, b, h.symm⟩
      rw [buildExpression_eq_range g _ ops hL]
      exact hb
  · intro hlen hleaf e h
    rw [buildExpression_eq_range g operands ops hlen] at h
    exact buildExpressionFuel_order g _ operands ops e hlen hleaf h
  · have hr : buildExpressionRange g operands ops ≠ .error .OutOfFuel :=
      buildExpressionFuel_total g _ operands ops (Nat.lt_succ_self _)
    unfold buildExpression
    split
    · intro h; cases h
    · exact hr
  · intro fuel hf
    exact buildExpressionFuel_fuel g fuel (ops.length + 1) operands ops hf (Nat.lt_succ_self _)

/-- C39 (witness): the tree of `x + 1 ? 2 * y : z` lists its five operands and
its four operator tokens in the order of the source. -/
theorem buildExpression_preserves_order_witness :
    ∃ e, buildExpression binaryOperatorId
          [.Operand 1, .Operand 2, .Operand 3, .Operand 4, .Operand 5]
          [tokenAt .Plus 2, tokenAt .QuestionMark 6, tokenAt .Mul 8, tokenAt .Colon 12] = .ok e
      ∧ e.operands = [.Operand 1, .Operand 2, .Operand 3, .Operand 4, .Operand 5]
      ∧ e.operatorTokens
          = [tokenAt .Plus 2, tokenAt .QuestionMark 6, tokenAt .Mul 8, tokenAt .Colon 12] :=
  ⟨_, rfl,
    (buildExpression_preserves_order binaryOperatorId
      [.Operand 1, .Operand 2, .Operand 3, .Operand 4, .Operand 5]
      [tokenAt .Plus 2, tokenAt .QuestionMark 6, tokenAt .Mul 8, tokenAt .Colon 12]).2.1
      (by decide)
      (by intro x hx
          simp only [List.mem_cons, List.mem_singleton, List.not_mem_nil, or_false] at hx
          rcases hx with rfl | rfl | rfl | rfl | rfl <;> exact ⟨_, rfl⟩)
      _ rfl⟩

/-- C31 (the code): after `operator`, on `(` followed by `)` (respectively `[`
followed by `]`) at the start of a script, `readOperatorName` compares the
columns of the two tokens and nothing else: when the column of the closing
token is the column of the opening one plus 1 it returns the operator name
whose symbol is the `LeftRightPar` (respectively `LeftRightBracket`) token of
length 2 at the position of the opening token, and otherwise it throws
`UnexpectedToken`; the lines and the offsets of the two tokens are not read. -/
theorem IdentifierParser.readOperatorName_compares_columns (env : IdentifierParserEnv)
    (opkw lp rp : Token) (rest : List Token)
    (hopt : env.parseOperatorName = true) (hop : env.isOperatorToken lp = false) :
    (lp.type = .LeftPar → rp.type = .RightPar →
      IdentifierParser.readOperatorName env .ScriptFragment
          { mBuffer := opkw :: lp :: rp :: rest, mIndex := 0 }
        = if lp.column + 1 = rp.column then
            .ok (.OperatorName { type := .LeftRightPar, pos := lp.pos, length := 2,
                                 line := lp.line, column := lp.column },
                 { mBuffer := opkw :: lp :: rp :: rest, mIndex := 3 })
          else .error (.SyntaxError .UnexpectedToken,
                 { mBuffer := opkw :: lp :: rp :: rest, mIndex := 3 }))
    ∧ (lp.type = .LeftBracket → rp.type = .RightBracket →
      IdentifierParser.readOperatorName env .ScriptFragment
          { mBuffer := opkw :: lp :: rp :: rest, mIndex := 0 }
        = if lp.column + 1 = rp.column then
            .ok (.OperatorName { type := .LeftRightBracket, pos := lp.pos, length := 2,
                                 line := lp.line, column := lp.column },
                 { mBuffer := opkw :: lp :: rp :: rest, mIndex := 3 })
          else .error (.SyntaxError .UnexpectedToken,
                 { mBuffer := opkw :: lp :: rp :: rest, mIndex := 3 })) := by
  constructor
  · intro hlp hrp
    unfold IdentifierParser.readOperatorName
    simp only [hopt, Bool.not_true, Bool.false_eq_true, if_false]
    have h3 : ¬ (rest.length + 1 + 1 + 1 < 2) := by omega
    by_cases hc : lp.column + 1 = rp.column
    · simp [ParserData.read, AbstractFragment.atEnd, AbstractFragment.peek, ParserData.atEnd,
        ParserData.unsafe_peek, ParserBase.readType, hop, hlp, hrp, h3, hc]
    · simp [ParserData.read, AbstractFragment.atEnd, AbstractFragment.peek, ParserData.atEnd,
        ParserData.unsafe_peek, ParserBase.readType, hop, hlp, hrp, h3, hc]
  · intro hlp hrp
    unfold IdentifierParser.readOperatorName
    simp only [hopt, Bool.not_true, Bool.false_eq_true, if_false]
    have h3 : ¬ (rest.length + 1 + 1 + 1 < 2) := by omega
    by_cases hc : lp.column + 1 = rp.column
    · simp [ParserData.read, AbstractFragment.atEnd, AbstractFragment.peek, ParserData.atEnd,
        ParserData.unsafe_peek, ParserBase.readType, hop, hlp, hrp, h3, hc]
    · simp [ParserData.read, AbstractFragment.atEnd, AbstractFragment.peek, ParserData.atEnd,
        ParserData.unsafe_peek, ParserBase.readType, hop, hlp, hrp, h3, hc]

/-- C31 (witness, the failing input): `operator(` at the end of a line and `)`
on the next line, one column further, are accepted as `operator()`, although
the closing parenthesis is neither on the line of the opening one nor at its
offset plus 1; `operator( )` on one line is rejected. -/
theorem IdentifierParser.readOperatorName_compares_columns_witness :
    IdentifierParser.readOperatorName operatorNameEnv .ScriptFragment
        { mBuffer := operatorCallTwoLines, mIndex := 0 }
      = .ok (.OperatorName { type := .LeftRightPar, pos := 8, length := 2, line := 0,
                             column := 8 },
             { mBuffer := operatorCallTwoLines, mIndex := 3 })
    ∧ (operatorCallTwoLines.getD 2 {}).line ≠ (operatorCallTwoLines.getD 1 {}).line
    ∧ (operatorCallTwoLines.getD 2 {}).pos ≠ (operatorCallTwoLines.getD 1 {}).pos + 1
    ∧ IdentifierParser.readOperatorName operatorNameEnv .ScriptFragment
        { mBuffer := operatorCallSpaced, mIndex := 0 }
      = .error (.SyntaxError .UnexpectedToken, { mBuffer := operatorCallSpaced, mIndex := 3 }) :=
  ⟨(IdentifierParser.readOperatorName_compares_columns operatorNameEnv
      { type := .Operator, pos := 0, length := 8, line := 0, column := 0 }
      { type := .LeftPar, pos := 8, length := 1, line := 0, column := 8 }
      { type := .RightPar, pos := 19, length := 1, line := 1, column := 9 } []
      rfl (by decide)).1 rfl rfl,
   by decide, by decide,
   (IdentifierParser.readOperatorName_compares_columns operatorNameEnv
      { type := .Operator, pos := 0, length := 8, line := 0, column := 0 }
      (tokenAt .LeftPar 8) (tokenAt .RightPar 10) [] rfl (by decide)).1 rfl rfl⟩

/-- C35 (the code): `parseForLoop` does not return to the token after `(` when
`detectDecl` reports that the init statement is not a declaration: the init
expression is parsed from the parser data that the detection left, and an error
of the expression parser there is the outcome of `parseForLoop`. -/
theorem ProgramParser.parseForLoop_init_after_detection (env : ParserEnv)
    (frag : AbstractFragment) (fuel : Nat) (data data1 data2 data3 : ParserData)
    (forkw leftpar : Token) (ex : ParserException × ParserData)
    (h1 : data.read = .ok (forkw, data1))
    (h2 : ParserBase.readType data1 .LeftPar = .ok (leftpar, data2))
    (h3 : env.detectDecl frag data2 = .ok (false, data3))
    (h4 : ExpressionParser.parse env (.SentinelFragment .Semicolon frag) fuel data3
      = .error ex) :
    ProgramParser.parseForLoop env frag fuel data = .error ex := by
  unfold ProgramParser.parseForLoop
  simp only [h1, h2, h3, h4]

/-- C35 (witness, the failing input): on `for ( i = 0 ; i < n ; ++ i ) ;` the
detection reads `i` before it reports that `i = 0` is not a declaration, the
init expression is then parsed from `=`, and `parseForLoop` throws
`ExpectedPrefixOperator` with the index on `=`; no `ForLoop` is returned. The
same statement `i = 0 ;` is parsed by `parseAmbiguous`, which seeks back to its
first token after the detection. -/
theorem ProgramParser.parseForLoop_init_after_detection_witness :
    ProgramParser.parseForLoop simpleParserEnv .ScriptFragment 10
        { mBuffer := forLoopTokens, mIndex := 0 }
      = .error (.SyntaxError .ExpectedPrefixOperator, { mBuffer := forLoopTokens, mIndex := 3 })
    ∧ simpleParserEnv.detectDecl .ScriptFragment { mBuffer := forLoopTokens, mIndex := 2 }
      = .ok (false, { mBuffer := forLoopTokens, mIndex := 3 })
    ∧ ProgramParser.parseAmbiguous simpleParserEnv .ScriptFragment 10
        { mBuffer := initTokens, mIndex := 0 }
      = .ok (.ExpressionStatement (.Operation (tokenAt .Eq 8) (.Operand 6) (.Operand 10))
              (tokenAt .Semicolon 12), { mBuffer := initTokens, mIndex := 4 }) :=
  ⟨ProgramParser.parseForLoop_init_after_detection simpleParserEnv .ScriptFragment 10
      { mBuffer := forLoopTokens, mIndex := 0 } { mBuffer := forLoopTokens, mIndex := 1 }
      { mBuffer := forLoopTokens, mIndex := 2 } { mBuffer := forLoopTokens, mIndex := 3 }
      { type := .For, pos := 0, length := 3, column := 0 } (tokenAt .LeftPar 4)
      (.SyntaxError .ExpectedPrefixOperator, { mBuffer := forLoopTokens, mIndex := 3 })
      rfl rfl rfl rfl,
   rfl, rfl⟩

end script
